import Mathlib

/-!
Scarlett 18i6 mixer: control topology, value codec and synchronisation core.

A shallow embedding of `src/scarlett_mixer.c`.

Conventions of the embedding:

* A pointer `Mctrl*` into the registry `ui->ctrl` is its registry index; `NULL` is `none`.
  The topology functions therefore return `Option Nat` and do not need the `ui` argument.
* `unsigned int` arithmetic is `Nat` arithmetic reduced modulo `2 ^ 32`.
* `float` / `double` arithmetic is read as exact arithmetic over `ℝ`, `rint` as
  round-to-nearest with ties to even. Definitions that compute with real numbers
  cannot be executed and are marked `noncomputable`.
* Code that dereferences `NULL`, reads past the end of the registry, divides by zero or
  fails an `assert` has no result: it returns `none`.
* ALSA and RobTk are external libraries. The ALSA simple-element API is modelled as a
  store of element values with the documented error cases; RobTk widgets are modelled as
  cells holding the value last set (the clamping and stepping of dial positions by the
  toolkit is not modelled), which run their registered callback when a set changes the
  value.
-/

namespace Scarlett

/-! ## Device constants -/

/-- Matrix inputs (rows), `#define SMI 18`. -/
def SMI : Nat := 18
/-- Matrix outputs (columns), `#define SMO 6`. -/
def SMO : Nat := 6
/-- Capture selectors, `#define SIN 18`. -/
def SIN : Nat := 18
/-- Output assigns, `#define SOUT 6`. -/
def SOUT : Nat := 6
/-- Stereo output gains, `#define SMST 3`. -/
def SMST : Nat := 3
/-- Expected card name, `#define DEVICE_NAME`. -/
def DEVICE_NAME : String := "Scarlett 18i6 USB"
/-- Modulus of `unsigned int` arithmetic. -/
def UINT_MOD : Nat := 2 ^ 32

/-! ## Mapping for the 18i6 (lines 100-222) -/

/-- Mixer matrix cell, column `c` and row `r` (line 108). -/
def matrix_ctrl_cr (c r : Nat) : Option Nat :=
  if r ≥ SMI ∨ c ≥ SMO then none
  else some ((33 + r * 7 + c) % UINT_MOD)

/-- Linear lookup wrapper around `matrix_ctrl_cr` (line 122). -/
def matrix_ctrl_n (n : Nat) : Option Nat :=
  let c := n % SMO
  let r := n / SMO
  matrix_ctrl_cr c r

/-- Matrix input selector of row `r` (line 130). -/
def matrix_sel (r : Nat) : Option Nat :=
  if r ≥ SMI then none
  else some ((32 + r * 7) % UINT_MOD)

/-- Input/capture selector `r` (line 144). -/
def src_sel (r : Nat) : Option Nat :=
  if r ≥ SIN then none
  else some ((13 + r) % UINT_MOD)

/-- Output gains (line 164). -/
def out_gain (c : Nat) : Option Nat :=
  match c with
  | 0 => some 1
  | 1 => some 4
  | 2 => some 7
  | _ => none

/-- Output bus assignment (line 189). -/
def out_sel (c : Nat) : Option Nat :=
  match c with
  | 0 => some 2
  | 1 => some 3
  | 2 => some 5
  | 3 => some 6
  | 4 => some 8
  | 5 => some 9
  | _ => none

/-- Hi-Z switches (line 209). -/
def hiz (c : Nat) : Option Nat :=
  match c with
  | 0 => some 11
  | 1 => some 12
  | _ => none

/-- Master gain (line 219). -/
def mst_gain : Option Nat := some 0

/-! ## Value codec (lines 408-421) -/

/-- C `rint` in the default rounding mode: nearest integer, ties to even. -/
noncomputable def rint (x : ℝ) : ℝ :=
  let f : ℤ := ⌊x⌋
  let d : ℝ := x - f
  if d < 1 / 2 then f
  else if 1 / 2 < d then f + 1
  else if f % 2 = 0 then f else f + 1

/-- Decibel to knob position (line 408), for `db` other than 100.75, where the C code
divides by zero. -/
noncomputable def db_to_knob (db : ℝ) : ℝ :=
  let k : ℝ := (db + 128) / 228.75
  let s : ℝ := k * Real.sqrt 0.5 / (1 - k)
  s * s

/-- The unrounded, unclamped decibel value computed by `knob_to_db` (line 418). -/
noncomputable def knob_to_db_raw (v : ℝ) : ℝ :=
  Real.sqrt v / (Real.sqrt 0.5 + Real.sqrt v) * 228.75 - 128

/-- Knob position to decibel (line 415), for knob positions `v >= 0` (the dial range is
`0..1`; `sqrtf` of a negative number is not modelled). -/
noncomputable def knob_to_db (v : ℝ) : ℝ :=
  let db : ℝ := knob_to_db_raw v
  if db > 6 then 6 else rint db

/-- Conversion `float → long` (truncation toward zero), as in `long val = 100.f * dB`. -/
noncomputable def to_long (x : ℝ) : Int :=
  if 0 ≤ x then ⌊x⌋ else ⌈x⌉

/-! ## ALSA simple mixer elements (external library, modelled) -/

/-- Static description of a simple mixer element (`snd_mixer_elem_t`): what the
capability queries of the ALSA simple-element API answer. It never changes after open. -/
structure Elem where
  /-- Answer of `snd_mixer_selem_get_name`. -/
  name : String
  /-- Answer of `snd_mixer_selem_is_active`. -/
  is_active : Bool
  /-- Answer of `snd_mixer_selem_is_enumerated`. -/
  is_enumerated : Bool
  /-- Answer of `snd_mixer_selem_has_playback_switch`. -/
  has_playback_switch : Bool
  /-- Answer of `snd_mixer_selem_get_enum_items`. -/
  enum_items : Int
  /-- Answer of `snd_mixer_selem_has_playback_channel` per channel id. -/
  has_playback_channel : Nat → Bool
  /-- Answer of `snd_mixer_selem_has_capture_channel` per channel id. -/
  has_capture_channel : Nat → Bool
  /-- Lower end of the playback dB range, in 0.01 dB. -/
  dB_min : Int
  /-- Upper end of the playback dB range, in 0.01 dB. -/
  dB_max : Int

/-- Current values of a simple mixer element. -/
structure ElemVal where
  /-- Selected item of an enumerated element (channel 0). -/
  enum_item : Int
  /-- Playback switch per channel: 1 is on, 0 is off. -/
  playback_switch : Nat → Int
  /-- Playback gain per channel, in 0.01 dB. -/
  playback_dB : Nat → Int

/-- ALSA `snd_mixer_selem_set_enum_item` on channel 0: an item outside
`[0, enum_items)` is rejected (`-EINVAL`) and leaves the element unchanged. -/
def snd_mixer_selem_set_enum_item (e : Elem) (item : Int) (x : ElemVal) : ElemVal :=
  if 0 ≤ item ∧ item < e.enum_items then { x with enum_item := item } else x

/-- ALSA `snd_mixer_selem_get_enum_item` on channel 0. -/
def snd_mixer_selem_get_enum_item (_e : Elem) (x : ElemVal) : Int :=
  x.enum_item

/-- ALSA `snd_mixer_selem_set_playback_switch`: stores on/off for a channel the
element has; an error without effect otherwise. -/
def snd_mixer_selem_set_playback_switch (e : Elem) (chn : Nat) (v : Int) (x : ElemVal) :
    ElemVal :=
  if e.has_playback_switch ∧ e.has_playback_channel chn then
    { x with playback_switch := Function.update x.playback_switch chn (if v = 0 then 0 else 1) }
  else x

/-- ALSA `snd_mixer_selem_get_playback_switch`: `none` is an error return, which leaves
the caller's variable untouched. -/
def snd_mixer_selem_get_playback_switch (e : Elem) (chn : Nat) (x : ElemVal) : Option Int :=
  if e.has_playback_switch ∧ e.has_playback_channel chn then some (x.playback_switch chn)
  else none

/-- ALSA `snd_mixer_selem_set_playback_dB`: the value is clamped to the dB range of the
element; the rounding direction `dir` to the hardware step is not modelled. -/
def snd_mixer_selem_set_playback_dB (e : Elem) (chn : Nat) (val : Int) (_dir : Int)
    (x : ElemVal) : ElemVal :=
  if e.has_playback_channel chn then
    { x with playback_dB := Function.update x.playback_dB chn (max e.dB_min (min val e.dB_max)) }
  else x

/-- ALSA `snd_mixer_selem_get_playback_dB`: `none` is an error return. -/
def snd_mixer_selem_get_playback_dB (e : Elem) (chn : Nat) (x : ElemVal) : Option Int :=
  if e.has_playback_channel chn then some (x.playback_dB chn) else none

/-! ## Application state -/

/-- Calls of the six hardware accessors of the program, as recorded in the trace. -/
inductive Call where
  | set_mute (id : Nat) (muted : Bool)
  | get_mute (id : Nat)
  | get_dB (id : Nat)
  | set_dB (id : Nat) (dB : ℝ)
  | set_enum (id : Nat) (v : Int)
  | get_enum (id : Nat)

/-- The part of a `RobTkDial` the program uses. -/
structure Dial where
  /-- The dial position `cur`. -/
  cur : ℝ
  /-- The dial state `click_state`. -/
  click_state : Int

/-- The part of `RobTkApp` the control core uses. Widget arrays are functions of the
array index; `hw` are the element values held by `ui->mixer`, by registry index; `log`
and `closed` are ghost fields recording the accessor calls made and the number of
`robtk_close_self` requests. -/
structure RobTkApp where
  mtx_sel : Nat → Int
  mtx_gain : Nat → Dial
  src_sel : Nat → Int
  out_sel : Nat → Int
  out_gain : Nat → Dial
  mst_gain : Dial
  btn_hiz : Nat → Bool
  ctrl : List Elem
  ctrl_cnt : Nat
  hw : Nat → ElemVal
  nfds : Int
  disable_signals : Bool
  log : List Call
  closed : Nat

/-- Dereference of `c->elem`: `none` for `NULL` and for an index past the registry. -/
def deref (ui : RobTkApp) (c : Option Nat) : Option (Nat × Elem) :=
  match c with
  | none => none
  | some id =>
    match ui.ctrl[id]? with
    | none => none
    | some e => some (id, e)

/-- A counted loop `for (i = 0; i < n; ++i) body`. -/
def for_loop {σ : Type} (body : Nat → σ → Option σ) : Nat → σ → Option σ
  | 0, s => some s
  | n + 1, s => (for_loop body n s).bind (body n)

/-! ## ALSA mixer interface of the program (lines 336-402) -/

/-- The channel loop of `set_mute` (line 340): channels 0, 1 and 2. -/
def set_mute_channels (e : Elem) (v : Int) (x : ElemVal) : ElemVal :=
  (List.range 3).foldl
    (fun x chn =>
      if e.has_playback_channel chn then snd_mixer_selem_set_playback_switch e chn v x else x)
    x

/-- Source `set_mute` (line 336). The `assert` fails for `NULL` and for an element
without playback switch. -/
def set_mute (c : Option Nat) (muted : Bool) (ui : RobTkApp) : Option RobTkApp :=
  let v : Int := if muted then 0 else 1
  match deref ui c with
  | none => none
  | some (id, e) =>
    if e.has_playback_switch = false then none
    else some { ui with
      hw := Function.update ui.hw id (set_mute_channels e v (ui.hw id))
      log := ui.log ++ [Call.set_mute id muted] }

/-- Source `get_mute` (line 348). -/
def get_mute (c : Option Nat) (ui : RobTkApp) : Option (Bool × RobTkApp) :=
  match deref ui c with
  | none => none
  | some (id, e) =>
    if e.has_playback_switch = false then none
    else
      let v : Int := (snd_mixer_selem_get_playback_switch e 0 (ui.hw id)).getD 0
      some (decide (v = 0), { ui with log := ui.log ++ [Call.get_mute id] })

/-- Source `get_dB` (line 356). -/
noncomputable def get_dB (c : Option Nat) (ui : RobTkApp) : Option (ℝ × RobTkApp) :=
  match deref ui c with
  | none => none
  | some (id, e) =>
    let val : Int := (snd_mixer_selem_get_playback_dB e 0 (ui.hw id)).getD 0
    some ((val : ℝ) / 100, { ui with log := ui.log ++ [Call.get_dB id] })

/-- The channel loop of `set_dB` (line 367): channels 0, 1 and 2; both branches call
`snd_mixer_selem_set_playback_dB`, with last argument 0 and 1. -/
def set_dB_channels (e : Elem) (val : Int) (x : ElemVal) : ElemVal :=
  (List.range 3).foldl
    (fun x chn =>
      let x := if e.has_playback_channel chn then
        snd_mixer_selem_set_playback_dB e chn val 0 x else x
      if e.has_capture_channel chn then snd_mixer_selem_set_playback_dB e chn val 1 x else x)
    x

/-- Source `set_dB` (line 364). -/
noncomputable def set_dB (c : Option Nat) (dB : ℝ) (ui : RobTkApp) : Option RobTkApp :=
  let val : Int := to_long (100 * dB)
  match deref ui c with
  | none => none
  | some (id, e) =>
    some { ui with
      hw := Function.update ui.hw id (set_dB_channels e val (ui.hw id))
      log := ui.log ++ [Call.set_dB id dB] }

/-- Source `set_enum` (line 390). -/
def set_enum (c : Option Nat) (v : Int) (ui : RobTkApp) : Option RobTkApp :=
  match deref ui c with
  | none => none
  | some (id, e) =>
    if e.is_enumerated = false then none
    else some { ui with
      hw := Function.update ui.hw id (snd_mixer_selem_set_enum_item e v (ui.hw id))
      log := ui.log ++ [Call.set_enum id v] }

/-- Source `get_enum` (line 396). -/
def get_enum (c : Option Nat) (ui : RobTkApp) : Option (Int × RobTkApp) :=
  match deref ui c with
  | none => none
  | some (id, e) =>
    if e.is_enumerated = false then none
    else some (snd_mixer_selem_get_enum_item e (ui.hw id),
      { ui with log := ui.log ++ [Call.get_enum id] })

/-! ## Callbacks (lines 427-559) -/

/-- Force-resend of one enumerated control: the body shared by the three selector loops
of `cb_btn_reset` (lines 432-436, 439-443, 446-450). `%` is C remainder; a zero item
count is a division by zero. -/
def resend_enum (sctrl : Option Nat) (val : Int) (ui : RobTkApp) : Option RobTkApp :=
  match deref ui sctrl with
  | none => none
  | some (_, e) =>
    let mcnt : Int := e.enum_items
    if mcnt = 0 then none
    else (set_enum sctrl (Int.tmod (val + 1) mcnt) ui).bind (set_enum sctrl val)

/-- Force-resend of one gain control: the body shared by the two gain loops of
`cb_btn_reset` (lines 458-463, 472-477). -/
noncomputable def resend_dB (ctrl : Option Nat) (val : ℝ) (ui : RobTkApp) : Option RobTkApp :=
  (if val = -128 then set_dB ctrl 127 ui else set_dB ctrl (-128) ui).bind (set_dB ctrl val)

/-- Source `cb_btn_reset` (line 427): toggle all values to force a change. -/
noncomputable def cb_btn_reset (ui : RobTkApp) : Option RobTkApp :=
  (for_loop (fun r ui => resend_enum (src_sel r) (ui.src_sel r) ui) SIN ui).bind fun ui =>
  (for_loop (fun r ui => resend_enum (matrix_sel r) (ui.mtx_sel r) ui) SMI ui).bind fun ui =>
  (for_loop (fun o ui => resend_enum (out_sel o) (ui.out_sel o) ui) SOUT ui).bind fun ui =>
  (for_loop (fun r ui =>
    for_loop (fun c ui =>
      let n := r * SMO + c
      let ctrl := matrix_ctrl_cr c r
      let val := knob_to_db (ui.mtx_gain n).cur
      resend_dB ctrl val ui) SMO ui) SMI ui).bind fun ui =>
  for_loop (fun n ui =>
    let ctrl := out_gain n
    let mute : Bool := decide ((ui.out_gain n).click_state = 1)
    let val := knob_to_db (ui.out_gain n).cur
    ((set_mute ctrl (!mute) ui).bind (set_mute ctrl mute)).bind (resend_dB ctrl val)) SMST ui

/-- Source `cb_set_hiz` (line 482). -/
def cb_set_hiz (ui : RobTkApp) : Option RobTkApp :=
  if ui.disable_signals then some ui
  else for_loop (fun i ui =>
    let val : Int := if ui.btn_hiz i then 1 else 0
    set_enum (hiz i) val ui) 2 ui

/-- Source `cb_src_sel` (line 492); `n` is the index stored in the widget name. -/
def cb_src_sel (n : Nat) (ui : RobTkApp) : Option RobTkApp :=
  if ui.disable_signals then some ui
  else
    let val := ui.src_sel n
    set_enum (src_sel n) val ui

/-- Source `cb_mtx_src` (line 502). -/
def cb_mtx_src (n : Nat) (ui : RobTkApp) : Option RobTkApp :=
  if ui.disable_signals then some ui
  else
    let val := ui.mtx_sel n
    set_enum (matrix_sel n) val ui

/-- Source `cb_mtx_gain` (line 512). The dial `ui->mtx_gain[n]` is written before the
guard is tested, so an index past the array has no result. -/
noncomputable def cb_mtx_gain (n : Nat) (ui : RobTkApp) : Option RobTkApp :=
  if n ≥ SMI * SMO then none
  else
    let val := knob_to_db (ui.mtx_gain n).cur
    let cs : Int := if val = -128 then 1 else if val = 0 then 2 else 0
    let ui := { ui with
      mtx_gain := Function.update ui.mtx_gain n { ui.mtx_gain n with click_state := cs } }
    if ui.disable_signals then some ui
    else set_dB (matrix_ctrl_n n) val ui

/-- Source `cb_out_src` (line 529). -/
def cb_out_src (n : Nat) (ui : RobTkApp) : Option RobTkApp :=
  if ui.disable_signals then some ui
  else
    let val := ui.out_sel n
    set_enum (out_sel n) val ui

/-- Source `cb_out_gain` (line 539). -/
noncomputable def cb_out_gain (n : Nat) (ui : RobTkApp) : Option RobTkApp :=
  if ui.disable_signals then some ui
  else
    let mute : Bool := decide ((ui.out_gain n).click_state = 1)
    let val := (ui.out_gain n).cur
    (set_mute (out_gain n) mute ui).bind (set_dB (out_gain n) (knob_to_db val))

/-- Source `cb_mst_gain` (line 551). -/
noncomputable def cb_mst_gain (ui : RobTkApp) : Option RobTkApp :=
  if ui.disable_signals then some ui
  else
    let mute : Bool := decide (ui.mst_gain.click_state = 1)
    let val := ui.mst_gain.cur
    (set_mute mst_gain mute ui).bind (set_dB mst_gain (knob_to_db val))

/-! ## RobTk widget setters (external toolkit, modelled)

A setter stores the value in the widget and, when that changed the widget, runs the
callback that `toplevel` registered for it (lines 777, 803, 817, 881, 904, 916, 927). -/

/-- RobTk `robtk_select_set_value (ui->src_sel[r], v)`. -/
def set_value_src_sel (r : Nat) (v : Int) (ui : RobTkApp) : Option RobTkApp :=
  if ui.src_sel r = v then some ui
  else cb_src_sel r { ui with src_sel := Function.update ui.src_sel r v }

/-- RobTk `robtk_select_set_value (ui->mtx_sel[r], v)`. -/
def set_value_mtx_sel (r : Nat) (v : Int) (ui : RobTkApp) : Option RobTkApp :=
  if ui.mtx_sel r = v then some ui
  else cb_mtx_src r { ui with mtx_sel := Function.update ui.mtx_sel r v }

/-- RobTk `robtk_select_set_value (ui->out_sel[o], v)`. -/
def set_value_out_sel (o : Nat) (v : Int) (ui : RobTkApp) : Option RobTkApp :=
  if ui.out_sel o = v then some ui
  else cb_out_src o { ui with out_sel := Function.update ui.out_sel o v }

/-- RobTk `robtk_dial_set_value (ui->mtx_gain[n], v)`. -/
noncomputable def set_value_mtx_gain (n : Nat) (v : ℝ) (ui : RobTkApp) : Option RobTkApp :=
  if (ui.mtx_gain n).cur = v then some ui
  else cb_mtx_gain n { ui with
    mtx_gain := Function.update ui.mtx_gain n { ui.mtx_gain n with cur := v } }

/-- RobTk `robtk_dial_set_value (ui->out_gain[o], v)`. -/
noncomputable def set_value_out_gain (o : Nat) (v : ℝ) (ui : RobTkApp) : Option RobTkApp :=
  if (ui.out_gain o).cur = v then some ui
  else cb_out_gain o { ui with
    out_gain := Function.update ui.out_gain o { ui.out_gain o with cur := v } }

/-- RobTk `robtk_dial_set_state (ui->out_gain[o], st)`. -/
noncomputable def set_state_out_gain (o : Nat) (st : Int) (ui : RobTkApp) : Option RobTkApp :=
  if (ui.out_gain o).click_state = st then some ui
  else cb_out_gain o { ui with
    out_gain := Function.update ui.out_gain o { ui.out_gain o with click_state := st } }

/-- RobTk `robtk_dial_set_value (ui->mst_gain, v)`. -/
noncomputable def set_value_mst_gain (v : ℝ) (ui : RobTkApp) : Option RobTkApp :=
  if ui.mst_gain.cur = v then some ui
  else cb_mst_gain { ui with mst_gain := { ui.mst_gain with cur := v } }

/-- RobTk `robtk_dial_set_state (ui->mst_gain, st)`. -/
noncomputable def set_state_mst_gain (st : Int) (ui : RobTkApp) : Option RobTkApp :=
  if ui.mst_gain.click_state = st then some ui
  else cb_mst_gain { ui with mst_gain := { ui.mst_gain with click_state := st } }

/-- RobTk `robtk_cbtn_set_active (ui->btn_hiz[i], b)`. -/
def set_active_btn_hiz (i : Nat) (b : Bool) (ui : RobTkApp) : Option RobTkApp :=
  if ui.btn_hiz i = b then some ui
  else cb_set_hiz { ui with btn_hiz := Function.update ui.btn_hiz i b }

/-! ## Polling and reconciliation: `port_event` (lines 1078-1157) -/

/-- What the operating system and ALSA answer during one tick. -/
structure PollEnv where
  /-- Result of `snd_mixer_poll_descriptors_count`. -/
  descriptors_count : Int
  /-- Result of `snd_mixer_poll_descriptors`. -/
  poll_descriptors : Int
  /-- Result of `poll` with timeout 0. -/
  poll : Int
  /-- Result of `snd_mixer_poll_descriptors_revents`. -/
  revents_result : Int
  /-- Content of the local `revents` after that call (indeterminate when it failed). -/
  revents : Nat
  /-- Effect of `snd_mixer_handle_events` on the element values held by the mixer. -/
  handle_events : (Nat → ElemVal) → (Nat → ElemVal)

/-- The flag `POLLIN` of `poll.h`. -/
def POLLIN : Nat := 0x001
/-- The flag `POLLERR` of `poll.h`. -/
def POLLERR : Nat := 0x008
/-- The flag `POLLNVAL` of `poll.h`. -/
def POLLNVAL : Nat := 0x020

/-- RobTk `robtk_close_self`: a request to the host to close the session. -/
def robtk_close_self (ui : RobTkApp) : RobTkApp :=
  { ui with closed := ui.closed + 1 }

/-- The refresh part of `port_event` (lines 1116-1156): update the complete GUI. -/
noncomputable def port_event_refresh (ui : RobTkApp) : Option RobTkApp :=
  let ui := { ui with disable_signals := true }
  (for_loop (fun r ui =>
    (get_enum (src_sel r) ui).bind fun p => set_value_src_sel r p.1 p.2) SIN ui).bind fun ui =>
  (for_loop (fun r ui =>
    ((get_enum (matrix_sel r) ui).bind fun p => set_value_mtx_sel r p.1 p.2).bind fun ui =>
    for_loop (fun c ui =>
      let n := r * SMO + c
      (get_dB (matrix_ctrl_cr c r) ui).bind fun p =>
        set_value_mtx_gain n (db_to_knob p.1) p.2) SMO ui) SMI ui).bind fun ui =>
  (for_loop (fun o ui =>
    let ctrl := out_gain o
    ((get_dB ctrl ui).bind fun p => set_value_out_gain o (db_to_knob p.1) p.2).bind fun ui =>
    (get_mute ctrl ui).bind fun p =>
      set_state_out_gain o (if p.1 then 1 else 0) p.2) SMST ui).bind fun ui =>
  ((get_dB mst_gain ui).bind fun p => set_value_mst_gain (db_to_knob p.1) p.2).bind fun ui =>
  ((get_mute mst_gain ui).bind fun p =>
    set_state_mst_gain (if p.1 then 1 else 0) p.2).bind fun ui =>
  (for_loop (fun i ui =>
    (get_enum (hiz i) ui).bind fun p =>
      set_active_btn_hiz i (decide (p.1 = 1)) p.2) 2 ui).bind fun ui =>
  (for_loop (fun o ui =>
    (get_enum (out_sel o) ui).bind fun p => set_value_out_sel o p.1 p.2) SOUT ui).bind fun ui =>
  some { ui with disable_signals := false }

/-- The polling part of `port_event` (lines 1088-1114): whether the tick goes on to the
refresh (`false` when one of the two early returns is taken) and the state reached. -/
def port_event_poll (env : PollEnv) (ui : RobTkApp) : Bool × RobTkApp :=
  let n := env.descriptors_count
  let ui := if n ≠ ui.nfds then { ui with nfds := n } else ui
  if env.poll_descriptors < 0 then (false, ui)
  else
    let n := env.poll
    if n ≤ 0 then (false, ui)
    else
      let ui := if env.revents_result < 0 then robtk_close_self ui else ui
      let ui :=
        if env.revents &&& (POLLERR ||| POLLNVAL) ≠ 0 then robtk_close_self ui
        else if env.revents &&& POLLIN ≠ 0 then { ui with hw := env.handle_events ui.hw }
        else ui
      (true, ui)

/-- Source `port_event` (line 1078): one tick of the host, the polling part followed by
the refresh part. -/
noncomputable def port_event (env : PollEnv) (ui : RobTkApp) : Option RobTkApp :=
  let p := port_event_poll env ui
  if p.1 then port_event_refresh p.2 else some p.2

/-! ## Opening the registry: `open_mixer` (lines 239-325) -/

/-- What ALSA answers for a card identifier. -/
structure Card where
  /-- Result of `snd_ctl_open`. -/
  ctl_open : Int
  /-- Result of `snd_ctl_card_info`. -/
  ctl_card_info : Int
  /-- Answer of `snd_ctl_card_info_get_name`, `none` for `NULL`. -/
  card_name : Option String
  /-- Result of `snd_mixer_open`. -/
  mixer_open : Int
  /-- Result of `snd_mixer_attach`. -/
  mixer_attach : Int
  /-- Result of `snd_mixer_selem_register`. -/
  selem_register : Int
  /-- Result of `snd_mixer_load`. -/
  mixer_load : Int
  /-- The elements of the mixer in the order of `snd_mixer_first_elem` /
  `snd_mixer_elem_next`, each with its current values. -/
  elems : List (Elem × ElemVal)

/-- The active elements of a card, in mixer order: what both loops of `open_mixer`
(lines 289 and 306) visit. -/
def active_elems (card : Card) : List (Elem × ElemVal) :=
  card.elems.filter fun p => p.1.is_active

/-- Source `open_mixer` (line 239): the returned integer and the state left behind. -/
def open_mixer (ui : RobTkApp) (card : Card) : Int × RobTkApp :=
  if card.ctl_open < 0 then (card.ctl_open, ui)
  else if card.ctl_card_info < 0 then (card.ctl_card_info, ui)
  else if card.card_name ≠ some DEVICE_NAME then (-1, ui)
  else if card.mixer_open < 0 then (card.mixer_open, ui)
  else if card.mixer_attach < 0 then (card.mixer_attach, ui)
  else if card.selem_register < 0 then (card.selem_register, ui)
  else if card.mixer_load < 0 then (card.mixer_load, ui)
  else
    let cnt := (active_elems card).length
    let ui := { ui with ctrl_cnt := cnt }
    if cnt = 0 then (-1, ui)
    else
      (0, { ui with
        ctrl := (active_elems card).map Prod.fst
        hw := fun i => (((active_elems card).map Prod.snd)[i]?).getD
          { enum_item := 0, playback_switch := fun _ => 0, playback_dB := fun _ => 0 } })

/-! ## Specification vocabulary and sample inputs -/

/-- The state `instantiate` starts from: `calloc (1, sizeof (RobTkApp))`, all zero. -/
def calloc_app : RobTkApp where
  mtx_sel := fun _ => 0
  mtx_gain := fun _ => { cur := 0, click_state := 0 }
  src_sel := fun _ => 0
  out_sel := fun _ => 0
  out_gain := fun _ => { cur := 0, click_state := 0 }
  mst_gain := { cur := 0, click_state := 0 }
  btn_hiz := fun _ => false
  ctrl := []
  ctrl_cnt := 0
  hw := fun _ => { enum_item := 0, playback_switch := fun _ => 0, playback_dB := fun _ => 0 }
  nfds := 0
  disable_signals := false
  log := []
  closed := 0

/-- A sample element: an active stereo element that is enumerated with two items and has
a playback switch. -/
def sample_elem : Elem where
  name := "Master"
  is_active := true
  is_enumerated := true
  has_playback_switch := true
  enum_items := 2
  has_playback_channel := fun chn => decide (chn < 2)
  has_capture_channel := fun _ => false
  dB_min := -12800
  dB_max := 600

/-- A card that passes every check of `open_mixer` and reports a single active control. -/
def one_control_card : Card where
  ctl_open := 0
  ctl_card_info := 0
  card_name := some DEVICE_NAME
  mixer_open := 0
  mixer_attach := 0
  selem_register := 0
  mixer_load := 0
  elems := [(sample_elem, calloc_app.hw 0)]

/-- A callback result that leaves the hardware alone: the callback returns, it made no
accessor call and the element values are what they were. -/
def no_hw_effect (ui : RobTkApp) (res : Option RobTkApp) : Prop :=
  ∃ ui', res = some ui' ∧ ui'.log = ui.log ∧ ui'.hw = ui.hw

/-- The registry has an enumerated control with at least one item at `c`. -/
def enum_ok (ui : RobTkApp) (c : Option Nat) : Prop :=
  ∃ id e, deref ui c = some (id, e) ∧ e.is_enumerated = true ∧ 1 ≤ e.enum_items

/-- The registry has a control at `c`. -/
def gain_ok (ui : RobTkApp) (c : Option Nat) : Prop :=
  ∃ id e, deref ui c = some (id, e)

/-- The registry has a control with playback switch at `c`. -/
def switch_ok (ui : RobTkApp) (c : Option Nat) : Prop :=
  ∃ id e, deref ui c = some (id, e) ∧ e.has_playback_switch = true

/-- The registry has the shape the hardcoded mapping expects of the 18i6: a control with
the capability its family uses at the index of every logical coordinate. -/
structure registry_ok (ui : RobTkApp) : Prop where
  src : ∀ r, r < SIN → enum_ok ui (src_sel r)
  msel : ∀ r, r < SMI → enum_ok ui (matrix_sel r)
  osel : ∀ o, o < SOUT → enum_ok ui (out_sel o)
  hiz : ∀ i, i < 2 → enum_ok ui (hiz i)
  mtx : ∀ r, r < SMI → ∀ c, c < SMO → gain_ok ui (matrix_ctrl_cr c r)
  ogain : ∀ n, n < SMST → switch_ok ui (out_gain n)
  mst : switch_ok ui mst_gain

/-- A state whose registry holds 158 copies of `sample_elem`. -/
def sample_app : RobTkApp :=
  { calloc_app with ctrl := List.replicate 158 sample_elem, ctrl_cnt := 158 }

/-- A tick in which `snd_mixer_poll_descriptors` fails. -/
def descriptors_fail_env : PollEnv where
  descriptors_count := 0
  poll_descriptors := -1
  poll := 0
  revents_result := 0
  revents := 0
  handle_events := fun hw => hw

/-- A tick in which `poll` fails. -/
def poll_fail_env : PollEnv where
  descriptors_count := 0
  poll_descriptors := 0
  poll := -1
  revents_result := 0
  revents := 0
  handle_events := fun hw => hw

/-- A tick with one pending descriptor whose events report `POLLERR`. -/
def pollerr_env : PollEnv where
  descriptors_count := 1
  poll_descriptors := 1
  poll := 1
  revents_result := 0
  revents := POLLERR
  handle_events := fun hw => hw

/-- During a refresh pass the registry, the raised guard and the close requests stay as
they are in `ui`. -/
def refresh_inv (ui s : RobTkApp) : Prop :=
  s.ctrl = ui.ctrl ∧ s.disable_signals = true ∧ s.closed = ui.closed

/-! ## Trace vocabulary for the force-resend pass -/

/-- Effect of one recorded accessor call on the element values: what the accessor does
to `hw`, read off the definitions of `set_mute`, `set_dB` and `set_enum`. -/
noncomputable def hw_step (ctrl : List Elem) (hw : Nat → ElemVal) : Call → (Nat → ElemVal)
  | Call.set_mute id muted =>
    match ctrl[id]? with
    | some e => Function.update hw id (set_mute_channels e (if muted then 0 else 1) (hw id))
    | none => hw
  | Call.set_dB id dB =>
    match ctrl[id]? with
    | some e => Function.update hw id (set_dB_channels e (to_long (100 * dB)) (hw id))
    | none => hw
  | Call.set_enum id v =>
    match ctrl[id]? with
    | some e => Function.update hw id (snd_mixer_selem_set_enum_item e v (hw id))
    | none => hw
  | _ => hw

/-- The state after the accessor calls `cs` were made from `ui`. -/
noncomputable def emit (cs : List Call) (ui : RobTkApp) : RobTkApp :=
  { ui with hw := cs.foldl (hw_step ui.ctrl) ui.hw, log := ui.log ++ cs }

/-- The calls of a counted loop whose iteration `r` makes the calls `calls r`. -/
def gather (calls : Nat → List Call) : Nat → List Call
  | 0 => []
  | n + 1 => gather calls n ++ calls n

/-- The items written to control `id` by `set_enum`, in order. -/
def enum_writes (id : Nat) (cs : List Call) : List Int :=
  cs.filterMap fun c =>
    match c with
    | Call.set_enum i v => if i = id then some v else none
    | _ => none

/-- The dB values written to control `id` by `set_dB`, in order. -/
noncomputable def dB_writes (id : Nat) (cs : List Call) : List ℝ :=
  cs.filterMap fun c =>
    match c with
    | Call.set_dB i d => if i = id then some d else none
    | _ => none

/-- The calls of `resend_enum`. -/
def resend_enum_calls (ui : RobTkApp) (sctrl : Option Nat) (val : Int) : List Call :=
  match deref ui sctrl with
  | some (id, e) => [Call.set_enum id (Int.tmod (val + 1) e.enum_items), Call.set_enum id val]
  | none => []

/-- The calls of `resend_dB`. -/
noncomputable def resend_dB_calls (ctrl : Option Nat) (val : ℝ) : List Call :=
  match ctrl with
  | some id => [Call.set_dB id (if val = -128 then 127 else -128), Call.set_dB id val]
  | none => []

/-- The calls of the mute toggle in the output gain loop of `cb_btn_reset`. -/
def resend_mute_calls (ctrl : Option Nat) (mute : Bool) : List Call :=
  match ctrl with
  | some id => [Call.set_mute id (!mute), Call.set_mute id mute]
  | none => []

/-- The calls of `cb_btn_reset`, loop by loop. -/
noncomputable def cb_btn_reset_calls (ui : RobTkApp) : List Call :=
  gather (fun r => resend_enum_calls ui (src_sel r) (ui.src_sel r)) SIN ++
  gather (fun r => resend_enum_calls ui (matrix_sel r) (ui.mtx_sel r)) SMI ++
  gather (fun o => resend_enum_calls ui (out_sel o) (ui.out_sel o)) SOUT ++
  gather (fun r => gather (fun c =>
    resend_dB_calls (matrix_ctrl_cr c r) (knob_to_db (ui.mtx_gain (r * SMO + c)).cur)) SMO) SMI ++
  gather (fun n =>
    resend_mute_calls (out_gain n) (decide ((ui.out_gain n).click_state = 1)) ++
    resend_dB_calls (out_gain n) (knob_to_db (ui.out_gain n).cur)) SMST

/-- A selector coordinate: a capture selector, a matrix-row selector or an output
selector. These are the enumerated controls `cb_btn_reset` resends. -/
inductive Selector where
  | src (r : Nat)
  | mtx (r : Nat)
  | out (o : Nat)

/-- The coordinate is in range. -/
def Selector.valid : Selector → Prop
  | Selector.src r => r < SIN
  | Selector.mtx r => r < SMI
  | Selector.out o => o < SOUT

/-- Validity of a selector coordinate is decidable. -/
instance Selector.decidable_valid (s : Selector) : Decidable s.valid := by
  cases s <;> unfold Selector.valid <;> infer_instance

/-- The control of a selector coordinate. -/
def Selector.ctrl : Selector → Option Nat
  | Selector.src r => src_sel r
  | Selector.mtx r => matrix_sel r
  | Selector.out o => out_sel o

/-- The value held by the select widget of a selector coordinate. -/
def Selector.value (ui : RobTkApp) : Selector → Int
  | Selector.src r => ui.src_sel r
  | Selector.mtx r => ui.mtx_sel r
  | Selector.out o => ui.out_sel o

/-- A gain coordinate that `cb_btn_reset` resends: a matrix cell or an output gain. -/
inductive Gain where
  | cell (r c : Nat)
  | out (n : Nat)

/-- The coordinate is in range. -/
def Gain.valid : Gain → Prop
  | Gain.cell r c => r < SMI ∧ c < SMO
  | Gain.out n => n < SMST

/-- Validity of a gain coordinate is decidable. -/
instance Gain.decidable_valid (g : Gain) : Decidable g.valid := by
  cases g <;> unfold Gain.valid <;> infer_instance

/-- The control of a gain coordinate. -/
def Gain.ctrl : Gain → Option Nat
  | Gain.cell r c => matrix_ctrl_cr c r
  | Gain.out n => out_gain n

/-- The position of the dial of a gain coordinate. -/
def Gain.dial (ui : RobTkApp) : Gain → ℝ
  | Gain.cell r c => (ui.mtx_gain (r * SMO + c)).cur
  | Gain.out n => (ui.out_gain n).cur

/-- A state whose registry holds 158 enumerated controls with a single item. -/
def one_item_app : RobTkApp :=
  { calloc_app with
    ctrl := List.replicate 158 { sample_elem with enum_items := 1 }, ctrl_cnt := 158 }

/-! ## Vocabulary for the whole topology, traces and mute -/

/-- A logical coordinate of any family of the topology. -/
inductive Coord where
  | mst
  | out_gain (c : Nat)
  | out_sel (c : Nat)
  | hiz (c : Nat)
  | src_sel (r : Nat)
  | matrix_sel (r : Nat)
  | matrix (r c : Nat)

/-- The coordinate is in range for its family. -/
def Coord.valid : Coord → Prop
  | Coord.mst => True
  | Coord.out_gain c => c < SMST
  | Coord.out_sel c => c < SOUT
  | Coord.hiz c => c < 2
  | Coord.src_sel r => r < SIN
  | Coord.matrix_sel r => r < SMI
  | Coord.matrix r c => r < SMI ∧ c < SMO

/-- Validity of a coordinate is decidable. -/
instance Coord.decidable_valid (a : Coord) : Decidable a.valid := by
  cases a <;> unfold Coord.valid <;> infer_instance

/-- The control the topology functions give for a coordinate. -/
def Coord.ctrl : Coord → Option Nat
  | Coord.mst => Scarlett.mst_gain
  | Coord.out_gain c => Scarlett.out_gain c
  | Coord.out_sel c => Scarlett.out_sel c
  | Coord.hiz c => Scarlett.hiz c
  | Coord.src_sel r => Scarlett.src_sel r
  | Coord.matrix_sel r => Scarlett.matrix_sel r
  | Coord.matrix r c => matrix_ctrl_cr c r

/-- The registry index an accessor call is made on. -/
def Call.target : Call → Nat
  | Call.set_mute id _ => id
  | Call.get_mute id => id
  | Call.get_dB id => id
  | Call.set_dB id _ => id
  | Call.set_enum id _ => id
  | Call.get_enum id => id

/-- An element with four playback channels (0 to 3) and a playback switch. -/
def quad_elem : Elem :=
  { sample_elem with has_playback_channel := fun chn => decide (chn < 4) }

/-- A state whose registry holds `quad_elem` alone, every channel switched on. -/
def quad_app : RobTkApp :=
  { calloc_app with
    ctrl := [quad_elem], ctrl_cnt := 1
    hw := fun _ => { enum_item := 0, playback_switch := fun _ => 1, playback_dB := fun _ => 0 } }

/-! ## Vocabulary for the refresh pass -/

/-- The item `get_enum` reads from the control `c`. -/
def enum_val (ui : RobTkApp) (c : Option Nat) : Int :=
  match deref ui c with
  | some (id, _) => (ui.hw id).enum_item
  | none => 0

/-- The dB value `get_dB` reads from the control `c`. -/
noncomputable def dB_val (ui : RobTkApp) (c : Option Nat) : ℝ :=
  match deref ui c with
  | some (id, e) => (((snd_mixer_selem_get_playback_dB e 0 (ui.hw id)).getD 0 : Int) : ℝ) / 100
  | none => 0

/-- The mute flag `get_mute` reads from the control `c`. -/
def mute_val (ui : RobTkApp) (c : Option Nat) : Bool :=
  match deref ui c with
  | some (id, e) => decide ((snd_mixer_selem_get_playback_switch e 0 (ui.hw id)).getD 0 = 0)
  | none => false

/-- The trace of one read accessor on the control `c`. -/
def read_call (k : Nat → Call) (c : Option Nat) : List Call :=
  match c with
  | some id => [k id]
  | none => []

/-- A widget array whose entries below `k` were set to their targets. -/
def upd_below {α : Type} (k : Nat) (tgt : Nat → α) (f : Nat → α) : Nat → α :=
  fun r => if r < k then tgt r else f r

/-- What `robtk_dial_set_value` followed by `cb_mtx_gain` under the guard leaves in a
matrix dial. -/
noncomputable def refresh_dial (d : Dial) (v : ℝ) : Dial :=
  if d.cur = v then d
  else
    { cur := v
      click_state := if knob_to_db v = -128 then 1 else if knob_to_db v = 0 then 2 else 0 }

/-- The state of a refresh pass from `ui` in which the widgets below the given bounds
were set, the master dial is `mst` and the reads `L` were made. -/
noncomputable def refresh_upto (ui : RobTkApp) (k1 k2 k3 k4 : Nat) (mst : Dial) (k6 k7 : Nat)
    (L : List Call) : RobTkApp :=
  { ui with
    src_sel := upd_below k1 (fun r => enum_val ui (src_sel r)) ui.src_sel
    mtx_sel := upd_below k2 (fun r => enum_val ui (matrix_sel r)) ui.mtx_sel
    mtx_gain := upd_below k3 (fun n =>
      refresh_dial (ui.mtx_gain n) (db_to_knob (dB_val ui (matrix_ctrl_n n)))) ui.mtx_gain
    out_gain := upd_below k4 (fun o =>
      { cur := db_to_knob (dB_val ui (out_gain o))
        click_state := if mute_val ui (out_gain o) then 1 else 0 }) ui.out_gain
    mst_gain := mst
    btn_hiz := upd_below k6 (fun i => decide (enum_val ui (hiz i) = 1)) ui.btn_hiz
    out_sel := upd_below k7 (fun o => enum_val ui (out_sel o)) ui.out_sel
    disable_signals := true
    log := ui.log ++ L }

/-- The reads of one iteration of the matrix loop of the refresh: the row selector, then
the six gains of the row. -/
def refresh_row_calls (r : Nat) : List Call :=
  read_call Call.get_enum (matrix_sel r) ++
    gather (fun c => read_call Call.get_dB (matrix_ctrl_cr c r)) SMO

/-- The reads of the refresh part of `port_event`, loop by loop. -/
def refresh_calls : List Call :=
  gather (fun r => read_call Call.get_enum (src_sel r)) SIN ++
  gather refresh_row_calls SMI ++
  gather (fun o =>
    read_call Call.get_dB (out_gain o) ++ read_call Call.get_mute (out_gain o)) SMST ++
  read_call Call.get_dB mst_gain ++
  read_call Call.get_mute mst_gain ++
  gather (fun i => read_call Call.get_enum (hiz i)) 2 ++
  gather (fun o => read_call Call.get_enum (out_sel o)) SOUT

/-- The state a refresh pass from `ui` ends in. -/
noncomputable def refreshed (ui : RobTkApp) : RobTkApp :=
  { refresh_upto ui SIN SMI (SMI * SMO) SMST
      { cur := db_to_knob (dB_val ui mst_gain)
        click_state := if mute_val ui mst_gain then 1 else 0 }
      2 SOUT refresh_calls with
    disable_signals := false }

/-- A read of the hardware: which getter, on which registry index. -/
inductive Read where
  | enum (id : Nat)
  | dB (id : Nat)
  | mute (id : Nat)
  deriving DecidableEq

/-- The read an accessor call makes, `none` for a setter. -/
def Call.read : Call → Option Read
  | Call.get_enum id => some (Read.enum id)
  | Call.get_dB id => some (Read.dB id)
  | Call.get_mute id => some (Read.mute id)
  | _ => none

/-- The read of the control `c` by the getter `k`, nothing for `NULL`. -/
def read_of (k : Nat → Read) (c : Option Nat) : List Read :=
  match c with
  | some id => [k id]
  | none => []

/-- The reads of the families that follow the matrix in both orders: output gains with
their mutes, master gain with its mute, Hi-Z toggles, output selectors. -/
def order_tail : List Read :=
  (List.range SMST).flatMap (fun o =>
    read_of Read.dB (out_gain o) ++ read_of Read.mute (out_gain o)) ++
  (read_of Read.dB mst_gain ++ read_of Read.mute mst_gain) ++
  (List.range 2).flatMap (fun i => read_of Read.enum (hiz i)) ++
  (List.range SOUT).flatMap (fun o => read_of Read.enum (out_sel o))

/-- The order of reads as documented: all capture selectors, then all matrix-row
selectors, then all matrix gains, then the remaining families. -/
def documented_order : List Read :=
  (List.range SIN).flatMap (fun r => read_of Read.enum (src_sel r)) ++
  (List.range SMI).flatMap (fun r => read_of Read.enum (matrix_sel r)) ++
  (List.range (SMI * SMO)).flatMap (fun n => read_of Read.dB (matrix_ctrl_n n)) ++
  order_tail

/-- The order of reads row by row: all capture selectors, then for each matrix row its
selector followed by its six gains, then the remaining families. -/
def row_order : List Read :=
  (List.range SIN).flatMap (fun r => read_of Read.enum (src_sel r)) ++
  (List.range SMI).flatMap (fun r =>
    read_of Read.enum (matrix_sel r) ++
      (List.range SMO).flatMap (fun c => read_of Read.dB (matrix_ctrl_cr c r))) ++
  order_tail

/-- The model snapshot: the values held by the widgets. -/
structure Model where
  mtx_sel : Nat → Int
  mtx_gain : Nat → Dial
  src_sel : Nat → Int
  out_sel : Nat → Int
  out_gain : Nat → Dial
  mst_gain : Dial
  btn_hiz : Nat → Bool

/-- The model snapshot of a state. -/
def snapshot (ui : RobTkApp) : Model :=
  { mtx_sel := ui.mtx_sel, mtx_gain := ui.mtx_gain, src_sel := ui.src_sel,
    out_sel := ui.out_sel, out_gain := ui.out_gain, mst_gain := ui.mst_gain,
    btn_hiz := ui.btn_hiz }

/-- The values a snapshot mirrors from the controls of the logical coordinates: selector
items, dial positions, mute states and Hi-Z flags, with everything else blanked (entries
past the widget arrays, and the click state of the matrix dials, which is display state
derived by `cb_mtx_gain`). -/
noncomputable def mirrored (m : Model) : Model :=
  { mtx_sel := fun r => if r < SMI then m.mtx_sel r else 0
    mtx_gain := fun n =>
      if n < SMI * SMO then { cur := (m.mtx_gain n).cur, click_state := 0 }
      else { cur := 0, click_state := 0 }
    src_sel := fun r => if r < SIN then m.src_sel r else 0
    out_sel := fun o => if o < SOUT then m.out_sel o else 0
    out_gain := fun o => if o < SMST then m.out_gain o else { cur := 0, click_state := 0 }
    mst_gain := m.mst_gain
    btn_hiz := fun i => if i < 2 then m.btn_hiz i else false }

/-! ## Vocabulary for what a force-resend leaves in a control -/

/-- The accessor calls made on control `id`, in order. -/
def calls_on (id : Nat) (cs : List Call) : List Call :=
  cs.filterMap fun c => if c.target = id then some c else none

/-- The sample registry after the device was changed behind the widgets: every control
holds item 1 while every select widget still shows item 0. -/
def stale_app : RobTkApp :=
  { sample_app with
    hw := fun _ => { enum_item := 1, playback_switch := fun _ => 0, playback_dB := fun _ => 0 } }

/-! ## Topology: the matrix cell lookup -/

/-- In range `src_sel` is index `13 + r`. -/
theorem src_sel_eq (r : Nat) (h : r < 18) : src_sel r = some (13 + r) := by
  unfold src_sel SIN UINT_MOD
  rw [if_neg (by omega)]
  congr 1
  omega

/-- In range `matrix_sel` is index `32 + 7 * r`. -/
theorem matrix_sel_eq (r : Nat) (h : r < 18) : matrix_sel r = some (32 + 7 * r) := by
  unfold matrix_sel SMI UINT_MOD
  rw [if_neg (by omega)]
  congr 1
  omega

/-- Closed form of `matrix_ctrl_cr`: the `unsigned int` sum never wraps in range. -/
theorem matrix_ctrl_cr_eq (c r : Nat) :
    matrix_ctrl_cr c r = (if r ≥ 18 ∨ c ≥ 6 then none else some (33 + 7 * r + c)) := by
  unfold matrix_ctrl_cr SMI SMO UINT_MOD
  by_cases h : r ≥ 18 ∨ c ≥ 6
  · rw [if_pos h, if_pos h]
  · rw [if_neg h, if_neg h]
    have hr : r < 18 := by omega
    have hc : c < 6 := by omega
    congr 1
    omega

/-- C1: `matrix_ctrl_cr` returns none when `r >= 18` or `c >= 6` and otherwise the
registry index `33 + 7 * r + c`; cell (row 0, col 0) is index 33 and cell (row 3, col 2)
is index 56. -/
theorem matrix_ctrl_cr_index (c r : Nat) :
    matrix_ctrl_cr c r = (if r ≥ 18 ∨ c ≥ 6 then none else some (33 + 7 * r + c)) ∧
      matrix_ctrl_cr 0 0 = some 33 ∧ matrix_ctrl_cr 2 3 = some 56 :=
  ⟨matrix_ctrl_cr_eq c r, by decide, by decide⟩

/-- C2: on in-range coordinates (rows below 18, columns below 6) `matrix_ctrl_cr`
returns an index and equal indices come from equal coordinates; every out-of-range row
or column returns none. -/
theorem matrix_ctrl_cr_injective (r1 r2 c1 c2 : Nat) :
    (r1 < 18 → r2 < 18 → c1 < 6 → c2 < 6 →
        (matrix_ctrl_cr c1 r1).isSome = true ∧
        (matrix_ctrl_cr c1 r1 = matrix_ctrl_cr c2 r2 → r1 = r2 ∧ c1 = c2)) ∧
      (18 ≤ r1 ∨ 6 ≤ c1 → matrix_ctrl_cr c1 r1 = none) := by
  constructor
  · intro h1 h2 h3 h4
    have e1 : matrix_ctrl_cr c1 r1 = some (33 + 7 * r1 + c1) := by
      rw [matrix_ctrl_cr_eq c1 r1, if_neg (by omega)]
    have e2 : matrix_ctrl_cr c2 r2 = some (33 + 7 * r2 + c2) := by
      rw [matrix_ctrl_cr_eq c2 r2, if_neg (by omega)]
    rw [e1, e2]
    refine ⟨rfl, fun h => ?_⟩
    have h5 : 33 + 7 * r1 + c1 = 33 + 7 * r2 + c2 := Option.some.inj h
    omega
  · intro h
    rw [matrix_ctrl_cr_eq c1 r1, if_pos (by omega)]

/-- Witness of C2: cell (row 3, col 2) against itself, and the out-of-range row 18. -/
theorem matrix_ctrl_cr_injective_witness :
    ((matrix_ctrl_cr 2 3).isSome = true ∧
        (matrix_ctrl_cr 2 3 = matrix_ctrl_cr 2 3 → 3 = 3 ∧ 2 = 2)) ∧
      matrix_ctrl_cr 2 18 = none :=
  ⟨(matrix_ctrl_cr_injective 3 3 2 2).1 (by decide) (by decide) (by decide) (by decide),
    (matrix_ctrl_cr_injective 18 0 2 0).2 (Or.inl (by decide))⟩

/-! ## Value codec -/

/-- Rounding an integer leaves it unchanged. -/
theorem rint_intCast (n : ℤ) : rint (n : ℝ) = n := by
  simp [rint]

/-- The constant `sqrt (0.5)` is positive. -/
theorem sqrt_half_pos : 0 < Real.sqrt 0.5 := Real.sqrt_pos.mpr (by norm_num)

/-- Numeric enclosure of `sqrt (0.5)`. -/
theorem sqrt_half_bounds : 0.7071 < Real.sqrt 0.5 ∧ Real.sqrt 0.5 < 0.7072 := by
  constructor
  · rw [Real.lt_sqrt (by norm_num)]; norm_num
  · rw [Real.sqrt_lt' (by norm_num)]; norm_num

/-- The taper `k ↦ k a / (1 - k)` is undone by `s ↦ s / (a + s)`. -/
theorem taper_cancel (a k : ℝ) (ha : 0 < a) (hk : k < 1) :
    (k * a / (1 - k)) / (a + k * a / (1 - k)) = k := by
  have h1 : 1 - k ≠ 0 := by linarith
  have h2 : a + k * a / (1 - k) = a / (1 - k) := by field_simp; ring
  rw [h2]
  field_simp

/-- In exact arithmetic the formula of `knob_to_db` undoes `db_to_knob` on
`[-128, 100.75)`. -/
theorem knob_to_db_raw_db_to_knob (db : ℝ) (h1 : -128 ≤ db) (h2 : db < 100.75) :
    knob_to_db_raw (db_to_knob db) = db := by
  have hs := sqrt_half_pos
  have hk0 : 0 ≤ (db + 128) / 228.75 := by apply div_nonneg <;> linarith
  have hk1 : (db + 128) / 228.75 < 1 := by
    rw [div_lt_one (by norm_num)]; linarith
  have hs0 : 0 ≤ (db + 128) / 228.75 * Real.sqrt 0.5 / (1 - (db + 128) / 228.75) := by
    have : 0 < 1 - (db + 128) / 228.75 := by linarith
    positivity
  simp only [knob_to_db_raw, db_to_knob]
  rw [Real.sqrt_mul_self hs0, taper_cancel _ _ hs hk1]
  norm_num [div_mul_cancel₀]

/-- The codec round trip is exact on the integers of `[-128, 6]`. -/
theorem knob_to_db_db_to_knob (n : ℤ) (h1 : -128 ≤ n) (h2 : n ≤ 6) :
    knob_to_db (db_to_knob n) = n := by
  have h1r : (-128 : ℝ) ≤ n := by exact_mod_cast h1
  have h2r : (n : ℝ) ≤ 6 := by exact_mod_cast h2
  have h := knob_to_db_raw_db_to_knob n h1r (by linarith)
  unfold knob_to_db
  simp only [h]
  rw [if_neg (by linarith), rint_intCast]

/-- C3: for every integer dB with `-127 <= dB <= 6`, `knob_to_db (db_to_knob dB)`
differs from dB by at most 1. -/
theorem codec_round_trip (dB : ℤ) (h1 : -127 ≤ dB) (h2 : dB ≤ 6) :
    |knob_to_db (db_to_knob dB) - dB| ≤ 1 := by
  rw [knob_to_db_db_to_knob dB (by omega) h2]
  norm_num

/-- Witness of C3 at -12 dB. -/
theorem codec_round_trip_witness :
    |knob_to_db (db_to_knob ((-12 : ℤ) : ℝ)) - ((-12 : ℤ) : ℝ)| ≤ 1 :=
  codec_round_trip (-12) (by decide) (by decide)

/-- The value of `db_to_knob` at the top of the range, +6 dB. -/
theorem db_to_knob_six : db_to_knob 6 = 287296 / 287282 := by
  have h : Real.sqrt 0.5 * Real.sqrt 0.5 = 0.5 := Real.mul_self_sqrt (by norm_num)
  simp only [db_to_knob]
  generalize Real.sqrt 0.5 = a at h
  have e : ((6 : ℝ) + 128) / 228.75 * a / (1 - (6 + 128) / 228.75) = 536 / 379 * a := by
    norm_num; ring
  rw [e]
  have e2 : 536 / 379 * a * (536 / 379 * a) = (536 / 379) ^ 2 * (a * a) := by ring
  rw [e2, h]; norm_num

/-- The unrounded decibel value of knob position 1 lies just below +6 dB. -/
theorem knob_to_db_raw_one_bounds : 5.99 < knob_to_db_raw 1 ∧ knob_to_db_raw 1 < 6 := by
  obtain ⟨hl, hu⟩ := sqrt_half_bounds
  simp only [knob_to_db_raw, Real.sqrt_one]
  generalize Real.sqrt 0.5 = a at hl hu
  have hpos : 0 < a + 1 := by linarith
  constructor
  · have : (133.99 : ℝ) < 1 / (a + 1) * 228.75 := by
      rw [one_div, inv_mul_eq_div, lt_div_iff₀ hpos]; nlinarith
    linarith
  · have : 1 / (a + 1) * 228.75 < (134 : ℝ) := by
      rw [one_div, inv_mul_eq_div, div_lt_iff₀ hpos]; nlinarith
    linarith

/-- Counterexample of C4: +6 dB is in the codec's range and `db_to_knob 6` exceeds 1. -/
theorem db_to_knob_six_exceeds_one :
    (-128 : ℝ) ≤ 6 ∧ (6 : ℝ) ≤ 6 ∧ ¬ (0 ≤ db_to_knob 6 ∧ db_to_knob 6 ≤ 1) := by
  refine ⟨by norm_num, le_refl _, ?_⟩
  rw [db_to_knob_six]
  norm_num

/-- C4 (amended): for `-128 <= dB <= 6`, `db_to_knob dB` is at least 0 and at most
`287296 / 287282`, its value at +6 dB; it is at most 1 exactly when dB does not exceed
the unrounded decibel value of knob position 1, which lies between 5.99 and 6. -/
theorem db_to_knob_range (db : ℝ) (h1 : -128 ≤ db) (h2 : db ≤ 6) :
    0 ≤ db_to_knob db ∧ db_to_knob db ≤ 287296 / 287282 ∧
      (db_to_knob db ≤ 1 ↔ db ≤ knob_to_db_raw 1) ∧
      5.99 < knob_to_db_raw 1 ∧ knob_to_db_raw 1 < 6 := by
  have ha := sqrt_half_pos
  have haa : Real.sqrt 0.5 * Real.sqrt 0.5 = 0.5 := Real.mul_self_sqrt (by norm_num)
  have hk0 : 0 ≤ (db + 128) / 228.75 := by apply div_nonneg <;> linarith
  have hk6 : (db + 128) / 228.75 ≤ 536 / 915 := by
    rw [div_le_iff₀ (by norm_num)]; linarith
  refine ⟨?_, ?_, ?_, knob_to_db_raw_one_bounds⟩
  · exact mul_self_nonneg _
  · simp only [db_to_knob]
    generalize (db + 128) / 228.75 = k at hk0 hk6
    generalize Real.sqrt 0.5 = a at ha haa
    have hk1 : 0 < 1 - k := by linarith
    have hq : k / (1 - k) ≤ 536 / 379 := by
      rw [div_le_iff₀ hk1]; linarith
    have hq0 : 0 ≤ k / (1 - k) := div_nonneg hk0 hk1.le
    have e : k * a / (1 - k) * (k * a / (1 - k)) = (k / (1 - k)) ^ 2 * (a * a) := by
      field_simp; ring
    rw [e, haa]
    have : (k / (1 - k)) ^ 2 ≤ (536 / 379) ^ 2 := pow_le_pow_left₀ hq0 hq 2
    nlinarith
  · simp only [db_to_knob, knob_to_db_raw, Real.sqrt_one]
    generalize Real.sqrt 0.5 = a at ha haa
    have hk1 : 0 < 1 - (db + 128) / 228.75 := by linarith
    have hs0 : 0 ≤ (db + 128) / 228.75 * a / (1 - (db + 128) / 228.75) :=
      div_nonneg (mul_nonneg hk0 ha.le) hk1.le
    have ha1 : 0 < a + 1 := by linarith
    rw [← abs_le_one_iff_mul_self_le_one, abs_of_nonneg hs0, div_le_one hk1]
    have e : 1 / (a + 1) * 228.75 - 128 = 228.75 / (a + 1) - 128 := by ring
    have e2 : (db + 128) / 228.75 * a ≤ 1 - (db + 128) / 228.75 ↔
        (db + 128) * (a + 1) ≤ 228.75 := by
      rw [le_sub_iff_add_le, ← mul_add_one, div_mul_eq_mul_div, div_le_iff₀ (by norm_num)]
      constructor <;> intro h <;> linarith
    rw [e, e2, le_sub_iff_add_le, le_div_iff₀ ha1]

/-- Witness of C4 (amended) at 0 dB. -/
theorem db_to_knob_range_witness :
    0 ≤ db_to_knob 0 ∧ db_to_knob 0 ≤ 287296 / 287282 ∧
      (db_to_knob 0 ≤ 1 ↔ (0 : ℝ) ≤ knob_to_db_raw 1) ∧
      5.99 < knob_to_db_raw 1 ∧ knob_to_db_raw 1 < 6 :=
  db_to_knob_range 0 (by norm_num) (by norm_num)

/-- C5: `knob_to_db 0 = -128` and `knob_to_db 1 = 6`. -/
theorem knob_to_db_boundary : knob_to_db 0 = -128 ∧ knob_to_db 1 = 6 := by
  constructor
  · have h := rint_intCast (-128)
    simp only [knob_to_db, knob_to_db_raw, Real.sqrt_zero, zero_div, zero_mul, zero_sub]
    rw [if_neg (by norm_num)]
    simpa using h
  · obtain ⟨hlo, hhi⟩ := knob_to_db_raw_one_bounds
    simp only [knob_to_db]
    generalize knob_to_db_raw 1 = x at hlo hhi
    rw [if_neg (by linarith)]
    have hf : ⌊x⌋ = 5 := by
      rw [Int.floor_eq_iff]; constructor <;> norm_num <;> linarith
    simp only [rint, hf]
    rw [if_neg (by norm_num; linarith), if_pos (by norm_num; linarith)]
    norm_num

/-! ## Opening the registry -/

/-- Counterexample of C6: a card with one active control, fewer than 157, is opened
successfully. -/
theorem open_mixer_accepts_one_control :
    (active_elems one_control_card).length < 157 ∧
      (open_mixer calloc_app one_control_card).1 = 0 := by
  constructor <;> decide

/-- C6 (amended): `open_mixer` returns a non-zero error for every card without active
control, and whenever it returns 0 the registry holds exactly the active controls of the
card, at least one. -/
theorem open_mixer_size_check (ui : RobTkApp) (card : Card) :
    ((active_elems card).length = 0 → (open_mixer ui card).1 ≠ 0) ∧
      ((open_mixer ui card).1 = 0 →
        (open_mixer ui card).2.ctrl = (active_elems card).map Prod.fst ∧
        (open_mixer ui card).2.ctrl_cnt = (active_elems card).length ∧
        1 ≤ (active_elems card).length) := by
  unfold open_mixer
  split_ifs with h1 h2 h3 h4 h5 h6 h7
  · exact ⟨fun _ => by simp only; omega, fun h => by simp only at h; omega⟩
  · exact ⟨fun _ => by simp only; omega, fun h => by simp only at h; omega⟩
  · exact ⟨fun _ => by simp, fun h => by simp at h⟩
  · exact ⟨fun _ => by simp only; omega, fun h => by simp only at h; omega⟩
  · exact ⟨fun _ => by simp only; omega, fun h => by simp only at h; omega⟩
  · exact ⟨fun _ => by simp only; omega, fun h => by simp only at h; omega⟩
  · exact ⟨fun _ => by simp only; omega, fun h => by simp only at h; omega⟩
  · by_cases h8 : (active_elems card).length = 0
    · rw [if_pos h8]
      exact ⟨fun _ => by simp, fun h => by simp at h⟩
    · rw [if_neg h8]
      exact ⟨fun h => absurd h h8, fun _ => ⟨rfl, rfl, by omega⟩⟩

/-- Witness of C6 (amended) on the card with one active control. -/
theorem open_mixer_size_check_witness :
    (open_mixer calloc_app one_control_card).2.ctrl = (active_elems one_control_card).map Prod.fst ∧
      (open_mixer calloc_app one_control_card).2.ctrl_cnt = (active_elems one_control_card).length ∧
      1 ≤ (active_elems one_control_card).length :=
  (open_mixer_size_check calloc_app one_control_card).2 (by decide)

/-! ## Edit callbacks under the suppression guard -/

/-- With the guard raised the six callbacks that test it first return the state as is. -/
theorem cb_guard {u : RobTkApp} (h : u.disable_signals = true) (n : Nat) :
    cb_set_hiz u = some u ∧ cb_src_sel n u = some u ∧ cb_mtx_src n u = some u ∧
      cb_out_src n u = some u ∧ cb_out_gain n u = some u ∧ cb_mst_gain u = some u := by
  simp [cb_set_hiz, cb_src_sel, cb_mtx_src, cb_out_src, cb_out_gain, cb_mst_gain, h]

/-- With the guard raised `cb_mtx_gain` only updates the click state of its dial. -/
theorem cb_mtx_gain_guard {u : RobTkApp} (h : u.disable_signals = true) (n : Nat)
    (hn : n < SMI * SMO) :
    ∃ cs, cb_mtx_gain n u = some { u with
      mtx_gain := Function.update u.mtx_gain n { u.mtx_gain n with click_state := cs } } := by
  have hn' : ¬ n ≥ SMI * SMO := by omega
  refine ⟨if knob_to_db (u.mtx_gain n).cur = -128 then 1
    else if knob_to_db (u.mtx_gain n).cur = 0 then 2 else 0, ?_⟩
  simp only [cb_mtx_gain, if_neg hn']
  rw [if_pos h]

/-- C7: while `disable_signals` is set, each of the seven edit callbacks returns without
an accessor call and leaves the element values unchanged, in every state and for every
widget index `n` (for `cb_mtx_gain`, which writes to its dial first, `n` is the index of
one of the 108 dials). -/
theorem cb_suppressed (ui : RobTkApp) (n : Nat) (h : ui.disable_signals = true) :
    no_hw_effect ui (cb_set_hiz ui) ∧ no_hw_effect ui (cb_src_sel n ui) ∧
      no_hw_effect ui (cb_mtx_src n ui) ∧
      (n < SMI * SMO → no_hw_effect ui (cb_mtx_gain n ui)) ∧
      no_hw_effect ui (cb_out_src n ui) ∧ no_hw_effect ui (cb_out_gain n ui) ∧
      no_hw_effect ui (cb_mst_gain ui) := by
  obtain ⟨g1, g2, g3, g4, g5, g6⟩ := cb_guard h n
  refine ⟨⟨ui, g1, rfl, rfl⟩, ⟨ui, g2, rfl, rfl⟩, ⟨ui, g3, rfl, rfl⟩, fun hn => ?_,
    ⟨ui, g4, rfl, rfl⟩, ⟨ui, g5, rfl, rfl⟩, ⟨ui, g6, rfl, rfl⟩⟩
  obtain ⟨cs, g7⟩ := cb_mtx_gain_guard h n hn
  exact ⟨_, g7, rfl, rfl⟩

/-- Witness of C7: the zeroed state with the guard set, widget index 0. -/
theorem cb_suppressed_witness :
    no_hw_effect { calloc_app with disable_signals := true }
        (cb_set_hiz { calloc_app with disable_signals := true }) ∧
      no_hw_effect { calloc_app with disable_signals := true }
        (cb_src_sel 0 { calloc_app with disable_signals := true }) ∧
      no_hw_effect { calloc_app with disable_signals := true }
        (cb_mtx_src 0 { calloc_app with disable_signals := true }) ∧
      no_hw_effect { calloc_app with disable_signals := true }
        (cb_mtx_gain 0 { calloc_app with disable_signals := true }) ∧
      no_hw_effect { calloc_app with disable_signals := true }
        (cb_out_src 0 { calloc_app with disable_signals := true }) ∧
      no_hw_effect { calloc_app with disable_signals := true }
        (cb_out_gain 0 { calloc_app with disable_signals := true }) ∧
      no_hw_effect { calloc_app with disable_signals := true }
        (cb_mst_gain { calloc_app with disable_signals := true }) :=
  have h := cb_suppressed { calloc_app with disable_signals := true } 0 rfl
  ⟨h.1, h.2.1, h.2.2.1, h.2.2.2.1 (by decide), h.2.2.2.2.1, h.2.2.2.2.2.1, h.2.2.2.2.2.2⟩

/-! ## Polling -/

/-- A loop whose body keeps an invariant returns a state with the invariant. -/
theorem for_loop_inv {σ : Type} (P : σ → Prop) (body : Nat → σ → Option σ) (n : Nat)
    (h : ∀ r, r < n → ∀ s, P s → ∃ s', body r s = some s' ∧ P s') (s : σ) (hs : P s) :
    ∃ s', for_loop body n s = some s' ∧ P s' := by
  induction n with
  | zero => exact ⟨s, rfl, hs⟩
  | succ k ih =>
    obtain ⟨s1, e1, p1⟩ := ih fun r hr => h r (by omega)
    obtain ⟨s2, e2, p2⟩ := h k (by omega) s1 p1
    exact ⟨s2, by simp [for_loop, e1, e2], p2⟩

/-- Dereferencing only looks at the registry. -/
theorem deref_congr {ui s : RobTkApp} (h : s.ctrl = ui.ctrl) (c : Option Nat) :
    deref s c = deref ui c := by
  simp [deref, h]

/-- A registry of 158 copies of an enumerated element with at least one item and a
playback switch has the shape of the 18i6. -/
theorem registry_ok_replicate (ui : RobTkApp) (x : Elem) (hui : ui.ctrl = List.replicate 158 x)
    (he : x.is_enumerated = true) (hi : 1 ≤ x.enum_items)
    (hs : x.has_playback_switch = true) : registry_ok ui := by
  have hd : ∀ id, id < 158 → deref ui (some id) = some (id, x) := by
    intro id hid
    have e : ui.ctrl[id]? = some x := by
      rw [hui, List.getElem?_replicate, if_pos hid]
    simp only [deref, e]
  constructor
  · intro r hr
    simp only [SIN] at hr
    exact ⟨13 + r, x, by rw [src_sel_eq r hr]; exact hd _ (by omega), he, hi⟩
  · intro r hr
    simp only [SMI] at hr
    exact ⟨32 + 7 * r, x, by rw [matrix_sel_eq r hr]; exact hd _ (by omega), he, hi⟩
  · intro o ho
    simp only [SOUT] at ho
    interval_cases o <;> exact ⟨_, x, hd _ (by decide), he, hi⟩
  · intro i hi'
    interval_cases i <;> exact ⟨_, x, hd _ (by decide), he, hi⟩
  · intro r hr c hc
    simp only [SMI] at hr
    simp only [SMO] at hc
    exact ⟨33 + 7 * r + c, x, by
      rw [matrix_ctrl_cr_eq, if_neg (by omega)]; exact hd _ (by omega)⟩
  · intro n hn
    simp only [SMST] at hn
    interval_cases n <;> exact ⟨_, x, hd _ (by decide), hs⟩
  · exact ⟨_, x, hd 0 (by decide), hs⟩

/-- The sample registry has the shape of the 18i6. -/
theorem sample_app_ok : registry_ok sample_app :=
  registry_ok_replicate sample_app sample_elem rfl rfl (by decide) rfl

/-- Under the refresh invariant `get_enum` on an enumerated control returns, and the
invariant passes to its continuation. -/
theorem get_enum_bind_inv {ui s : RobTkApp} {c : Option Nat} (hinv : refresh_inv ui s)
    (hok : enum_ok ui c) (k : Int → RobTkApp → Option RobTkApp)
    (hk : ∀ v s1, refresh_inv ui s1 → ∃ s', k v s1 = some s' ∧ refresh_inv ui s') :
    ∃ s', ((get_enum c s).bind fun p => k p.1 p.2) = some s' ∧ refresh_inv ui s' := by
  obtain ⟨id, e, hd, he, _⟩ := hok
  have hd' : deref s c = some (id, e) := by rw [deref_congr hinv.1]; exact hd
  simp only [get_enum, hd', he, Bool.true_eq_false, if_false, Option.some_bind]
  exact hk _ _ ⟨hinv.1, hinv.2.1, hinv.2.2⟩

/-- Under the refresh invariant `get_dB` on a registry control returns. -/
theorem get_dB_bind_inv {ui s : RobTkApp} {c : Option Nat} (hinv : refresh_inv ui s)
    (hok : gain_ok ui c) (k : ℝ → RobTkApp → Option RobTkApp)
    (hk : ∀ v s1, refresh_inv ui s1 → ∃ s', k v s1 = some s' ∧ refresh_inv ui s') :
    ∃ s', ((get_dB c s).bind fun p => k p.1 p.2) = some s' ∧ refresh_inv ui s' := by
  obtain ⟨id, e, hd⟩ := hok
  have hd' : deref s c = some (id, e) := by rw [deref_congr hinv.1]; exact hd
  simp only [get_dB, hd', Option.some_bind]
  exact hk _ _ ⟨hinv.1, hinv.2.1, hinv.2.2⟩

/-- Under the refresh invariant `get_mute` on a control with playback switch returns. -/
theorem get_mute_bind_inv {ui s : RobTkApp} {c : Option Nat} (hinv : refresh_inv ui s)
    (hok : switch_ok ui c) (k : Bool → RobTkApp → Option RobTkApp)
    (hk : ∀ v s1, refresh_inv ui s1 → ∃ s', k v s1 = some s' ∧ refresh_inv ui s') :
    ∃ s', ((get_mute c s).bind fun p => k p.1 p.2) = some s' ∧ refresh_inv ui s' := by
  obtain ⟨id, e, hd, he⟩ := hok
  have hd' : deref s c = some (id, e) := by rw [deref_congr hinv.1]; exact hd
  simp only [get_mute, hd', he, Bool.true_eq_false, if_false, Option.some_bind]
  exact hk _ _ ⟨hinv.1, hinv.2.1, hinv.2.2⟩

/-- A switch control is in particular a registry control. -/
theorem switch_ok.gain_ok {ui : RobTkApp} {c : Option Nat} (h : switch_ok ui c) :
    gain_ok ui c := by
  obtain ⟨id, e, hd, _⟩ := h
  exact ⟨id, e, hd⟩

/-- With the guard raised the select setters only change the widget. -/
theorem set_value_sel_inv {ui s : RobTkApp} (hinv : refresh_inv ui s) (r : Nat) (v : Int) :
    (∃ s', set_value_src_sel r v s = some s' ∧ refresh_inv ui s') ∧
      (∃ s', set_value_mtx_sel r v s = some s' ∧ refresh_inv ui s') ∧
      (∃ s', set_value_out_sel r v s = some s' ∧ refresh_inv ui s') := by
  obtain ⟨h1, h2, h3⟩ := hinv
  refine ⟨?_, ?_, ?_⟩
  · unfold set_value_src_sel
    split_ifs
    · exact ⟨s, rfl, h1, h2, h3⟩
    · exact ⟨_, (cb_guard (u := { s with src_sel := Function.update s.src_sel r v }) h2 r).2.1, h1, h2, h3⟩
  · unfold set_value_mtx_sel
    split_ifs
    · exact ⟨s, rfl, h1, h2, h3⟩
    · exact ⟨_, (cb_guard (u := { s with mtx_sel := Function.update s.mtx_sel r v }) h2 r).2.2.1, h1, h2, h3⟩
  · unfold set_value_out_sel
    split_ifs
    · exact ⟨s, rfl, h1, h2, h3⟩
    · exact ⟨_, (cb_guard (u := { s with out_sel := Function.update s.out_sel r v }) h2 r).2.2.2.1, h1, h2, h3⟩

/-- With the guard raised the dial and button setters only change the widget. -/
theorem set_value_dial_inv {ui s : RobTkApp} (hinv : refresh_inv ui s) (n : Nat) (v : ℝ)
    (st : Int) (b : Bool) :
    (n < SMI * SMO → ∃ s', set_value_mtx_gain n v s = some s' ∧ refresh_inv ui s') ∧
      (∃ s', set_value_out_gain n v s = some s' ∧ refresh_inv ui s') ∧
      (∃ s', set_state_out_gain n st s = some s' ∧ refresh_inv ui s') ∧
      (∃ s', set_value_mst_gain v s = some s' ∧ refresh_inv ui s') ∧
      (∃ s', set_state_mst_gain st s = some s' ∧ refresh_inv ui s') ∧
      (∃ s', set_active_btn_hiz n b s = some s' ∧ refresh_inv ui s') := by
  obtain ⟨h1, h2, h3⟩ := hinv
  refine ⟨fun hn => ?_, ?_, ?_, ?_, ?_, ?_⟩
  · unfold set_value_mtx_gain
    split_ifs
    · exact ⟨s, rfl, h1, h2, h3⟩
    · obtain ⟨cs, e⟩ := cb_mtx_gain_guard (u := { s with
        mtx_gain := Function.update s.mtx_gain n { s.mtx_gain n with cur := v } }) h2 n hn
      exact ⟨_, e, h1, h2, h3⟩
  · unfold set_value_out_gain
    split_ifs
    · exact ⟨s, rfl, h1, h2, h3⟩
    · exact ⟨_, (cb_guard (u := { s with
        out_gain := Function.update s.out_gain n { s.out_gain n with cur := v } }) h2 n).2.2.2.2.1,
        h1, h2, h3⟩
  · unfold set_state_out_gain
    split_ifs
    · exact ⟨s, rfl, h1, h2, h3⟩
    · exact ⟨_, (cb_guard (u := { s with
        out_gain := Function.update s.out_gain n { s.out_gain n with click_state := st } })
        h2 n).2.2.2.2.1, h1, h2, h3⟩
  · unfold set_value_mst_gain
    split_ifs
    · exact ⟨s, rfl, h1, h2, h3⟩
    · exact ⟨_, (cb_guard (u := { s with mst_gain := { s.mst_gain with cur := v } })
        h2 n).2.2.2.2.2, h1, h2, h3⟩
  · unfold set_state_mst_gain
    split_ifs
    · exact ⟨s, rfl, h1, h2, h3⟩
    · exact ⟨_, (cb_guard (u := { s with mst_gain := { s.mst_gain with click_state := st } })
        h2 n).2.2.2.2.2, h1, h2, h3⟩
  · unfold set_active_btn_hiz
    split_ifs
    · exact ⟨s, rfl, h1, h2, h3⟩
    · exact ⟨_, (cb_guard (u := { s with btn_hiz := Function.update s.btn_hiz n b }) h2 n).1, h1, h2, h3⟩

/-- Sequencing: a step that returns with `P`, followed by a continuation that turns `P`
into `Q`, returns with `Q`. -/
theorem bind_inv {P Q : RobTkApp → Prop} {x : Option RobTkApp}
    {k : RobTkApp → Option RobTkApp} (hx : ∃ s, x = some s ∧ P s)
    (hk : ∀ s, P s → ∃ s', k s = some s' ∧ Q s') : ∃ s', x.bind k = some s' ∧ Q s' := by
  obtain ⟨s, e, hs⟩ := hx
  rw [e]
  exact hk s hs

/-- On a registry of the expected shape the refresh pass returns; it leaves the registry
and the number of close requests as they were. -/
theorem port_event_refresh_returns (ui : RobTkApp) (hok : registry_ok ui) :
    ∃ s', port_event_refresh ui = some s' ∧ s'.ctrl = ui.ctrl ∧ s'.closed = ui.closed := by
  have inv0 : refresh_inv ui { ui with disable_signals := true } := ⟨rfl, rfl, rfl⟩
  unfold port_event_refresh
  refine bind_inv (P := refresh_inv ui) (for_loop_inv _ _ _ ?_ _ inv0) fun s1 h1 => ?_
  · intro r hr s hs
    exact get_enum_bind_inv hs (hok.src r hr) _ fun v s' h' => (set_value_sel_inv h' r v).1
  refine bind_inv (P := refresh_inv ui) (for_loop_inv _ _ _ ?_ _ h1) fun s2 h2 => ?_
  · intro r hr s hs
    refine bind_inv (P := refresh_inv ui)
      (get_enum_bind_inv hs (hok.msel r hr) _ fun v s' h' => (set_value_sel_inv h' r v).2.1)
      fun s3 h3 => for_loop_inv _ _ _ ?_ _ h3
    intro c hc s4 h4
    refine get_dB_bind_inv h4 (hok.mtx r hr c hc) _ fun v s' h' =>
      (set_value_dial_inv h' (r * SMO + c) (db_to_knob v) 0 false).1 ?_
    simp only [SMI, SMO] at hr hc ⊢
    omega
  refine bind_inv (P := refresh_inv ui) (for_loop_inv _ _ _ ?_ _ h2) fun s3 h3 => ?_
  · intro o ho s hs
    refine bind_inv (P := refresh_inv ui)
      (get_dB_bind_inv hs (hok.ogain o ho).gain_ok _ fun v s' h' =>
        (set_value_dial_inv h' o (db_to_knob v) 0 false).2.1)
      fun s4 h4 => get_mute_bind_inv h4 (hok.ogain o ho) _ fun m s' h' =>
        (set_value_dial_inv h' o 0 (if m then 1 else 0) false).2.2.1
  refine bind_inv (P := refresh_inv ui)
    (get_dB_bind_inv h3 hok.mst.gain_ok _ fun v s' h' =>
      (set_value_dial_inv h' 0 (db_to_knob v) 0 false).2.2.2.1) fun s4 h4 => ?_
  refine bind_inv (P := refresh_inv ui)
    (get_mute_bind_inv h4 hok.mst _ fun m s' h' =>
      (set_value_dial_inv h' 0 0 (if m then 1 else 0) false).2.2.2.2.1) fun s5 h5 => ?_
  refine bind_inv (P := refresh_inv ui) (for_loop_inv _ _ _ ?_ _ h5) fun s6 h6 => ?_
  · intro i hi s hs
    exact get_enum_bind_inv hs (hok.hiz i hi) _ fun v s' h' =>
      (set_value_dial_inv h' i 0 0 (decide (v = 1))).2.2.2.2.2
  refine bind_inv (P := refresh_inv ui) (for_loop_inv _ _ _ ?_ _ h6) fun s7 h7 => ?_
  · intro o ho s hs
    exact get_enum_bind_inv hs (hok.osel o ho) _ fun v s' h' => (set_value_sel_inv h' o v).2.2
  exact ⟨_, rfl, h7.1, h7.2.2⟩

/-- The shape of the registry only depends on the registry. -/
theorem registry_ok_congr {ui s : RobTkApp} (h : s.ctrl = ui.ctrl) (hok : registry_ok ui) :
    registry_ok s := by
  have e : ∀ c, deref s c = deref ui c := deref_congr h
  constructor
  · intro r hr; obtain ⟨i, x, hd, hx⟩ := hok.src r hr; exact ⟨i, x, by rw [e]; exact hd, hx⟩
  · intro r hr; obtain ⟨i, x, hd, hx⟩ := hok.msel r hr; exact ⟨i, x, by rw [e]; exact hd, hx⟩
  · intro r hr; obtain ⟨i, x, hd, hx⟩ := hok.osel r hr; exact ⟨i, x, by rw [e]; exact hd, hx⟩
  · intro r hr; obtain ⟨i, x, hd, hx⟩ := hok.hiz r hr; exact ⟨i, x, by rw [e]; exact hd, hx⟩
  · intro r hr c hc; obtain ⟨i, x, hd⟩ := hok.mtx r hr c hc; exact ⟨i, x, by rw [e]; exact hd⟩
  · intro r hr; obtain ⟨i, x, hd, hx⟩ := hok.ogain r hr; exact ⟨i, x, by rw [e]; exact hd, hx⟩
  · obtain ⟨i, x, hd, hx⟩ := hok.mst; exact ⟨i, x, by rw [e]; exact hd, hx⟩

/-- Counterexample of C8: a tick in which `snd_mixer_poll_descriptors` fails, and one in
which `poll` fails, return without a close request. -/
theorem port_event_silent_on_poll_failure :
    descriptors_fail_env.poll_descriptors < 0 ∧
      port_event descriptors_fail_env sample_app = some sample_app ∧
      poll_fail_env.poll < 0 ∧
      port_event poll_fail_env sample_app = some sample_app ∧
      sample_app.closed = 0 := by
  refine ⟨by decide, ?_, by decide, ?_, rfl⟩
  · simp [port_event, port_event_poll, descriptors_fail_env, sample_app, calloc_app]
  · simp [port_event, port_event_poll, poll_fail_env, sample_app, calloc_app]

/-- C8 (amended): in a tick in which the descriptor query succeeds and `poll` reports
pending events, a failing revents query or an event set with `POLLERR` or `POLLNVAL`
makes the polling part request session close and go on to the refresh; on a registry of
the expected shape the tick then returns with the request recorded. -/
theorem port_event_close_on_error (env : PollEnv) (ui : RobTkApp)
    (h1 : 0 ≤ env.poll_descriptors) (h2 : 0 < env.poll)
    (h3 : env.revents_result < 0 ∨ env.revents &&& (POLLERR ||| POLLNVAL) ≠ 0) :
    (port_event_poll env ui).1 = true ∧ ui.closed < (port_event_poll env ui).2.closed ∧
      (registry_ok ui → ∃ ui', port_event env ui = some ui' ∧ ui.closed < ui'.closed) := by
  have hgo : (port_event_poll env ui).1 = true := by
    unfold port_event_poll
    simp only []
    rw [if_neg (not_lt.mpr h1), if_neg (not_le.mpr h2)]
  have hctrl : (port_event_poll env ui).2.ctrl = ui.ctrl := by
    unfold port_event_poll
    simp only []
    rw [if_neg (not_lt.mpr h1), if_neg (not_le.mpr h2)]
    split_ifs <;> rfl
  have hcl : ui.closed < (port_event_poll env ui).2.closed := by
    unfold port_event_poll
    simp only []
    rw [if_neg (not_lt.mpr h1), if_neg (not_le.mpr h2)]
    split_ifs <;> simp_all [robtk_close_self] <;> omega
  refine ⟨hgo, hcl, fun hok => ?_⟩
  obtain ⟨s', e, _, hs'⟩ :=
    port_event_refresh_returns (port_event_poll env ui).2 (registry_ok_congr hctrl hok)
  refine ⟨s', ?_, by omega⟩
  unfold port_event
  simp only []
  rw [if_pos hgo, e]

/-- Witness of C8 (amended): a tick reporting `POLLERR` on the sample registry. -/
theorem port_event_close_on_error_witness :
    (port_event_poll pollerr_env sample_app).1 = true ∧
      sample_app.closed < (port_event_poll pollerr_env sample_app).2.closed ∧
      ∃ ui', port_event pollerr_env sample_app = some ui' ∧ sample_app.closed < ui'.closed :=
  have h := port_event_close_on_error pollerr_env sample_app (by decide) (by decide)
    (Or.inr (by decide))
  ⟨h.1, h.2.1, h.2.2 sample_app_ok⟩

/-! ## The force-resend pass as a trace -/

/-- No call, no change. -/
theorem emit_nil (ui : RobTkApp) : emit [] ui = ui := by
  simp [emit]

/-- Calls made one after the other. -/
theorem emit_emit (a b : List Call) (ui : RobTkApp) :
    emit b (emit a ui) = emit (a ++ b) ui := by
  simp [emit, List.foldl_append, List.append_assoc]

/-- Accessor calls leave the registry alone. -/
theorem deref_emit (cs : List Call) (ui : RobTkApp) (c : Option Nat) :
    deref (emit cs ui) c = deref ui c := rfl

/-- What `deref` returns is the element at the index it was given. -/
theorem deref_eq_some {ui : RobTkApp} {c : Option Nat} {id : Nat} {e : Elem}
    (h : deref ui c = some (id, e)) : c = some id ∧ ui.ctrl[id]? = some e := by
  unfold deref at h
  cases c with
  | none => simp at h
  | some i =>
    cases hi : ui.ctrl[i]? with
    | none => simp [hi] at h
    | some x =>
      simp only [hi, Option.some.injEq, Prod.mk.injEq] at h
      obtain ⟨h1, h2⟩ := h
      subst h1 h2
      exact ⟨rfl, hi⟩

/-- The effect of `set_enum` on an enumerated control of the registry. -/
theorem set_enum_emit {ui : RobTkApp} {c : Option Nat} {id : Nat} {e : Elem}
    (h : deref ui c = some (id, e)) (he : e.is_enumerated = true) (v : Int)
    (cs : List Call) :
    set_enum c v (emit cs ui) = some (emit (cs ++ [Call.set_enum id v]) ui) := by
  have hi := (deref_eq_some h).2
  simp only [set_enum, deref_emit, h, he, Bool.true_eq_false, if_false]
  simp [emit, List.foldl_append, hw_step, hi, List.append_assoc]

/-- The effect of `set_dB` on a control of the registry. -/
theorem set_dB_emit {ui : RobTkApp} {c : Option Nat} {id : Nat} {e : Elem}
    (h : deref ui c = some (id, e)) (dB : ℝ) (cs : List Call) :
    set_dB c dB (emit cs ui) = some (emit (cs ++ [Call.set_dB id dB]) ui) := by
  have hi := (deref_eq_some h).2
  simp only [set_dB, deref_emit, h]
  simp [emit, List.foldl_append, hw_step, hi, List.append_assoc]

/-- The effect of `set_mute` on a control with playback switch. -/
theorem set_mute_emit {ui : RobTkApp} {c : Option Nat} {id : Nat} {e : Elem}
    (h : deref ui c = some (id, e)) (he : e.has_playback_switch = true) (m : Bool)
    (cs : List Call) :
    set_mute c m (emit cs ui) = some (emit (cs ++ [Call.set_mute id m]) ui) := by
  have hi := (deref_eq_some h).2
  simp only [set_mute, deref_emit, h, he, Bool.true_eq_false, if_false]
  simp [emit, List.foldl_append, hw_step, hi, List.append_assoc]

/-- The effect of `resend_enum` on an enumerated control with at least one item. -/
theorem resend_enum_emit {ui : RobTkApp} {c : Option Nat} (hok : enum_ok ui c) (val : Int)
    (cs : List Call) :
    resend_enum c val (emit cs ui) = some (emit (cs ++ resend_enum_calls ui c val) ui) := by
  obtain ⟨id, e, h, he, hn⟩ := hok
  have hn' : ¬ e.enum_items = 0 := by omega
  simp only [resend_enum, deref_emit, h, if_neg hn', resend_enum_calls]
  rw [set_enum_emit h he, Option.some_bind, set_enum_emit h he]
  simp

/-- The effect of `resend_dB` on a control of the registry. -/
theorem resend_dB_emit {ui : RobTkApp} {c : Option Nat} (hok : gain_ok ui c) (val : ℝ)
    (cs : List Call) :
    resend_dB c val (emit cs ui) = some (emit (cs ++ resend_dB_calls c val) ui) := by
  obtain ⟨id, e, h⟩ := hok
  have hc := (deref_eq_some h).1
  have e1 : (if val = -128 then set_dB c 127 (emit cs ui) else set_dB c (-128) (emit cs ui)) =
      set_dB c (if val = -128 then 127 else -128) (emit cs ui) := by
    split_ifs <;> rfl
  simp only [resend_dB, e1]
  rw [set_dB_emit h, Option.some_bind, set_dB_emit h]
  simp [resend_dB_calls, hc]

/-- A loop whose iterations make the calls `calls r` makes the calls `gather calls n`. -/
theorem for_loop_emit (ui : RobTkApp) (body : Nat → RobTkApp → Option RobTkApp)
    (calls : Nat → List Call) (n : Nat)
    (h : ∀ r, r < n → ∀ cs, body r (emit cs ui) = some (emit (cs ++ calls r) ui))
    (cs : List Call) :
    for_loop body n (emit cs ui) = some (emit (cs ++ gather calls n) ui) := by
  induction n with
  | zero => simp [for_loop, gather]
  | succ k ih =>
    rw [for_loop, ih fun r hr => h r (by omega), Option.some_bind, h k (by omega)]
    simp [gather, List.append_assoc]

/-- On a registry of the expected shape `cb_btn_reset` returns, having made exactly the
calls of `cb_btn_reset_calls`. -/
theorem cb_btn_reset_eq (ui : RobTkApp) (hok : registry_ok ui) :
    cb_btn_reset ui = some (emit (cb_btn_reset_calls ui) ui) := by
  have l1 := for_loop_emit ui
    (fun r ui => resend_enum (src_sel r) (ui.src_sel r) ui)
    (fun r => resend_enum_calls ui (src_sel r) (ui.src_sel r)) SIN
    (fun r hr cs => resend_enum_emit (hok.src r hr) _ cs)
  have l2 := for_loop_emit ui
    (fun r ui => resend_enum (matrix_sel r) (ui.mtx_sel r) ui)
    (fun r => resend_enum_calls ui (matrix_sel r) (ui.mtx_sel r)) SMI
    (fun r hr cs => resend_enum_emit (hok.msel r hr) _ cs)
  have l3 := for_loop_emit ui
    (fun o ui => resend_enum (out_sel o) (ui.out_sel o) ui)
    (fun o => resend_enum_calls ui (out_sel o) (ui.out_sel o)) SOUT
    (fun o ho cs => resend_enum_emit (hok.osel o ho) _ cs)
  have l4 := for_loop_emit ui
    (fun r ui => for_loop (fun c ui =>
      let n := r * SMO + c
      let ctrl := matrix_ctrl_cr c r
      let val := knob_to_db (ui.mtx_gain n).cur
      resend_dB ctrl val ui) SMO ui)
    (fun r => gather (fun c =>
      resend_dB_calls (matrix_ctrl_cr c r) (knob_to_db (ui.mtx_gain (r * SMO + c)).cur)) SMO)
    SMI
    (fun r hr cs => for_loop_emit ui
      (fun c ui => resend_dB (matrix_ctrl_cr c r) (knob_to_db (ui.mtx_gain (r * SMO + c)).cur) ui)
      (fun c =>
        resend_dB_calls (matrix_ctrl_cr c r) (knob_to_db (ui.mtx_gain (r * SMO + c)).cur))
      SMO (fun c hc cs => resend_dB_emit (hok.mtx r hr c hc) _ cs) cs)
  have l5 := for_loop_emit ui
    (fun n ui =>
      let ctrl := out_gain n
      let mute : Bool := decide ((ui.out_gain n).click_state = 1)
      let val := knob_to_db (ui.out_gain n).cur
      ((set_mute ctrl (!mute) ui).bind (set_mute ctrl mute)).bind (resend_dB ctrl val))
    (fun n =>
      resend_mute_calls (out_gain n) (decide ((ui.out_gain n).click_state = 1)) ++
      resend_dB_calls (out_gain n) (knob_to_db (ui.out_gain n).cur)) SMST
    (fun n hn cs => by
      obtain ⟨id, e, h, he⟩ := hok.ogain n hn
      have hc := (deref_eq_some h).1
      simp only []
      rw [set_mute_emit h he, Option.some_bind, set_mute_emit h he, Option.some_bind,
        resend_dB_emit ⟨id, e, h⟩]
      simp only [resend_mute_calls, hc, List.append_assoc, List.cons_append, List.nil_append]
      rfl)
  have l1' := l1 []
  rw [emit_nil] at l1'
  unfold cb_btn_reset
  rw [l1', Option.some_bind, l2, Option.some_bind, l3, Option.some_bind, l4, Option.some_bind,
    l5]
  simp [cb_btn_reset_calls, List.append_assoc]

/-! ## Reading the trace of one control -/

/-- A loop none of whose iterations passes the filter contributes nothing. -/
theorem gather_filterMap_nil {β : Type} (f : Call → Option β) (calls : Nat → List Call)
    (n : Nat) (h : ∀ r, r < n → (calls r).filterMap f = []) :
    (gather calls n).filterMap f = [] := by
  induction n with
  | zero => rfl
  | succ k ih =>
    rw [gather, List.filterMap_append, ih fun r hr => h r (by omega), h k (by omega)]
    rfl

/-- A loop in which only iteration `r0` passes the filter contributes that iteration. -/
theorem gather_filterMap_single {β : Type} (f : Call → Option β) (calls : Nat → List Call)
    (n r0 : Nat) (h0 : r0 < n) (h : ∀ r, r < n → r ≠ r0 → (calls r).filterMap f = []) :
    (gather calls n).filterMap f = (calls r0).filterMap f := by
  induction n with
  | zero => omega
  | succ k ih =>
    rw [gather, List.filterMap_append]
    by_cases hk : r0 = k
    · subst hk
      rw [gather_filterMap_nil f calls r0 fun r hr => h r (by omega) (by omega)]
      rfl
    · rw [ih (by omega) fun r hr hne => h r (by omega) hne, h k (by omega) (Ne.symm hk)]
      simp

/-- The enum writes of `resend_enum` on another control. -/
theorem enum_writes_resend_enum_ne (ui : RobTkApp) {c : Option Nat} {id : Nat}
    (h : c ≠ some id) (val : Int) : enum_writes id (resend_enum_calls ui c val) = [] := by
  unfold resend_enum_calls
  cases hd : deref ui c with
  | none => rfl
  | some p =>
    obtain ⟨i, e⟩ := p
    have hi : i ≠ id := fun hi => h (by rw [(deref_eq_some hd).1, hi])
    simp [enum_writes, hi]

/-- The enum writes of `resend_enum` on the control itself. -/
theorem enum_writes_resend_enum_eq {ui : RobTkApp} {c : Option Nat} {id : Nat} {e : Elem}
    (h : deref ui c = some (id, e)) (val : Int) :
    enum_writes id (resend_enum_calls ui c val) = [Int.tmod (val + 1) e.enum_items, val] := by
  simp [resend_enum_calls, h, enum_writes]

/-- The gain and mute steps write no enum item. -/
theorem enum_writes_resend_dB (id : Nat) (c : Option Nat) (val : ℝ) (m : Bool) :
    enum_writes id (resend_dB_calls c val) = [] ∧
      enum_writes id (resend_mute_calls c m) = [] := by
  cases c <;> simp [resend_dB_calls, resend_mute_calls, enum_writes]

/-- The selector and mute steps write no dB value. -/
theorem dB_writes_resend_enum (ui : RobTkApp) (id : Nat) (c : Option Nat) (val : Int)
    (m : Bool) :
    dB_writes id (resend_enum_calls ui c val) = [] ∧
      dB_writes id (resend_mute_calls c m) = [] := by
  constructor
  · unfold resend_enum_calls
    cases deref ui c with
    | none => rfl
    | some p => simp [dB_writes]
  · cases c <;> simp [resend_mute_calls, dB_writes]

/-- The dB writes of `resend_dB` on another control. -/
theorem dB_writes_resend_dB_ne {c : Option Nat} {id : Nat} (h : c ≠ some id) (val : ℝ) :
    dB_writes id (resend_dB_calls c val) = [] := by
  cases c with
  | none => rfl
  | some i =>
    have hi : i ≠ id := fun hi => h (by rw [hi])
    simp [resend_dB_calls, dB_writes, hi]

/-- The dB writes of `resend_dB` on the control itself. -/
theorem dB_writes_resend_dB_eq (id : Nat) (val : ℝ) :
    dB_writes id (resend_dB_calls (some id) val) =
      [if val = -128 then 127 else -128, val] := by
  simp [resend_dB_calls, dB_writes]

/-- Enum writes of calls made one after the other. -/
theorem enum_writes_append (id : Nat) (a b : List Call) :
    enum_writes id (a ++ b) = enum_writes id a ++ enum_writes id b :=
  List.filterMap_append _ _ _

/-- The dB writes of calls made one after the other. -/
theorem dB_writes_append (id : Nat) (a b : List Call) :
    dB_writes id (a ++ b) = dB_writes id a ++ dB_writes id b :=
  List.filterMap_append _ _ _

/-- Closed forms of the two table lookups used by `cb_btn_reset`. -/
theorem out_index (n : Nat) :
    (n < 6 → out_sel n = some (n + 2 + n / 2)) ∧ (n < 3 → out_gain n = some (3 * n + 1)) := by
  constructor <;> intro h <;> interval_cases n <;> rfl

/-- The mute and gain channel loops do not touch the selected enum item. -/
theorem channels_enum_item (e : Elem) (v : Int) (x : ElemVal) :
    (set_mute_channels e v x).enum_item = x.enum_item ∧
      (set_dB_channels e v x).enum_item = x.enum_item := by
  have hm : ∀ chn (y : ElemVal),
      (snd_mixer_selem_set_playback_switch e chn v y).enum_item = y.enum_item := by
    intro chn y
    unfold snd_mixer_selem_set_playback_switch
    split_ifs <;> rfl
  have hd : ∀ chn dir (y : ElemVal),
      (snd_mixer_selem_set_playback_dB e chn v dir y).enum_item = y.enum_item := by
    intro chn dir y
    unfold snd_mixer_selem_set_playback_dB
    split_ifs <;> rfl
  have hm' : ∀ chn (y : ElemVal),
      (if e.has_playback_channel chn then snd_mixer_selem_set_playback_switch e chn v y
        else y).enum_item = y.enum_item := by
    intro chn y
    split_ifs
    · exact hm chn y
    · rfl
  have hd' : ∀ (b : Bool) chn dir (y : ElemVal),
      (if b then snd_mixer_selem_set_playback_dB e chn v dir y else y).enum_item =
        y.enum_item := by
    intro b chn dir y
    split_ifs
    · exact hd chn dir y
    · rfl
  constructor
  · simp only [set_mute_channels, List.range, List.range.loop, List.foldl, hm']
  · simp only [set_dB_channels, List.range, List.range.loop, List.foldl, hd']

/-- The enum item a control holds after a sequence of accessor calls: the last valid
item written to it, or the item it held when none was. -/
theorem enum_item_foldl (ctrl : List Elem) (id : Nat) (e : Elem) (he : ctrl[id]? = some e)
    (cs : List Call) (hw : Nat → ElemVal) :
    ((cs.foldl (hw_step ctrl) hw) id).enum_item =
      (enum_writes id cs).foldl (fun x v => if 0 ≤ v ∧ v < e.enum_items then v else x)
        (hw id).enum_item := by
  induction cs generalizing hw with
  | nil => rfl
  | cons c cs ih =>
    rw [List.foldl_cons, ih]
    cases c with
    | set_mute i m =>
      have : (hw_step ctrl hw (Call.set_mute i m) id).enum_item = (hw id).enum_item := by
        rcases hx : ctrl[i]? with _ | x <;> simp only [hw_step, hx]
        by_cases hi : id = i
        · subst hi; simp [(channels_enum_item x _ _).1]
        · simp [Function.update_noteq hi]
      rw [this]; rfl
    | set_dB i d =>
      have : (hw_step ctrl hw (Call.set_dB i d) id).enum_item = (hw id).enum_item := by
        rcases hx : ctrl[i]? with _ | x <;> simp only [hw_step, hx]
        by_cases hi : id = i
        · subst hi; simp [(channels_enum_item x _ _).2]
        · simp [Function.update_noteq hi]
      rw [this]; rfl
    | set_enum i v =>
      by_cases hi : i = id
      · subst hi
        simp only [hw_step, he, Function.update_same, enum_writes, List.filterMap_cons,
          if_true, List.foldl_cons]
        congr 1
        unfold snd_mixer_selem_set_enum_item
        split_ifs <;> rfl
      · have : hw_step ctrl hw (Call.set_enum i v) id = hw id := by
          rcases hx : ctrl[i]? with _ | x <;> simp only [hw_step, hx]
          simp [Function.update_noteq (Ne.symm hi)]
        rw [this]
        simp [enum_writes, hi]
    | get_mute i => rfl
    | get_dB i => rfl
    | get_enum i => rfl

/-- Enum writes of a loop none of whose iterations writes to `id`. -/
theorem enum_writes_gather_nil (id : Nat) (calls : Nat → List Call) (n : Nat)
    (h : ∀ r, r < n → enum_writes id (calls r) = []) : enum_writes id (gather calls n) = [] :=
  gather_filterMap_nil _ calls n h

/-- Enum writes of a loop in which only iteration `r0` writes to `id`. -/
theorem enum_writes_gather_single (id : Nat) (calls : Nat → List Call) (n r0 : Nat)
    (h0 : r0 < n) (h : ∀ r, r < n → r ≠ r0 → enum_writes id (calls r) = []) :
    enum_writes id (gather calls n) = enum_writes id (calls r0) :=
  gather_filterMap_single _ calls n r0 h0 h

/-- The dB writes of a loop none of whose iterations writes to `id`. -/
theorem dB_writes_gather_nil (id : Nat) (calls : Nat → List Call) (n : Nat)
    (h : ∀ r, r < n → dB_writes id (calls r) = []) : dB_writes id (gather calls n) = [] :=
  gather_filterMap_nil _ calls n h

/-- The dB writes of a loop in which only iteration `r0` writes to `id`. -/
theorem dB_writes_gather_single (id : Nat) (calls : Nat → List Call) (n r0 : Nat)
    (h0 : r0 < n) (h : ∀ r, r < n → r ≠ r0 → dB_writes id (calls r) = []) :
    dB_writes id (gather calls n) = dB_writes id (calls r0) :=
  gather_filterMap_single _ calls n r0 h0 h

/-- The enum writes `cb_btn_reset` makes to the control of a selector coordinate. -/
theorem enum_writes_cb_btn_reset (ui : RobTkApp) (sel : Selector) (hv : sel.valid) (id : Nat)
    (e : Elem) (hd : deref ui sel.ctrl = some (id, e)) :
    enum_writes id (cb_btn_reset_calls ui) =
      [Int.tmod (sel.value ui + 1) e.enum_items, sel.value ui] := by
  have hc := (deref_eq_some hd).1
  have hD : enum_writes id (gather (fun r => gather (fun c =>
      resend_dB_calls (matrix_ctrl_cr c r) (knob_to_db (ui.mtx_gain (r * SMO + c)).cur)) SMO)
      SMI) = [] :=
    enum_writes_gather_nil _ _ _ fun r _ =>
      enum_writes_gather_nil _ _ _ fun c _ => (enum_writes_resend_dB id _ _ false).1
  have hE : enum_writes id (gather (fun n =>
      resend_mute_calls (out_gain n) (decide ((ui.out_gain n).click_state = 1)) ++
      resend_dB_calls (out_gain n) (knob_to_db (ui.out_gain n).cur)) SMST) = [] :=
    enum_writes_gather_nil _ _ _ fun n _ => by
      rw [enum_writes_append, (enum_writes_resend_dB id _ 0 _).2,
        (enum_writes_resend_dB id _ _ false).1]
      rfl
  unfold cb_btn_reset_calls
  simp only [enum_writes_append, hD, hE, List.append_nil]
  cases sel with
  | src r0 =>
    have hv' : r0 < 18 := hv
    have hid : id = 13 + r0 := by
      have := hc; simp only [Selector.ctrl, src_sel_eq r0 hv'] at this
      exact (Option.some.inj this).symm
    rw [enum_writes_gather_single id _ SIN r0 hv fun r hr hne =>
        enum_writes_resend_enum_ne ui (by
          rw [src_sel_eq r hr, hid]; intro h; have := Option.some.inj h; omega) _,
      enum_writes_gather_nil id _ SMI fun r hr =>
        enum_writes_resend_enum_ne ui (by
          rw [matrix_sel_eq r hr, hid]; intro h; have := Option.some.inj h; omega) _,
      enum_writes_gather_nil id _ SOUT fun o ho =>
        enum_writes_resend_enum_ne ui (by
          rw [(out_index o).1 ho, hid]; intro h; have := Option.some.inj h
          simp only [SOUT] at ho; omega) _,
      enum_writes_resend_enum_eq (c := src_sel r0) hd]
    rfl
  | mtx r0 =>
    have hv' : r0 < 18 := hv
    have hid : id = 32 + 7 * r0 := by
      have := hc; simp only [Selector.ctrl, matrix_sel_eq r0 hv'] at this
      exact (Option.some.inj this).symm
    rw [enum_writes_gather_nil id _ SIN fun r hr =>
        enum_writes_resend_enum_ne ui (by
          rw [src_sel_eq r hr, hid]; intro h; have := Option.some.inj h
          simp only [SIN] at hr; omega) _,
      enum_writes_gather_single id _ SMI r0 hv fun r hr hne =>
        enum_writes_resend_enum_ne ui (by
          rw [matrix_sel_eq r hr, hid]; intro h; have := Option.some.inj h; omega) _,
      enum_writes_gather_nil id _ SOUT fun o ho =>
        enum_writes_resend_enum_ne ui (by
          rw [(out_index o).1 ho, hid]; intro h; have := Option.some.inj h
          simp only [SOUT] at ho; omega) _,
      enum_writes_resend_enum_eq (c := matrix_sel r0) hd]
    rfl
  | out o0 =>
    have hv' : o0 < 6 := hv
    have hid : id = o0 + 2 + o0 / 2 := by
      have := hc; simp only [Selector.ctrl, (out_index o0).1 hv'] at this
      exact (Option.some.inj this).symm
    rw [enum_writes_gather_nil id _ SIN fun r hr =>
        enum_writes_resend_enum_ne ui (by
          rw [src_sel_eq r hr, hid]; intro h; have := Option.some.inj h; omega) _,
      enum_writes_gather_nil id _ SMI fun r hr =>
        enum_writes_resend_enum_ne ui (by
          rw [matrix_sel_eq r hr, hid]; intro h; have := Option.some.inj h; omega) _,
      enum_writes_gather_single id _ SOUT o0 hv fun o ho hne =>
        enum_writes_resend_enum_ne ui (by
          rw [(out_index o).1 ho, hid]; intro h; have := Option.some.inj h
          simp only [SOUT] at ho; omega) _,
      enum_writes_resend_enum_eq (c := out_sel o0) hd]
    rfl

/-! ## Force-resend of enumerated and gain controls -/

/-- Capture selector 0 of the single-item registry is control 13. -/
theorem one_item_app_src_zero :
    deref one_item_app (Selector.src 0).ctrl = some (13, { sample_elem with enum_items := 1 }) := by
  have e : one_item_app.ctrl[13]? = some { sample_elem with enum_items := 1 } := by
    show (List.replicate 158 _)[13]? = _
    rw [List.getElem?_replicate, if_pos (by decide)]
  show deref one_item_app (src_sel 0) = _
  rw [src_sel_eq 0 (by decide)]
  simp only [deref, e]

/-- The dB writes `cb_btn_reset` makes to the control of a gain coordinate. -/
theorem dB_writes_cb_btn_reset (ui : RobTkApp) (g : Gain) (hv : g.valid) (id : Nat)
    (hc : g.ctrl = some id) :
    dB_writes id (cb_btn_reset_calls ui) =
      [if knob_to_db (g.dial ui) = -128 then 127 else -128, knob_to_db (g.dial ui)] := by
  have hA : dB_writes id (gather (fun r =>
      resend_enum_calls ui (src_sel r) (ui.src_sel r)) SIN) = [] :=
    dB_writes_gather_nil _ _ _ fun r _ => (dB_writes_resend_enum ui id _ _ false).1
  have hB : dB_writes id (gather (fun r =>
      resend_enum_calls ui (matrix_sel r) (ui.mtx_sel r)) SMI) = [] :=
    dB_writes_gather_nil _ _ _ fun r _ => (dB_writes_resend_enum ui id _ _ false).1
  have hC : dB_writes id (gather (fun o =>
      resend_enum_calls ui (out_sel o) (ui.out_sel o)) SOUT) = [] :=
    dB_writes_gather_nil _ _ _ fun r _ => (dB_writes_resend_enum ui id _ _ false).1
  have hE : ∀ n, dB_writes id
      (resend_mute_calls (out_gain n) (decide ((ui.out_gain n).click_state = 1)) ++
        resend_dB_calls (out_gain n) (knob_to_db (ui.out_gain n).cur)) =
      dB_writes id (resend_dB_calls (out_gain n) (knob_to_db (ui.out_gain n).cur)) := by
    intro n
    rw [dB_writes_append, (dB_writes_resend_enum ui id _ 0 _).2, List.nil_append]
  unfold cb_btn_reset_calls
  simp only [dB_writes_append, hA, hB, hC, List.nil_append]
  cases g with
  | cell r0 c0 =>
    obtain ⟨hr0, hc0⟩ := hv
    have hr' : r0 < 18 := hr0
    have hc' : c0 < 6 := hc0
    have hc2 : matrix_ctrl_cr c0 r0 = some id := hc
    have hid : id = 33 + 7 * r0 + c0 := by
      have := hc
      simp only [Gain.ctrl, matrix_ctrl_cr_eq, if_neg (show ¬ (r0 ≥ 18 ∨ c0 ≥ 6) by omega)]
        at this
      exact (Option.some.inj this).symm
    have hne : ∀ r c, r < 18 → c < 6 → (r ≠ r0 ∨ c ≠ c0) → matrix_ctrl_cr c r ≠ some id := by
      intro r c hr hc hrc
      rw [matrix_ctrl_cr_eq, if_neg (by omega), hid]
      intro h; have := Option.some.inj h; omega
    rw [dB_writes_gather_single id _ SMI r0 hr0 fun r hr hne' =>
        dB_writes_gather_nil id _ SMO fun c hc =>
          dB_writes_resend_dB_ne (hne r c hr hc (Or.inl hne')) _,
      dB_writes_gather_single id _ SMO c0 hc0 fun c hc hne' =>
        dB_writes_resend_dB_ne (hne r0 c hr' hc (Or.inr hne')) _,
      dB_writes_gather_nil id _ SMST fun n hn => by
        rw [hE]
        exact dB_writes_resend_dB_ne (by
          simp only [SMST] at hn
          rw [(out_index n).2 hn, hid]; intro h; have := Option.some.inj h; omega) _,
      hc2, dB_writes_resend_dB_eq]
    rfl
  | out n0 =>
    have hn' : n0 < 3 := hv
    have hc2 : out_gain n0 = some id := hc
    have hid : id = 3 * n0 + 1 := by
      have := hc; simp only [Gain.ctrl, (out_index n0).2 hn'] at this
      exact (Option.some.inj this).symm
    rw [dB_writes_gather_nil id _ SMI fun r hr =>
        dB_writes_gather_nil id _ SMO fun c hc =>
          dB_writes_resend_dB_ne (by
            simp only [SMI] at hr; simp only [SMO] at hc
            rw [matrix_ctrl_cr_eq, if_neg (by omega), hid]
            intro h; have := Option.some.inj h; omega) _,
      dB_writes_gather_single id _ SMST n0 hv fun n hn hne =>
        by
          rw [hE]
          exact dB_writes_resend_dB_ne (by
            rw [(out_index n).2 hn, hid]; intro h; have := Option.some.inj h; omega) _,
      hE, hc2, dB_writes_resend_dB_eq]
    rfl

/-- Rounding keeps a value between the integers that bound it. -/
theorem rint_bounds (x : ℝ) (n m : ℤ) (h1 : (n : ℝ) ≤ x) (h2 : x ≤ m) :
    (n : ℝ) ≤ rint x ∧ rint x ≤ m := by
  have hf1 : n ≤ ⌊x⌋ := Int.le_floor.mpr h1
  have hf2 : ⌊x⌋ ≤ m := Int.cast_le.mp ((Int.floor_le x).trans h2)
  have hf1r : (n : ℝ) ≤ (⌊x⌋ : ℝ) := by exact_mod_cast hf1
  have hf2r : (⌊x⌋ : ℝ) ≤ (m : ℝ) := by exact_mod_cast hf2
  have hup : 1 / 2 ≤ x - ⌊x⌋ → (⌊x⌋ : ℝ) + 1 ≤ m := by
    intro hd
    have hlt : ⌊x⌋ < m := by
      rcases lt_or_eq_of_le hf2 with h | h
      · exact h
      · exfalso
        have : (⌊x⌋ : ℝ) = (m : ℝ) := by exact_mod_cast h
        linarith
    have : ⌊x⌋ + 1 ≤ m := by omega
    exact_mod_cast this
  unfold rint
  simp only []
  split_ifs with c1 c2 c3
  · exact ⟨hf1r, hf2r⟩
  · exact ⟨by linarith, hup (by linarith)⟩
  · exact ⟨hf1r, hf2r⟩
  · exact ⟨by linarith, hup (by linarith)⟩

/-- Every dial position decodes to a decibel value in `[-128, 6]`. -/
theorem knob_to_db_range (v : ℝ) :
    -128 ≤ knob_to_db v ∧ knob_to_db v ≤ 6 := by
  have hs := sqrt_half_pos
  have hv : 0 ≤ Real.sqrt v := Real.sqrt_nonneg v
  have hraw : -128 ≤ knob_to_db_raw v := by
    have : 0 ≤ Real.sqrt v / (Real.sqrt 0.5 + Real.sqrt v) * 228.75 := by positivity
    unfold knob_to_db_raw
    linarith
  unfold knob_to_db
  simp only []
  split_ifs with h
  · norm_num
  · have hb := rint_bounds (knob_to_db_raw v) (-128) 6 (by push_cast; linarith)
      (by push_cast; linarith)
    push_cast at hb
    exact hb

/-! ## Topology: linear lookup, fixed families and injectivity -/

/-- C13: `matrix_ctrl_n n` is `matrix_ctrl_cr` at column `n mod 6` and row `n div 6`;
for `r < 18` and `c < 6`, `matrix_ctrl_n (6 * r + c)` is index `33 + 7 * r + c`, the
control of `matrix_ctrl_cr c r`; for `n >= 108` the result is none. -/
theorem matrix_ctrl_n_agrees (n r c : Nat) :
    matrix_ctrl_n n = matrix_ctrl_cr (n % 6) (n / 6) ∧
      (r < 18 → c < 6 →
        matrix_ctrl_n (6 * r + c) = some (33 + 7 * r + c) ∧
        matrix_ctrl_n (6 * r + c) = matrix_ctrl_cr c r) ∧
      (108 ≤ n → matrix_ctrl_n n = none) := by
  refine ⟨rfl, fun hr hc => ?_, fun hn => ?_⟩
  · have e1 : (6 * r + c) % 6 = c := by omega
    have e2 : (6 * r + c) / 6 = r := by omega
    have e : matrix_ctrl_n (6 * r + c) = matrix_ctrl_cr c r := by
      show matrix_ctrl_cr ((6 * r + c) % SMO) ((6 * r + c) / SMO) = _
      simp only [SMO, e1, e2]
    rw [e, matrix_ctrl_cr_eq, if_neg (by omega)]
    exact ⟨rfl, rfl⟩
  · show matrix_ctrl_cr (n % SMO) (n / SMO) = none
    rw [matrix_ctrl_cr_eq, if_pos]
    simp only [SMO]
    left; omega

/-- Closed forms of the three fixed lookup tables. -/
theorem lookup_tables (c : Nat) :
    out_gain c = (if c = 0 then some 1 else if c = 1 then some 4 else if c = 2 then some 7
      else none) ∧
    out_sel c = (if c = 0 then some 2 else if c = 1 then some 3 else if c = 2 then some 5
      else if c = 3 then some 6 else if c = 4 then some 8 else if c = 5 then some 9
      else none) ∧
    hiz c = (if c = 0 then some 11 else if c = 1 then some 12 else none) := by
  refine ⟨?_, ?_, ?_⟩
  · match c with
    | 0 | 1 | 2 => rfl
    | n + 3 => simp [out_gain]
  · match c with
    | 0 | 1 | 2 | 3 | 4 | 5 => rfl
    | n + 6 => simp [out_sel]
  · match c with
    | 0 | 1 => rfl
    | n + 2 => simp [hiz]

/-- C14: `src_sel r` is index `13 + r` and `matrix_sel r` is index `32 + 7 * r` for
`r < 18`; `out_gain` is 1, 4, 7 for 0, 1, 2; `out_sel` is 2, 3, 5, 6, 8, 9 for 0 to 5;
`hiz` is 11, 12 for 0, 1; `mst_gain` is index 0; every other coordinate gives none. -/
theorem fixed_family_index (r c : Nat) :
    src_sel r = (if r < 18 then some (13 + r) else none) ∧
    matrix_sel r = (if r < 18 then some (32 + 7 * r) else none) ∧
    out_gain c = (if c = 0 then some 1 else if c = 1 then some 4 else if c = 2 then some 7
      else none) ∧
    out_sel c = (if c = 0 then some 2 else if c = 1 then some 3 else if c = 2 then some 5
      else if c = 3 then some 6 else if c = 4 then some 8 else if c = 5 then some 9
      else none) ∧
    hiz c = (if c = 0 then some 11 else if c = 1 then some 12 else none) ∧
    mst_gain = some 0 := by
  obtain ⟨h1, h2, h3⟩ := lookup_tables c
  refine ⟨?_, ?_, h1, h2, h3, rfl⟩
  · by_cases h : r < 18
    · rw [if_pos h, src_sel_eq r h]
    · rw [if_neg h]; unfold src_sel SIN; rw [if_pos (by omega)]
  · by_cases h : r < 18
    · rw [if_pos h, matrix_sel_eq r h]
    · rw [if_neg h]; unfold matrix_sel SMI; rw [if_pos (by omega)]

/-- The index of an in-range coordinate, family by family. -/
theorem Coord.ctrl_eq (a : Coord) (ha : a.valid) :
    a.ctrl = some (match a with
      | Coord.mst => 0
      | Coord.out_gain c => 3 * c + 1
      | Coord.out_sel c => c + 2 + c / 2
      | Coord.hiz c => 11 + c
      | Coord.src_sel r => 13 + r
      | Coord.matrix_sel r => 32 + 7 * r
      | Coord.matrix r c => 33 + 7 * r + c) := by
  cases a with
  | mst => rfl
  | out_gain c => exact (out_index c).2 ha
  | out_sel c => exact (out_index c).1 ha
  | hiz c =>
    have hc : c < 2 := ha
    interval_cases c <;> rfl
  | src_sel r => exact src_sel_eq r ha
  | matrix_sel r => exact matrix_sel_eq r ha
  | matrix r c =>
    obtain ⟨hr, hc⟩ := ha
    simp only [SMI] at hr
    simp only [SMO] at hc
    show matrix_ctrl_cr c r = _
    rw [matrix_ctrl_cr_eq, if_neg (by omega)]

/-- C18: over all families together, every in-range logical coordinate has a registry
index, at most 157, and two in-range coordinates with the same index are the same
coordinate. -/
theorem coord_ctrl_injective (a b : Coord) (ha : a.valid) (hb : b.valid) :
    (∃ id, a.ctrl = some id ∧ id ≤ 157) ∧ (a.ctrl = b.ctrl → a = b) := by
  have ea := a.ctrl_eq ha
  have eb := b.ctrl_eq hb
  constructor
  · refine ⟨_, ea, ?_⟩
    cases a <;> simp only [Coord.valid, SMI, SMO, SIN, SOUT, SMST] at ha <;> simp only [] <;> omega
  · intro h
    rw [ea, eb] at h
    have h' := Option.some.inj h
    cases a <;> cases b <;>
      simp only [Coord.valid, SMI, SMO, SIN, SOUT, SMST] at ha hb <;>
      simp only [] at h' <;>
      first
        | rfl
        | (exfalso; omega)
        | (congr 1 <;> omega)

/-- Witness of C18: the last matrix cell (row 17, col 5) against the master gain. -/
theorem coord_ctrl_injective_witness :
    (∃ id, (Coord.matrix 17 5).ctrl = some id ∧ id ≤ 157) ∧
      ((Coord.matrix 17 5).ctrl = Coord.mst.ctrl → Coord.matrix 17 5 = Coord.mst) :=
  coord_ctrl_injective (Coord.matrix 17 5) Coord.mst (by decide) (by decide)

/-! ## The codec as a pair of inverses -/

/-- Counterexample of C15: no dB in `[-128, 6]` has an unrounded `knob_to_db` value of
`db_to_knob dB` that differs from dB. -/
theorem codec_never_differs :
    ¬ ∃ dB : ℝ, -128 ≤ dB ∧ dB ≤ 6 ∧ knob_to_db_raw (db_to_knob dB) ≠ dB := by
  rintro ⟨dB, h1, h2, h3⟩
  exact h3 (knob_to_db_raw_db_to_knob dB h1 (by linarith))

/-- C15 (amended): in exact real arithmetic the formula of `knob_to_db` is an exact
inverse of `db_to_knob` on `[-128, 6]`: the unrounded value equals dB, and `knob_to_db`
itself returns dB rounded to the nearest integer. -/
theorem codec_exact_inverse (dB : ℝ) (h1 : -128 ≤ dB) (h2 : dB ≤ 6) :
    knob_to_db_raw (db_to_knob dB) = dB ∧ knob_to_db (db_to_knob dB) = rint dB := by
  have h := knob_to_db_raw_db_to_knob dB h1 (by linarith)
  refine ⟨h, ?_⟩
  unfold knob_to_db
  simp only [h]
  rw [if_neg (by linarith)]

/-- Witness of C15 (amended) at 0.5 dB. -/
theorem codec_exact_inverse_witness :
    knob_to_db_raw (db_to_knob (1 / 2)) = 1 / 2 ∧ knob_to_db (db_to_knob (1 / 2)) = rint (1 / 2) :=
  codec_exact_inverse (1 / 2) (by norm_num) (by norm_num)

/-! ## Coverage of the force-resend pass -/

/-- A call of a loop is a call of one of its iterations. -/
theorem mem_gather {c : Call} {calls : Nat → List Call} {n : Nat} (h : c ∈ gather calls n) :
    ∃ r, r < n ∧ c ∈ calls r := by
  induction n with
  | zero => simp [gather] at h
  | succ k ih =>
    rw [gather, List.mem_append] at h
    rcases h with h | h
    · obtain ⟨r, hr, hc⟩ := ih h
      exact ⟨r, by omega, hc⟩
    · exact ⟨k, by omega, h⟩

/-- The calls of one resend step are made on the control of the step. -/
theorem resend_calls_target (ui : RobTkApp) (sc : Option Nat) (val : Int) (v : ℝ) (m : Bool)
    (c : Call) :
    (c ∈ resend_enum_calls ui sc val → sc = some c.target) ∧
      (c ∈ resend_dB_calls sc v → sc = some c.target) ∧
      (c ∈ resend_mute_calls sc m → sc = some c.target) := by
  refine ⟨fun h => ?_, fun h => ?_, fun h => ?_⟩
  · unfold resend_enum_calls at h
    cases hd : deref ui sc with
    | none => simp [hd] at h
    | some p =>
      obtain ⟨i, e⟩ := p
      have hc := (deref_eq_some hd).1
      simp only [hd, List.mem_cons, List.mem_singleton, List.not_mem_nil, or_false] at h
      rcases h with h | h <;> rw [h, hc] <;> rfl
  · cases sc with
    | none => simp [resend_dB_calls] at h
    | some i =>
      simp only [resend_dB_calls, List.mem_cons, List.mem_singleton, List.not_mem_nil,
        or_false] at h
      rcases h with h | h <;> rw [h] <;> rfl
  · cases sc with
    | none => simp [resend_mute_calls] at h
    | some i =>
      simp only [resend_mute_calls, List.mem_cons, List.mem_singleton, List.not_mem_nil,
        or_false] at h
      rcases h with h | h <;> rw [h] <;> rfl

/-- Every call of `cb_btn_reset` is made on the control of a selector, a matrix cell or
an output gain. -/
theorem cb_btn_reset_calls_target (ui : RobTkApp) (c : Call) (h : c ∈ cb_btn_reset_calls ui) :
    (∃ r, r < 18 ∧ c.target = 13 + r) ∨ (∃ r, r < 18 ∧ c.target = 32 + 7 * r) ∨
      (∃ o, o < 6 ∧ c.target = o + 2 + o / 2) ∨
      (∃ r k, r < 18 ∧ k < 6 ∧ c.target = 33 + 7 * r + k) ∨
      (∃ n, n < 3 ∧ c.target = 3 * n + 1) := by
  unfold cb_btn_reset_calls at h
  simp only [List.mem_append] at h
  rcases h with (((h | h) | h) | h) | h
  · obtain ⟨r, hr, hc⟩ := mem_gather h
    have := (resend_calls_target ui _ _ 0 false c).1 hc
    rw [src_sel_eq r hr] at this
    exact Or.inl ⟨r, hr, (Option.some.inj this).symm⟩
  · obtain ⟨r, hr, hc⟩ := mem_gather h
    have := (resend_calls_target ui _ _ 0 false c).1 hc
    rw [matrix_sel_eq r hr] at this
    exact Or.inr (Or.inl ⟨r, hr, (Option.some.inj this).symm⟩)
  · obtain ⟨o, ho, hc⟩ := mem_gather h
    have := (resend_calls_target ui _ _ 0 false c).1 hc
    rw [(out_index o).1 ho] at this
    exact Or.inr (Or.inr (Or.inl ⟨o, ho, (Option.some.inj this).symm⟩))
  · obtain ⟨r, hr, hc⟩ := mem_gather h
    obtain ⟨k, hk, hc⟩ := mem_gather hc
    have := (resend_calls_target ui _ 0 _ false c).2.1 hc
    have hr' : r < 18 := hr
    have hk' : k < 6 := hk
    rw [matrix_ctrl_cr_eq, if_neg (by omega)] at this
    exact Or.inr (Or.inr (Or.inr (Or.inl ⟨r, k, hr, hk, (Option.some.inj this).symm⟩)))
  · obtain ⟨n, hn, hc⟩ := mem_gather h
    rw [List.mem_append] at hc
    have : out_gain n = some c.target := by
      rcases hc with hc | hc
      · exact (resend_calls_target ui _ 0 0 _ c).2.2 hc
      · exact (resend_calls_target ui _ 0 _ false c).2.1 hc
    rw [(out_index n).2 hn] at this
    exact Or.inr (Or.inr (Or.inr (Or.inr ⟨n, hn, (Option.some.inj this).symm⟩)))

/-- C11: on the sample registry `cb_btn_reset` returns and none of its accessor calls is
made on the master gain (control 0) or on a Hi-Z toggle (controls 11 and 12). -/
theorem cb_btn_reset_skips_master_and_hiz :
    mst_gain = some 0 ∧ hiz 0 = some 11 ∧ hiz 1 = some 12 ∧
      ∃ ui' added, cb_btn_reset sample_app = some ui' ∧
        ui'.log = sample_app.log ++ added ∧
        ∀ c ∈ added, c.target ≠ 0 ∧ c.target ≠ 11 ∧ c.target ≠ 12 := by
  refine ⟨rfl, rfl, rfl, _, cb_btn_reset_calls sample_app,
    cb_btn_reset_eq sample_app sample_app_ok, rfl, fun c hc => ?_⟩
  rcases cb_btn_reset_calls_target sample_app c hc with
    ⟨r, hr, h⟩ | ⟨r, hr, h⟩ | ⟨o, ho, h⟩ | ⟨r, k, hr, hk, h⟩ | ⟨n, hn, h⟩ <;>
  exact ⟨by omega, by omega, by omega⟩

/-! ## Mute round trip -/

/-- What `set_mute` leaves in the switches of channels 0, 1 and 2, and of the others. -/
theorem set_mute_channels_switch (e : Elem) (hs : e.has_playback_switch = true) (v : Int)
    (x : ElemVal) (chn : Nat) :
    (chn < 3 → e.has_playback_channel chn = true →
        (set_mute_channels e v x).playback_switch chn = (if v = 0 then 0 else 1)) ∧
      (3 ≤ chn → (set_mute_channels e v x).playback_switch chn = x.playback_switch chn) := by
  simp only [set_mute_channels, List.range, List.range.loop, List.foldl,
    snd_mixer_selem_set_playback_switch, hs, true_and]
  constructor
  · intro h3 hc
    interval_cases chn <;> simp [hc, Function.update] <;> split_ifs <;> simp_all
  · intro h3
    have h0 : chn ≠ 0 := by omega
    have h1 : chn ≠ 1 := by omega
    have h2 : chn ≠ 2 := by omega
    split_ifs <;> simp [Function.update, h0, h1, h2]

/-- Counterexample of C12: on an element with playback channels 0 to 3, all switched on,
`set_mute (c, true)` leaves the switch of channel 3 on. -/
theorem set_mute_misses_fourth_channel :
    quad_elem.has_playback_switch = true ∧ quad_elem.has_playback_channel 3 = true ∧
      (set_mute (some 0) true quad_app).map
        (fun s => snd_mixer_selem_get_playback_switch quad_elem 3 (s.hw 0)) = some (some 1) := by
  refine ⟨rfl, rfl, ?_⟩
  decide

/-- What `get_mute` returns on a control with playback switch. -/
theorem get_mute_eq {s : RobTkApp} {c : Option Nat} {id : Nat} {e : Elem}
    (hd : deref s c = some (id, e)) (hs : e.has_playback_switch = true) :
    get_mute c s =
      some (decide ((snd_mixer_selem_get_playback_switch e 0 (s.hw id)).getD 0 = 0),
        { s with log := s.log ++ [Call.get_mute id] }) := by
  simp only [get_mute, hd, hs, Bool.true_eq_false, if_false]

/-- What `get_enum` returns on an enumerated control. -/
theorem get_enum_eq {s : RobTkApp} {c : Option Nat} {id : Nat} {e : Elem}
    (hd : deref s c = some (id, e)) (he : e.is_enumerated = true) :
    get_enum c s =
      some ((s.hw id).enum_item, { s with log := s.log ++ [Call.get_enum id] }) := by
  simp only [get_enum, hd, he, Bool.true_eq_false, if_false, snd_mixer_selem_get_enum_item]

/-- What `get_dB` returns on a control of the registry. -/
theorem get_dB_eq {s : RobTkApp} {c : Option Nat} {id : Nat} {e : Elem}
    (hd : deref s c = some (id, e)) :
    get_dB c s =
      some ((((snd_mixer_selem_get_playback_dB e 0 (s.hw id)).getD 0 : Int) : ℝ) / 100,
        { s with log := s.log ++ [Call.get_dB id] }) := by
  simp only [get_dB, hd]

/-- C12 (amended): on every control with the playback-switch capability, after
`set_mute (c, true)` the switch reads off on each of the channels 0, 1, 2 that the
control exposes and `get_mute` returns true; on a control that exposes channel 0,
`get_mute` returns true exactly when the switch of channel 0 is off. -/
theorem set_mute_round_trip (ui : RobTkApp) (c : Option Nat) (id : Nat) (e : Elem)
    (hd : deref ui c = some (id, e)) (hs : e.has_playback_switch = true) :
    (∃ ui', set_mute c true ui = some ui' ∧
      (∀ chn, chn < 3 → e.has_playback_channel chn = true →
        snd_mixer_selem_get_playback_switch e chn (ui'.hw id) = some 0) ∧
      ∃ ui'', get_mute c ui' = some (true, ui'')) ∧
    (e.has_playback_channel 0 = true →
      ∃ ui', get_mute c ui = some (decide ((ui.hw id).playback_switch 0 = 0), ui')) := by
  constructor
  · have hm : set_mute c true ui = some { ui with
        hw := Function.update ui.hw id (set_mute_channels e 0 (ui.hw id))
        log := ui.log ++ [Call.set_mute id true] } := by
      simp only [set_mute, hd, hs, Bool.true_eq_false, if_false, if_true]
    refine ⟨_, hm, ?_, ?_⟩
    · intro chn h3 hc
      simp only [snd_mixer_selem_get_playback_switch, hs, hc, and_self, if_true,
        Function.update_same]
      rw [(set_mute_channels_switch e hs _ _ chn).1 h3 hc]
      simp
    · have hd' : deref { ui with
          hw := Function.update ui.hw id (set_mute_channels e 0 (ui.hw id))
          log := ui.log ++ [Call.set_mute id true] } c = some (id, e) := hd
      have hb : decide ((snd_mixer_selem_get_playback_switch e 0
          (Function.update ui.hw id (set_mute_channels e 0 (ui.hw id)) id)).getD 0 = 0) =
          true := by
        simp only [snd_mixer_selem_get_playback_switch, hs, true_and, Function.update_same]
        by_cases h0 : e.has_playback_channel 0 = true
        · rw [if_pos h0, (set_mute_channels_switch e hs _ _ 0).1 (by decide) h0]
          simp
        · rw [if_neg h0]; simp
      rw [get_mute_eq hd' hs]
      exact ⟨_, by rw [← hb]⟩
  · intro h0
    rw [get_mute_eq hd hs]
    simp only [snd_mixer_selem_get_playback_switch, hs, h0, and_self, if_true,
      Option.getD_some]
    exact ⟨_, rfl⟩

/-- Witness of C12 (amended): the four-channel element of `quad_app`. -/
theorem set_mute_round_trip_witness :
    (∃ ui', set_mute (some 0) true quad_app = some ui' ∧
      (∀ chn, chn < 3 → quad_elem.has_playback_channel chn = true →
        snd_mixer_selem_get_playback_switch quad_elem chn (ui'.hw 0) = some 0) ∧
      ∃ ui'', get_mute (some 0) ui' = some (true, ui'')) ∧
    (quad_elem.has_playback_channel 0 = true →
      ∃ ui', get_mute (some 0) quad_app =
        some (decide ((quad_app.hw 0).playback_switch 0 = 0), ui')) :=
  set_mute_round_trip quad_app (some 0) 0 quad_elem rfl rfl

/-! ## The refresh pass in closed form -/

/-- Nothing is set below bound 0. -/
theorem upd_below_zero {α : Type} (tgt : Nat → α) (f : Nat → α) : upd_below 0 tgt f = f := by
  funext r; simp [upd_below]

/-- Setting entry `k` to its target raises the bound from `k` to `k + 1`. -/
theorem upd_below_succ {α : Type} (k : Nat) (tgt : Nat → α) (f : Nat → α) :
    Function.update (upd_below k tgt f) k (tgt k) = upd_below (k + 1) tgt f := by
  funext r
  unfold upd_below Function.update
  by_cases h : r = k
  · subst h; simp
  · have : r < k + 1 ↔ r < k := by omega
    simp [h, this]

/-- A loop of no iteration makes no call. -/
theorem gather_zero (calls : Nat → List Call) : gather calls 0 = [] := rfl

/-- The calls of a loop end with those of its last iteration. -/
theorem gather_succ (calls : Nat → List Call) (n : Nat) :
    gather calls (n + 1) = gather calls n ++ calls n := rfl

/-- A loop whose iteration `r` takes `F r` to `F (r + 1)` takes `F 0` to `F n`. -/
theorem for_loop_closed {σ : Type} (body : Nat → σ → Option σ) (F : Nat → σ) (n : Nat)
    (s t : σ) (h0 : s = F 0) (hn : F n = t)
    (h : ∀ r, r < n → body r (F r) = some (F (r + 1))) : for_loop body n s = some t := by
  subst h0 hn
  induction n with
  | zero => rfl
  | succ k ih => rw [for_loop, ih fun r hr => h r (by omega), Option.some_bind, h k (by omega)]

/-- On an enumerated control `get_enum` passes the item read and logs the read. -/
theorem get_enum_bind {s : RobTkApp} {c : Option Nat} (hok : enum_ok s c)
    (k : Int → RobTkApp → Option RobTkApp) :
    ((get_enum c s).bind fun p => k p.1 p.2) =
      k (enum_val s c) { s with log := s.log ++ read_call Call.get_enum c } := by
  obtain ⟨id, e, hd, he, _⟩ := hok
  have hc := (deref_eq_some hd).1
  subst hc
  simp only [get_enum, hd, he, Bool.true_eq_false, if_false, Option.some_bind, enum_val,
    snd_mixer_selem_get_enum_item, read_call]

/-- On a registry control `get_dB` passes the dB value read and logs the read. -/
theorem get_dB_bind {s : RobTkApp} {c : Option Nat} (hok : gain_ok s c)
    (k : ℝ → RobTkApp → Option RobTkApp) :
    ((get_dB c s).bind fun p => k p.1 p.2) =
      k (dB_val s c) { s with log := s.log ++ read_call Call.get_dB c } := by
  obtain ⟨id, e, hd⟩ := hok
  have hc := (deref_eq_some hd).1
  subst hc
  simp only [get_dB, hd, Option.some_bind, dB_val, read_call]

/-- On a control with playback switch `get_mute` passes the flag read and logs the read. -/
theorem get_mute_bind {s : RobTkApp} {c : Option Nat} (hok : switch_ok s c)
    (k : Bool → RobTkApp → Option RobTkApp) :
    ((get_mute c s).bind fun p => k p.1 p.2) =
      k (mute_val s c) { s with log := s.log ++ read_call Call.get_mute c } := by
  obtain ⟨id, e, hd, he⟩ := hok
  have hc := (deref_eq_some hd).1
  subst hc
  simp only [get_mute, hd, he, Bool.true_eq_false, if_false, Option.some_bind, mute_val,
    read_call]

/-- Under the guard a select setter stores the value. -/
theorem set_value_sel_eq {s : RobTkApp} (h : s.disable_signals = true) (r : Nat) (v : Int) :
    set_value_src_sel r v s = some { s with src_sel := Function.update s.src_sel r v } ∧
    set_value_mtx_sel r v s = some { s with mtx_sel := Function.update s.mtx_sel r v } ∧
    set_value_out_sel r v s = some { s with out_sel := Function.update s.out_sel r v } := by
  refine ⟨?_, ?_, ?_⟩
  · unfold set_value_src_sel
    split_ifs with hv
    · rw [← hv, Function.update_eq_self]
    · exact (cb_guard (u := { s with src_sel := Function.update s.src_sel r v }) h r).2.1
  · unfold set_value_mtx_sel
    split_ifs with hv
    · rw [← hv, Function.update_eq_self]
    · exact (cb_guard (u := { s with mtx_sel := Function.update s.mtx_sel r v }) h r).2.2.1
  · unfold set_value_out_sel
    split_ifs with hv
    · rw [← hv, Function.update_eq_self]
    · exact (cb_guard (u := { s with out_sel := Function.update s.out_sel r v }) h r).2.2.2.1

/-- Under the guard the dial and button setters store the value. -/
theorem set_value_dial_eq {s : RobTkApp} (h : s.disable_signals = true) (n : Nat) (v : ℝ)
    (st : Int) (b : Bool) :
    (n < SMI * SMO → set_value_mtx_gain n v s =
      some { s with mtx_gain := Function.update s.mtx_gain n (refresh_dial (s.mtx_gain n) v) }) ∧
    set_value_out_gain n v s =
      some { s with out_gain := Function.update s.out_gain n { s.out_gain n with cur := v } } ∧
    set_state_out_gain n st s =
      some { s with
        out_gain := Function.update s.out_gain n { s.out_gain n with click_state := st } } ∧
    set_value_mst_gain v s = some { s with mst_gain := { s.mst_gain with cur := v } } ∧
    set_state_mst_gain st s = some { s with mst_gain := { s.mst_gain with click_state := st } } ∧
    set_active_btn_hiz n b s = some { s with btn_hiz := Function.update s.btn_hiz n b } := by
  refine ⟨fun hn => ?_, ?_, ?_, ?_, ?_, ?_⟩
  · have hn' : ¬ n ≥ SMI * SMO := by omega
    unfold set_value_mtx_gain refresh_dial
    by_cases hv : (s.mtx_gain n).cur = v
    · rw [if_pos hv, if_pos hv, Function.update_eq_self]
    · rw [if_neg hv, if_neg hv]
      simp only [cb_mtx_gain, if_neg hn']
      rw [if_pos h]
      simp only [Function.update_same, Function.update_idem]
  · unfold set_value_out_gain
    split_ifs with hv
    · rw [← hv, Function.update_eq_self]
    · exact (cb_guard (u := { s with
        out_gain := Function.update s.out_gain n { s.out_gain n with cur := v } }) h n).2.2.2.2.1
  · unfold set_state_out_gain
    split_ifs with hv
    · rw [← hv, Function.update_eq_self]
    · exact (cb_guard (u := { s with
        out_gain := Function.update s.out_gain n { s.out_gain n with click_state := st } })
        h n).2.2.2.2.1
  · unfold set_value_mst_gain
    split_ifs with hv
    · rw [← hv]
    · exact (cb_guard (u := { s with mst_gain := { s.mst_gain with cur := v } }) h n).2.2.2.2.2
  · unfold set_state_mst_gain
    split_ifs with hv
    · rw [← hv]
    · exact (cb_guard (u := { s with mst_gain := { s.mst_gain with click_state := st } })
        h n).2.2.2.2.2
  · unfold set_active_btn_hiz
    split_ifs with hv
    · rw [← hv, Function.update_eq_self]
    · exact (cb_guard (u := { s with btn_hiz := Function.update s.btn_hiz n b }) h n).1

/-- The reads of a state in the middle of a refresh pass are those of its start: the pass
changes neither registry nor hardware values. -/
theorem refresh_upto_read (ui : RobTkApp) (k1 k2 k3 k4 : Nat) (mst : Dial) (k6 k7 : Nat)
    (L : List Call) (c : Option Nat) :
    enum_val (refresh_upto ui k1 k2 k3 k4 mst k6 k7 L) c = enum_val ui c ∧
    dB_val (refresh_upto ui k1 k2 k3 k4 mst k6 k7 L) c = dB_val ui c ∧
    mute_val (refresh_upto ui k1 k2 k3 k4 mst k6 k7 L) c = mute_val ui c ∧
    deref (refresh_upto ui k1 k2 k3 k4 mst k6 k7 L) c = deref ui c :=
  ⟨rfl, rfl, rfl, rfl⟩

/-- One iteration of the capture selector loop of the refresh. -/
theorem refresh_src_step (ui : RobTkApp) (hok : registry_ok ui) (k k2 k3 k4 : Nat) (m : Dial)
    (k6 k7 : Nat) (L : List Call) (hk : k < SIN) :
    ((get_enum (src_sel k) (refresh_upto ui k k2 k3 k4 m k6 k7 L)).bind
      fun p => set_value_src_sel k p.1 p.2) =
    some (refresh_upto ui (k + 1) k2 k3 k4 m k6 k7
      (L ++ read_call Call.get_enum (src_sel k))) := by
  have h1 : enum_ok (refresh_upto ui k k2 k3 k4 m k6 k7 L) (src_sel k) := hok.src k hk
  rw [get_enum_bind h1, (set_value_sel_eq rfl k _).1, (refresh_upto_read ui _ _ _ _ _ _ _ _ _).1]
  simp only [refresh_upto, upd_below_succ k (fun r => enum_val ui (src_sel r)),
    List.append_assoc]

/-- The matrix-row selector read of one iteration of the matrix loop. -/
theorem refresh_msel_step (ui : RobTkApp) (hok : registry_ok ui) (k1 k k3 k4 : Nat) (m : Dial)
    (k6 k7 : Nat) (L : List Call) (hk : k < SMI) :
    ((get_enum (matrix_sel k) (refresh_upto ui k1 k k3 k4 m k6 k7 L)).bind
      fun p => set_value_mtx_sel k p.1 p.2) =
    some (refresh_upto ui k1 (k + 1) k3 k4 m k6 k7
      (L ++ read_call Call.get_enum (matrix_sel k))) := by
  have h1 : enum_ok (refresh_upto ui k1 k k3 k4 m k6 k7 L) (matrix_sel k) := hok.msel k hk
  rw [get_enum_bind h1, (set_value_sel_eq rfl k _).2.1,
    (refresh_upto_read ui _ _ _ _ _ _ _ _ _).1]
  simp only [refresh_upto, upd_below_succ k (fun r => enum_val ui (matrix_sel r)),
    List.append_assoc]

/-- One iteration of the output selector loop of the refresh. -/
theorem refresh_osel_step (ui : RobTkApp) (hok : registry_ok ui) (k1 k2 k3 k4 : Nat) (m : Dial)
    (k6 k : Nat) (L : List Call) (hk : k < SOUT) :
    ((get_enum (out_sel k) (refresh_upto ui k1 k2 k3 k4 m k6 k L)).bind
      fun p => set_value_out_sel k p.1 p.2) =
    some (refresh_upto ui k1 k2 k3 k4 m k6 (k + 1)
      (L ++ read_call Call.get_enum (out_sel k))) := by
  have h1 : enum_ok (refresh_upto ui k1 k2 k3 k4 m k6 k L) (out_sel k) := hok.osel k hk
  rw [get_enum_bind h1, (set_value_sel_eq rfl k _).2.2,
    (refresh_upto_read ui _ _ _ _ _ _ _ _ _).1]
  simp only [refresh_upto, upd_below_succ k (fun o => enum_val ui (out_sel o)),
    List.append_assoc]

/-- One iteration of the Hi-Z loop of the refresh. -/
theorem refresh_hiz_step (ui : RobTkApp) (hok : registry_ok ui) (k1 k2 k3 k4 : Nat) (m : Dial)
    (k k7 : Nat) (L : List Call) (hk : k < 2) :
    ((get_enum (hiz k) (refresh_upto ui k1 k2 k3 k4 m k k7 L)).bind
      fun p => set_active_btn_hiz k (decide (p.1 = 1)) p.2) =
    some (refresh_upto ui k1 k2 k3 k4 m (k + 1) k7
      (L ++ read_call Call.get_enum (hiz k))) := by
  have h1 : enum_ok (refresh_upto ui k1 k2 k3 k4 m k k7 L) (hiz k) := hok.hiz k hk
  refine (get_enum_bind h1 fun v s => set_active_btn_hiz k (decide (v = 1)) s).trans ?_
  rw [(set_value_dial_eq rfl k 0 0 _).2.2.2.2.2, (refresh_upto_read ui _ _ _ _ _ _ _ _ _).1]
  simp only [refresh_upto, upd_below_succ k (fun i => decide (enum_val ui (hiz i) = 1)),
    List.append_assoc]

/-- The linear index of a matrix cell is undone by `matrix_ctrl_n`. -/
theorem matrix_ctrl_n_cell (r c : Nat) (hc : c < SMO) :
    matrix_ctrl_n (r * SMO + c) = matrix_ctrl_cr c r := by
  simp only [SMO] at hc
  have e1 : (r * 6 + c) % 6 = c := by omega
  have e2 : (r * 6 + c) / 6 = r := by omega
  show matrix_ctrl_cr ((r * SMO + c) % SMO) ((r * SMO + c) / SMO) = _
  simp only [SMO, e1, e2]

/-- One iteration of the inner matrix gain loop of the refresh. -/
theorem refresh_cell_step (ui : RobTkApp) (hok : registry_ok ui) (k1 k2 r c k4 : Nat) (m : Dial)
    (k6 k7 : Nat) (L : List Call) (hr : r < SMI) (hc : c < SMO) :
    ((get_dB (matrix_ctrl_cr c r) (refresh_upto ui k1 k2 (r * SMO + c) k4 m k6 k7 L)).bind
      fun p => set_value_mtx_gain (r * SMO + c) (db_to_knob p.1) p.2) =
    some (refresh_upto ui k1 k2 (r * SMO + c + 1) k4 m k6 k7
      (L ++ read_call Call.get_dB (matrix_ctrl_cr c r))) := by
  have h1 : gain_ok (refresh_upto ui k1 k2 (r * SMO + c) k4 m k6 k7 L) (matrix_ctrl_cr c r) :=
    hok.mtx r hr c hc
  have hn : r * SMO + c < SMI * SMO := by
    simp only [SMI, SMO] at hr hc ⊢
    omega
  refine (get_dB_bind h1 fun v s => set_value_mtx_gain (r * SMO + c) (db_to_knob v) s).trans ?_
  rw [(set_value_dial_eq rfl _ _ 0 false).1 hn, (refresh_upto_read ui _ _ _ _ _ _ _ _ _).2.1]
  have e : upd_below (r * SMO + c) (fun n =>
      refresh_dial (ui.mtx_gain n) (db_to_knob (dB_val ui (matrix_ctrl_n n)))) ui.mtx_gain
      (r * SMO + c) = ui.mtx_gain (r * SMO + c) := by
    simp [upd_below]
  simp only [refresh_upto, e, ← matrix_ctrl_n_cell r c hc,
    upd_below_succ (r * SMO + c) (fun n =>
      refresh_dial (ui.mtx_gain n) (db_to_knob (dB_val ui (matrix_ctrl_n n)))),
    List.append_assoc]

/-- One iteration of the output gain loop of the refresh. -/
theorem refresh_ogain_step (ui : RobTkApp) (hok : registry_ok ui) (k1 k2 k3 k : Nat) (m : Dial)
    (k6 k7 : Nat) (L : List Call) (hk : k < SMST) :
    (((get_dB (out_gain k) (refresh_upto ui k1 k2 k3 k m k6 k7 L)).bind
        fun p => set_value_out_gain k (db_to_knob p.1) p.2).bind fun s =>
      (get_mute (out_gain k) s).bind fun p =>
        set_state_out_gain k (if p.1 then 1 else 0) p.2) =
    some (refresh_upto ui k1 k2 k3 (k + 1) m k6 k7
      (L ++ (read_call Call.get_dB (out_gain k) ++ read_call Call.get_mute (out_gain k)))) := by
  have h1 : gain_ok (refresh_upto ui k1 k2 k3 k m k6 k7 L) (out_gain k) :=
    (hok.ogain k hk).gain_ok
  rw [(get_dB_bind h1 fun v s => set_value_out_gain k (db_to_knob v) s).trans
    (set_value_dial_eq rfl k _ 0 false).2.1, Option.some_bind]
  have h2 : switch_ok { (refresh_upto ui k1 k2 k3 k m k6 k7 L) with
      log := (refresh_upto ui k1 k2 k3 k m k6 k7 L).log ++ read_call Call.get_dB (out_gain k)
      out_gain := Function.update (refresh_upto ui k1 k2 k3 k m k6 k7 L).out_gain k
        { (refresh_upto ui k1 k2 k3 k m k6 k7 L).out_gain k with
          cur := db_to_knob (dB_val (refresh_upto ui k1 k2 k3 k m k6 k7 L) (out_gain k)) } }
      (out_gain k) := hok.ogain k hk
  rw [(get_mute_bind h2 fun b s => set_state_out_gain k (if b then 1 else 0) s).trans
    (set_value_dial_eq rfl k 0 _ false).2.2.1]
  simp only [refresh_upto, Option.some.injEq, RobTkApp.mk.injEq, true_and, and_true,
    List.append_assoc, Function.update_same, Function.update_idem]
  exact upd_below_succ k (fun o =>
    ({ cur := db_to_knob (dB_val ui (out_gain o))
       click_state := if mute_val ui (out_gain o) then 1 else 0 } : Dial)) ui.out_gain

/-- The master gain read of the refresh. -/
theorem refresh_mst_value_step (ui : RobTkApp) (hok : registry_ok ui) (k1 k2 k3 k4 : Nat)
    (m : Dial) (k6 k7 : Nat) (L : List Call) :
    ((get_dB mst_gain (refresh_upto ui k1 k2 k3 k4 m k6 k7 L)).bind
      fun p => set_value_mst_gain (db_to_knob p.1) p.2) =
    some (refresh_upto ui k1 k2 k3 k4 { m with cur := db_to_knob (dB_val ui mst_gain) } k6 k7
      (L ++ read_call Call.get_dB mst_gain)) := by
  have h1 : gain_ok (refresh_upto ui k1 k2 k3 k4 m k6 k7 L) mst_gain := hok.mst.gain_ok
  rw [(get_dB_bind h1 fun v s => set_value_mst_gain (db_to_knob v) s).trans
    (set_value_dial_eq rfl 0 _ 0 false).2.2.2.1]
  simp only [refresh_upto, Option.some.injEq, RobTkApp.mk.injEq, true_and, and_true,
    List.append_assoc]
  rfl

/-- The master mute read of the refresh. -/
theorem refresh_mst_state_step (ui : RobTkApp) (hok : registry_ok ui) (k1 k2 k3 k4 : Nat)
    (m : Dial) (k6 k7 : Nat) (L : List Call) :
    ((get_mute mst_gain (refresh_upto ui k1 k2 k3 k4 m k6 k7 L)).bind
      fun p => set_state_mst_gain (if p.1 then 1 else 0) p.2) =
    some (refresh_upto ui k1 k2 k3 k4
      { m with click_state := if mute_val ui mst_gain then 1 else 0 } k6 k7
      (L ++ read_call Call.get_mute mst_gain)) := by
  have h1 : switch_ok (refresh_upto ui k1 k2 k3 k4 m k6 k7 L) mst_gain := hok.mst
  rw [(get_mute_bind h1 fun b s => set_state_mst_gain (if b then 1 else 0) s).trans
    (set_value_dial_eq rfl 0 0 _ false).2.2.2.2.1]
  simp only [refresh_upto, Option.some.injEq, RobTkApp.mk.injEq, true_and, and_true,
    List.append_assoc]
  rfl

/-- One iteration of the matrix loop of the refresh. -/
theorem refresh_row_step (ui : RobTkApp) (hok : registry_ok ui) (k1 r k4 : Nat) (m : Dial)
    (k6 k7 : Nat) (L : List Call) (hr : r < SMI) :
    (((get_enum (matrix_sel r) (refresh_upto ui k1 r (r * SMO) k4 m k6 k7 L)).bind
        fun p => set_value_mtx_sel r p.1 p.2).bind fun s =>
      for_loop (fun c s =>
        let n := r * SMO + c
        (get_dB (matrix_ctrl_cr c r) s).bind fun p =>
          set_value_mtx_gain n (db_to_knob p.1) p.2) SMO s) =
    some (refresh_upto ui k1 (r + 1) ((r + 1) * SMO) k4 m k6 k7 (L ++ refresh_row_calls r)) := by
  rw [refresh_msel_step ui hok k1 r (r * SMO) k4 m k6 k7 L hr, Option.some_bind]
  refine for_loop_closed _
    (fun c => refresh_upto ui k1 (r + 1) (r * SMO + c) k4 m k6 k7
      (L ++ read_call Call.get_enum (matrix_sel r) ++
        gather (fun c => read_call Call.get_dB (matrix_ctrl_cr c r)) c)) SMO _ _ ?_ ?_ ?_
  · simp only [gather_zero, List.append_nil, Nat.add_zero]
  · simp only [refresh_row_calls, List.append_assoc, Nat.succ_mul]
  · intro c hc
    simp only []
    rw [refresh_cell_step ui hok k1 (r + 1) r c k4 m k6 k7 _ hr hc]
    simp only [gather_succ, List.append_assoc, Nat.add_assoc]

/-- On a registry of the expected shape the refresh pass returns the state `refreshed`. -/
theorem port_event_refresh_eq (ui : RobTkApp) (hok : registry_ok ui) :
    port_event_refresh ui = some (refreshed ui) := by
  have l1 : for_loop (fun r ui =>
      (get_enum (src_sel r) ui).bind fun p => set_value_src_sel r p.1 p.2) SIN
      { ui with disable_signals := true } =
      some (refresh_upto ui SIN 0 0 0 ui.mst_gain 0 0
        (gather (fun r => read_call Call.get_enum (src_sel r)) SIN)) := by
    refine for_loop_closed _
      (fun k => refresh_upto ui k 0 0 0 ui.mst_gain 0 0
        ([] ++ gather (fun r => read_call Call.get_enum (src_sel r)) k)) SIN _ _ ?_ ?_ ?_
    · simp only [refresh_upto, upd_below_zero, gather_zero, List.append_nil]
    · simp only [List.nil_append]
    · intro k hk
      simp only []
      rw [refresh_src_step ui hok k 0 0 0 _ 0 0 _ hk]
      simp only [gather_succ, List.append_assoc]
  have l2 : ∀ L, for_loop (fun r ui =>
      ((get_enum (matrix_sel r) ui).bind fun p => set_value_mtx_sel r p.1 p.2).bind fun ui =>
      for_loop (fun c ui =>
        let n := r * SMO + c
        (get_dB (matrix_ctrl_cr c r) ui).bind fun p =>
          set_value_mtx_gain n (db_to_knob p.1) p.2) SMO ui) SMI
      (refresh_upto ui SIN 0 0 0 ui.mst_gain 0 0 L) =
      some (refresh_upto ui SIN SMI (SMI * SMO) 0 ui.mst_gain 0 0
        (L ++ gather refresh_row_calls SMI)) := by
    intro L
    refine for_loop_closed _
      (fun k => refresh_upto ui SIN k (k * SMO) 0 ui.mst_gain 0 0
        (L ++ gather refresh_row_calls k)) SMI _ _ ?_ rfl ?_
    · simp only [gather_zero, List.append_nil, Nat.zero_mul]
    · intro k hk
      simp only []
      rw [refresh_row_step ui hok SIN k 0 _ 0 0 _ hk]
      simp only [gather_succ, List.append_assoc]
  have l3 : ∀ L, for_loop (fun o ui =>
      let ctrl := out_gain o
      ((get_dB ctrl ui).bind fun p => set_value_out_gain o (db_to_knob p.1) p.2).bind fun ui =>
      (get_mute ctrl ui).bind fun p =>
        set_state_out_gain o (if p.1 then 1 else 0) p.2) SMST
      (refresh_upto ui SIN SMI (SMI * SMO) 0 ui.mst_gain 0 0 L) =
      some (refresh_upto ui SIN SMI (SMI * SMO) SMST ui.mst_gain 0 0
        (L ++ gather (fun o =>
          read_call Call.get_dB (out_gain o) ++ read_call Call.get_mute (out_gain o)) SMST)) := by
    intro L
    refine for_loop_closed _
      (fun k => refresh_upto ui SIN SMI (SMI * SMO) k ui.mst_gain 0 0
        (L ++ gather (fun o =>
          read_call Call.get_dB (out_gain o) ++ read_call Call.get_mute (out_gain o)) k))
      SMST _ _ ?_ rfl ?_
    · simp only [gather_zero, List.append_nil]
    · intro k hk
      simp only []
      rw [refresh_ogain_step ui hok SIN SMI _ k _ 0 0 _ hk]
      simp only [gather_succ, List.append_assoc]
  have l5 : ∀ m L, for_loop (fun i ui =>
      (get_enum (hiz i) ui).bind fun p =>
        set_active_btn_hiz i (decide (p.1 = 1)) p.2) 2
      (refresh_upto ui SIN SMI (SMI * SMO) SMST m 0 0 L) =
      some (refresh_upto ui SIN SMI (SMI * SMO) SMST m 2 0
        (L ++ gather (fun i => read_call Call.get_enum (hiz i)) 2)) := by
    intro m L
    refine for_loop_closed _
      (fun k => refresh_upto ui SIN SMI (SMI * SMO) SMST m k 0
        (L ++ gather (fun i => read_call Call.get_enum (hiz i)) k)) 2 _ _ ?_ rfl ?_
    · simp only [gather_zero, List.append_nil]
    · intro k hk
      simp only []
      rw [refresh_hiz_step ui hok SIN SMI _ SMST m k 0 _ hk]
      simp only [gather_succ, List.append_assoc]
  have l6 : ∀ m L, for_loop (fun o ui =>
      (get_enum (out_sel o) ui).bind fun p => set_value_out_sel o p.1 p.2) SOUT
      (refresh_upto ui SIN SMI (SMI * SMO) SMST m 2 0 L) =
      some (refresh_upto ui SIN SMI (SMI * SMO) SMST m 2 SOUT
        (L ++ gather (fun o => read_call Call.get_enum (out_sel o)) SOUT)) := by
    intro m L
    refine for_loop_closed _
      (fun k => refresh_upto ui SIN SMI (SMI * SMO) SMST m 2 k
        (L ++ gather (fun o => read_call Call.get_enum (out_sel o)) k)) SOUT _ _ ?_ rfl ?_
    · simp only [gather_zero, List.append_nil]
    · intro k hk
      simp only []
      rw [refresh_osel_step ui hok SIN SMI _ SMST m 2 k _ hk]
      simp only [gather_succ, List.append_assoc]
  unfold port_event_refresh
  simp only []
  rw [l1, Option.some_bind, l2, Option.some_bind, l3, Option.some_bind,
    refresh_mst_value_step ui hok, Option.some_bind, refresh_mst_state_step ui hok,
    Option.some_bind, l5, Option.some_bind, l6, Option.some_bind]
  simp only [refreshed, refresh_calls, refresh_upto, List.append_assoc]

/-- A refreshed matrix dial is at the position it was set to. -/
theorem refresh_dial_cur (d : Dial) (v : ℝ) : (refresh_dial d v).cur = v := by
  unfold refresh_dial
  by_cases h : d.cur = v
  · rw [if_pos h]; exact h
  · rw [if_neg h]

/-- Refreshing a matrix dial twice to one position is refreshing it once. -/
theorem refresh_dial_idem (d : Dial) (v : ℝ) :
    refresh_dial (refresh_dial d v) v = refresh_dial d v := by
  have h := refresh_dial_cur d v
  generalize refresh_dial d v = x at h
  unfold refresh_dial
  rw [if_pos h]

/-- Setting the entries below `k` a second time to the same targets changes nothing. -/
theorem upd_below_idem {α : Type} (k : Nat) (t1 t2 : Nat → α) (f : Nat → α)
    (h : ∀ r, r < k → t2 r = t1 r) :
    upd_below k t2 (upd_below k t1 f) = upd_below k t1 f := by
  funext r
  unfold upd_below
  by_cases hr : r < k
  · simp only [if_pos hr, h r hr]
  · simp only [if_neg hr]

/-- A second refresh pass leaves the snapshot of the first. -/
theorem snapshot_refreshed_twice (ui : RobTkApp) :
    snapshot (refreshed (refreshed ui)) = snapshot (refreshed ui) := by
  have e1 : ∀ c, enum_val (refreshed ui) c = enum_val ui c := fun _ => rfl
  have e2 : ∀ c, dB_val (refreshed ui) c = dB_val ui c := fun _ => rfl
  have e3 : ∀ c, mute_val (refreshed ui) c = mute_val ui c := fun _ => rfl
  simp only [snapshot, refreshed, refresh_upto, Model.mk.injEq]
  refine ⟨?_, ?_, ?_, ?_, ?_, ?_, ?_⟩
  · exact upd_below_idem _ _ _ _ fun r _ => rfl
  · refine upd_below_idem _ _ _ _ fun n hn => ?_
    simp only [upd_below, if_pos hn]
    exact refresh_dial_idem _ _
  · exact upd_below_idem _ _ _ _ fun r _ => rfl
  · exact upd_below_idem _ _ _ _ fun r _ => rfl
  · exact upd_below_idem _ _ _ _ fun r _ => rfl
  · rfl
  · exact upd_below_idem _ _ _ _ fun r _ => rfl

/-- The mirrored values after a refresh pass only depend on registry and hardware. -/
theorem mirrored_refreshed (ui u2 : RobTkApp) (hc : u2.ctrl = ui.ctrl) (hh : u2.hw = ui.hw) :
    mirrored (snapshot (refreshed u2)) = mirrored (snapshot (refreshed ui)) := by
  have e1 : ∀ c, enum_val u2 c = enum_val ui c := fun c => by
    simp only [enum_val, deref, hc, hh]
  have e2 : ∀ c, dB_val u2 c = dB_val ui c := fun c => by
    simp only [dB_val, deref, hc, hh]
  have e3 : ∀ c, mute_val u2 c = mute_val ui c := fun c => by
    simp only [mute_val, deref, hc, hh]
  simp only [mirrored, snapshot, refreshed, refresh_upto, Model.mk.injEq, e1, e2, e3]
  refine ⟨?_, ?_, ?_, ?_, ?_, trivial, ?_⟩ <;> funext r <;> unfold upd_below <;>
    split_ifs <;> first | rfl | simp only [refresh_dial_cur]

/-! ## Order of the reads of a refresh pass -/

set_option maxRecDepth 100000 in
/-- The reads of the refresh part of `port_event` are those of `row_order`. -/
theorem refresh_calls_read : refresh_calls.map Call.read = row_order.map some := by
  decide

set_option maxRecDepth 100000 in
/-- Counterexample of C16: on the sample registry the reads of the refresh pass are not in
the documented order; the gain of matrix cell (row 0, col 0), control 33, is read before
the matrix-row selector of row 1, control 39. -/
theorem refresh_reads_interleaved :
    matrix_ctrl_cr 0 0 = some 33 ∧ matrix_sel 1 = some 39 ∧
      ∃ ui' added, port_event_refresh sample_app = some ui' ∧
        ui'.log = sample_app.log ++ added ∧
        added.map Call.read ≠ documented_order.map some ∧
        (added.map Call.read).indexOf (some (Read.dB 33)) <
          (added.map Call.read).indexOf (some (Read.enum 39)) := by
  refine ⟨rfl, rfl, refreshed sample_app, refresh_calls,
    port_event_refresh_eq sample_app sample_app_ok, rfl, ?_, ?_⟩
  · rw [refresh_calls_read]; decide
  · rw [refresh_calls_read]; decide

set_option maxRecDepth 100000 in
/-- C16 (amended): on a registry of the expected shape a refresh pass returns and makes
exactly the 160 reads of `row_order`, none of them twice: first the 18 capture selectors,
then for each matrix row its selector followed by its 6 gains, then the 3 output gains
each followed by its mute, then the master gain and its mute, then the 2 Hi-Z toggles,
then the 6 output selectors. -/
theorem refresh_read_order (ui : RobTkApp) (hok : registry_ok ui) :
    ∃ ui' added, port_event_refresh ui = some ui' ∧ ui'.log = ui.log ++ added ∧
      added.map Call.read = row_order.map some ∧ row_order.Nodup ∧ row_order.length = 160 :=
  ⟨refreshed ui, refresh_calls, port_event_refresh_eq ui hok, rfl, refresh_calls_read,
    by decide, by decide⟩

/-- Witness of C16 (amended): the sample registry. -/
theorem refresh_read_order_witness :
    ∃ ui' added, port_event_refresh sample_app = some ui' ∧
      ui'.log = sample_app.log ++ added ∧
      added.map Call.read = row_order.map some ∧ row_order.Nodup ∧ row_order.length = 160 :=
  refresh_read_order sample_app sample_app_ok

/-! ## Idempotence of the refresh pass -/

/-- C17: on a registry of the expected shape, for every hardware state and every prior
snapshot, a refresh pass followed by a second one with the hardware unchanged returns
the snapshot of the first; and the values the snapshot mirrors from the controls are
the same from any other prior snapshot over the same registry and hardware. -/
theorem refresh_idempotent (ui u2 : RobTkApp) (hok : registry_ok ui) (hc : u2.ctrl = ui.ctrl)
    (hh : u2.hw = ui.hw) :
    ∃ s1 s2 t1, port_event_refresh ui = some s1 ∧ s1.hw = ui.hw ∧
      port_event_refresh s1 = some s2 ∧ s2.hw = ui.hw ∧ snapshot s2 = snapshot s1 ∧
      port_event_refresh u2 = some t1 ∧
      mirrored (snapshot t1) = mirrored (snapshot s1) :=
  ⟨refreshed ui, refreshed (refreshed ui), refreshed u2, port_event_refresh_eq ui hok, rfl,
    port_event_refresh_eq (refreshed ui)
      (registry_ok_congr (show (refreshed ui).ctrl = ui.ctrl from rfl) hok), rfl,
    snapshot_refreshed_twice ui, port_event_refresh_eq u2 (registry_ok_congr hc hok),
    mirrored_refreshed ui u2 hc hh⟩

/-- Witness of C17: the sample registry, from the zeroed snapshot and from one whose
capture selectors all hold item 1. -/
theorem refresh_idempotent_witness :
    ∃ s1 s2 t1, port_event_refresh sample_app = some s1 ∧ s1.hw = sample_app.hw ∧
      port_event_refresh s1 = some s2 ∧ s2.hw = sample_app.hw ∧ snapshot s2 = snapshot s1 ∧
      port_event_refresh { sample_app with src_sel := fun _ => 1 } = some t1 ∧
      mirrored (snapshot t1) = mirrored (snapshot s1) :=
  refresh_idempotent sample_app { sample_app with src_sel := fun _ => 1 } sample_app_ok rfl rfl

/-! ## What a force-resend leaves in a control -/

/-- A call on another control leaves the value of control `id` alone. -/
theorem hw_step_other (ctrl : List Elem) (hw : Nat → ElemVal) (c : Call) (id : Nat)
    (h : c.target ≠ id) : hw_step ctrl hw c id = hw id := by
  cases c with
  | set_mute i m =>
    have hi : id ≠ i := fun e => h e.symm
    rcases hx : ctrl[i]? with _ | x <;> simp only [hw_step, hx]
    exact Function.update_noteq hi _ _
  | set_dB i d =>
    have hi : id ≠ i := fun e => h e.symm
    rcases hx : ctrl[i]? with _ | x <;> simp only [hw_step, hx]
    exact Function.update_noteq hi _ _
  | set_enum i v =>
    have hi : id ≠ i := fun e => h e.symm
    rcases hx : ctrl[i]? with _ | x <;> simp only [hw_step, hx]
    exact Function.update_noteq hi _ _
  | get_mute i => rfl
  | get_dB i => rfl
  | get_enum i => rfl

/-- What a call leaves in control `id` depends on the value of that control only. -/
theorem hw_step_congr (ctrl : List Elem) (hw1 hw2 : Nat → ElemVal) (c : Call) (id : Nat)
    (h : hw1 id = hw2 id) : hw_step ctrl hw1 c id = hw_step ctrl hw2 c id := by
  by_cases ht : c.target = id
  · cases c with
    | set_mute i m =>
      have hi : i = id := ht
      subst hi
      rcases hx : ctrl[i]? with _ | x <;> simp only [hw_step, hx, Function.update_same, h]
    | set_dB i d =>
      have hi : i = id := ht
      subst hi
      rcases hx : ctrl[i]? with _ | x <;> simp only [hw_step, hx, Function.update_same, h]
    | set_enum i v =>
      have hi : i = id := ht
      subst hi
      rcases hx : ctrl[i]? with _ | x <;> simp only [hw_step, hx, Function.update_same, h]
    | get_mute i => exact h
    | get_dB i => exact h
    | get_enum i => exact h
  · rw [hw_step_other ctrl hw1 c id ht, hw_step_other ctrl hw2 c id ht, h]

/-- What a sequence of calls leaves in control `id` depends on the value of that control
only. -/
theorem hw_foldl_congr (ctrl : List Elem) (id : Nat) (cs : List Call) (hw1 hw2 : Nat → ElemVal)
    (h : hw1 id = hw2 id) :
    (cs.foldl (hw_step ctrl) hw1) id = (cs.foldl (hw_step ctrl) hw2) id := by
  induction cs generalizing hw1 hw2 with
  | nil => exact h
  | cons c cs ih =>
    rw [List.foldl_cons, List.foldl_cons]
    exact ih _ _ (hw_step_congr ctrl hw1 hw2 c id h)

/-- The calls on `id` of a list that starts with a call on `id`. -/
theorem calls_on_cons_eq (id : Nat) (c : Call) (cs : List Call) (h : c.target = id) :
    calls_on id (c :: cs) = c :: calls_on id cs := by
  unfold calls_on
  rw [List.filterMap_cons_some (by rw [if_pos h])]

/-- The calls on `id` of a list that starts with a call on another control. -/
theorem calls_on_cons_ne (id : Nat) (c : Call) (cs : List Call) (h : c.target ≠ id) :
    calls_on id (c :: cs) = calls_on id cs := by
  unfold calls_on
  rw [List.filterMap_cons_none (by rw [if_neg h])]

/-- What a sequence of calls leaves in control `id` is what the calls on `id` leave. -/
theorem hw_foldl_calls_on (ctrl : List Elem) (id : Nat) (cs : List Call) (hw : Nat → ElemVal) :
    (cs.foldl (hw_step ctrl) hw) id = ((calls_on id cs).foldl (hw_step ctrl) hw) id := by
  induction cs generalizing hw with
  | nil => rfl
  | cons c cs ih =>
    by_cases ht : c.target = id
    · rw [calls_on_cons_eq id c cs ht, List.foldl_cons, List.foldl_cons]
      exact ih _
    · rw [calls_on_cons_ne id c cs ht, List.foldl_cons, ← ih hw]
      exact hw_foldl_congr ctrl id cs _ _ (hw_step_other ctrl hw c id ht)

/-- The calls on `id` of calls made one after the other. -/
theorem calls_on_append (id : Nat) (a b : List Call) :
    calls_on id (a ++ b) = calls_on id a ++ calls_on id b :=
  List.filterMap_append _ _ _

/-- No call on `id` among calls on other controls. -/
theorem calls_on_of_ne (id : Nat) (cs : List Call) (h : ∀ c ∈ cs, c.target ≠ id) :
    calls_on id cs = [] := by
  induction cs with
  | nil => rfl
  | cons c cs ih =>
    rw [calls_on_cons_ne id c cs (h c (List.mem_cons_self _ _))]
    exact ih fun d hd => h d (List.mem_cons_of_mem _ hd)

/-- Calls that are all on `id` are the calls on `id`. -/
theorem calls_on_of_eq (id : Nat) (cs : List Call) (h : ∀ c ∈ cs, c.target = id) :
    calls_on id cs = cs := by
  induction cs with
  | nil => rfl
  | cons c cs ih =>
    rw [calls_on_cons_eq id c cs (h c (List.mem_cons_self _ _)),
      ih fun d hd => h d (List.mem_cons_of_mem _ hd)]

/-- The calls on `id` of a loop whose iteration `r` works on control `idx r`. -/
theorem calls_on_gather_idx (id : Nat) (calls : Nat → List Call) (idx : Nat → Nat) (n : Nat)
    (ht : ∀ r, r < n → ∀ c ∈ calls r, c.target = idx r) :
    ((∀ r, r < n → idx r ≠ id) → calls_on id (gather calls n) = []) ∧
      (∀ r0, r0 < n → idx r0 = id → (∀ r, r < n → r ≠ r0 → idx r ≠ id) →
        calls_on id (gather calls n) = calls r0) := by
  constructor
  · intro h
    exact gather_filterMap_nil _ calls n fun r hr =>
      calls_on_of_ne id _ fun c hc => by rw [ht r hr c hc]; exact h r hr
  · intro r0 h0 he h
    have h1 : calls_on id (gather calls n) = calls_on id (calls r0) :=
      gather_filterMap_single _ calls n r0 h0 fun r hr hne =>
        calls_on_of_ne id _ fun c hc => by rw [ht r hr c hc]; exact h r hr hne
    rw [h1]
    exact calls_on_of_eq id _ fun c hc => by rw [ht r0 h0 c hc]; exact he

/-- The calls of one resend step are on the control of the step. -/
theorem resend_calls_idx (ui : RobTkApp) (sc : Option Nat) (i : Nat) (hs : sc = some i)
    (val : Int) (v : ℝ) (m : Bool) :
    (∀ c ∈ resend_enum_calls ui sc val, c.target = i) ∧
      (∀ c ∈ resend_dB_calls sc v, c.target = i) ∧
      (∀ c ∈ resend_mute_calls sc m, c.target = i) := by
  refine ⟨fun c hc => ?_, fun c hc => ?_, fun c hc => ?_⟩
  · have h := (resend_calls_target ui sc val v m c).1 hc
    rw [hs] at h
    exact (Option.some.inj h).symm
  · have h := (resend_calls_target ui sc val v m c).2.1 hc
    rw [hs] at h
    exact (Option.some.inj h).symm
  · have h := (resend_calls_target ui sc val v m c).2.2 hc
    rw [hs] at h
    exact (Option.some.inj h).symm

/-- The calls on `id` in the capture selector loop of `cb_btn_reset`. -/
theorem calls_on_src (ui : RobTkApp) (id : Nat) :
    ((∀ r, r < 18 → 13 + r ≠ id) →
      calls_on id (gather (fun r => resend_enum_calls ui (src_sel r) (ui.src_sel r)) SIN) = []) ∧
    (∀ r0, r0 < 18 → 13 + r0 = id →
      calls_on id (gather (fun r => resend_enum_calls ui (src_sel r) (ui.src_sel r)) SIN) =
        resend_enum_calls ui (src_sel r0) (ui.src_sel r0)) := by
  have h := calls_on_gather_idx id
    (fun r => resend_enum_calls ui (src_sel r) (ui.src_sel r)) (fun r => 13 + r) SIN
    fun r hr => (resend_calls_idx ui _ _ (src_sel_eq r hr) _ 0 false).1
  exact ⟨fun hne => h.1 hne, fun r0 h0 he => h.2 r0 h0 he fun r _ hne => by
    show 13 + r ≠ id
    omega⟩

/-- The calls on `id` in the matrix-row selector loop of `cb_btn_reset`. -/
theorem calls_on_msel (ui : RobTkApp) (id : Nat) :
    ((∀ r, r < 18 → 32 + 7 * r ≠ id) →
      calls_on id (gather (fun r => resend_enum_calls ui (matrix_sel r) (ui.mtx_sel r)) SMI) =
        []) ∧
    (∀ r0, r0 < 18 → 32 + 7 * r0 = id →
      calls_on id (gather (fun r => resend_enum_calls ui (matrix_sel r) (ui.mtx_sel r)) SMI) =
        resend_enum_calls ui (matrix_sel r0) (ui.mtx_sel r0)) := by
  have h := calls_on_gather_idx id
    (fun r => resend_enum_calls ui (matrix_sel r) (ui.mtx_sel r)) (fun r => 32 + 7 * r) SMI
    fun r hr => (resend_calls_idx ui _ _ (matrix_sel_eq r hr) _ 0 false).1
  exact ⟨fun hne => h.1 hne, fun r0 h0 he => h.2 r0 h0 he fun r _ hne => by
    show 32 + 7 * r ≠ id
    omega⟩

/-- The calls on `id` in the output selector loop of `cb_btn_reset`. -/
theorem calls_on_osel (ui : RobTkApp) (id : Nat) :
    ((∀ o, o < 6 → o + 2 + o / 2 ≠ id) →
      calls_on id (gather (fun o => resend_enum_calls ui (out_sel o) (ui.out_sel o)) SOUT) =
        []) ∧
    (∀ o0, o0 < 6 → o0 + 2 + o0 / 2 = id →
      calls_on id (gather (fun o => resend_enum_calls ui (out_sel o) (ui.out_sel o)) SOUT) =
        resend_enum_calls ui (out_sel o0) (ui.out_sel o0)) := by
  have h := calls_on_gather_idx id
    (fun o => resend_enum_calls ui (out_sel o) (ui.out_sel o)) (fun o => o + 2 + o / 2) SOUT
    fun o ho => (resend_calls_idx ui _ _ ((out_index o).1 ho) _ 0 false).1
  exact ⟨fun hne => h.1 hne, fun o0 h0 he => h.2 o0 h0 he fun o ho hne => by
    have ho' : o < 6 := ho
    show o + 2 + o / 2 ≠ id
    omega⟩

/-- The calls on `id` in the matrix gain loops of `cb_btn_reset`. -/
theorem calls_on_cells (ui : RobTkApp) (id : Nat) :
    ((∀ r c, r < 18 → c < 6 → 33 + 7 * r + c ≠ id) →
      calls_on id (gather (fun r => gather (fun c =>
        resend_dB_calls (matrix_ctrl_cr c r) (knob_to_db (ui.mtx_gain (r * SMO + c)).cur)) SMO)
        SMI) = []) ∧
    (∀ r0 c0, r0 < 18 → c0 < 6 → 33 + 7 * r0 + c0 = id →
      calls_on id (gather (fun r => gather (fun c =>
        resend_dB_calls (matrix_ctrl_cr c r) (knob_to_db (ui.mtx_gain (r * SMO + c)).cur)) SMO)
        SMI) =
        resend_dB_calls (matrix_ctrl_cr c0 r0)
          (knob_to_db (ui.mtx_gain (r0 * SMO + c0)).cur)) := by
  have hrow : ∀ r, r < 18 → _ := fun r (hr : r < 18) => calls_on_gather_idx id
    (fun c => resend_dB_calls (matrix_ctrl_cr c r) (knob_to_db (ui.mtx_gain (r * SMO + c)).cur))
    (fun c => 33 + 7 * r + c) SMO
    fun c (hc : c < 6) => (resend_calls_idx ui _ _
      (by rw [matrix_ctrl_cr_eq, if_neg (by omega)]) 0 _ false).2.1
  constructor
  · intro hne
    exact gather_filterMap_nil _ _ SMI fun r hr => (hrow r hr).1 fun c hc => hne r c hr hc
  · intro r0 c0 h0 hc0 he
    have h1 := gather_filterMap_single (fun c => if c.target = id then some c else none)
      (fun r => gather (fun c =>
        resend_dB_calls (matrix_ctrl_cr c r) (knob_to_db (ui.mtx_gain (r * SMO + c)).cur)) SMO)
      SMI r0 h0 fun r hr hne => (hrow r hr).1 fun c (hc : c < 6) => by
        show 33 + 7 * r + c ≠ id
        omega
    exact h1.trans ((hrow r0 h0).2 c0 hc0 he fun c _ hne => by
      show 33 + 7 * r0 + c ≠ id
      omega)

/-- The calls on `id` in the output gain loop of `cb_btn_reset`. -/
theorem calls_on_ogain (ui : RobTkApp) (id : Nat) :
    ((∀ n, n < 3 → 3 * n + 1 ≠ id) →
      calls_on id (gather (fun n =>
        resend_mute_calls (out_gain n) (decide ((ui.out_gain n).click_state = 1)) ++
        resend_dB_calls (out_gain n) (knob_to_db (ui.out_gain n).cur)) SMST) = []) ∧
    (∀ n0, n0 < 3 → 3 * n0 + 1 = id →
      calls_on id (gather (fun n =>
        resend_mute_calls (out_gain n) (decide ((ui.out_gain n).click_state = 1)) ++
        resend_dB_calls (out_gain n) (knob_to_db (ui.out_gain n).cur)) SMST) =
        resend_mute_calls (out_gain n0) (decide ((ui.out_gain n0).click_state = 1)) ++
        resend_dB_calls (out_gain n0) (knob_to_db (ui.out_gain n0).cur)) := by
  have h := calls_on_gather_idx id
    (fun n =>
      resend_mute_calls (out_gain n) (decide ((ui.out_gain n).click_state = 1)) ++
      resend_dB_calls (out_gain n) (knob_to_db (ui.out_gain n).cur)) (fun n => 3 * n + 1) SMST
    fun n hn c hc => by
      have ht := resend_calls_idx ui _ _ ((out_index n).2 hn) 0
        (knob_to_db (ui.out_gain n).cur) (decide ((ui.out_gain n).click_state = 1))
      rcases List.mem_append.mp hc with h | h
      · exact ht.2.2 c h
      · exact ht.2.1 c h
  exact ⟨fun hne => h.1 hne, fun n0 h0 he => h.2 n0 h0 he fun n _ hne => by
    show 3 * n + 1 ≠ id
    omega⟩

/-- The calls `cb_btn_reset` makes on the control of a selector coordinate. -/
theorem calls_on_cb_btn_reset_sel (ui : RobTkApp) (sel : Selector) (hv : sel.valid) (id : Nat)
    (hc : sel.ctrl = some id) :
    calls_on id (cb_btn_reset_calls ui) = resend_enum_calls ui sel.ctrl (sel.value ui) := by
  unfold cb_btn_reset_calls
  simp only [calls_on_append]
  cases sel with
  | src r0 =>
    have hv' : r0 < 18 := hv
    have hid : 13 + r0 = id := by
      have h := hc
      simp only [Selector.ctrl, src_sel_eq r0 hv'] at h
      exact Option.some.inj h
    rw [(calls_on_src ui id).2 r0 hv' hid, (calls_on_msel ui id).1 (by intros; omega),
      (calls_on_osel ui id).1 (by intros; omega), (calls_on_cells ui id).1 (by intros; omega),
      (calls_on_ogain ui id).1 (by intros; omega)]
    simp only [List.append_nil]
    rfl
  | mtx r0 =>
    have hv' : r0 < 18 := hv
    have hid : 32 + 7 * r0 = id := by
      have h := hc
      simp only [Selector.ctrl, matrix_sel_eq r0 hv'] at h
      exact Option.some.inj h
    rw [(calls_on_src ui id).1 (by intros; omega), (calls_on_msel ui id).2 r0 hv' hid,
      (calls_on_osel ui id).1 (by intros; omega), (calls_on_cells ui id).1 (by intros; omega),
      (calls_on_ogain ui id).1 (by intros; omega)]
    simp only [List.append_nil, List.nil_append]
    rfl
  | out o0 =>
    have hv' : o0 < 6 := hv
    have hid : o0 + 2 + o0 / 2 = id := by
      have h := hc
      simp only [Selector.ctrl, (out_index o0).1 hv'] at h
      exact Option.some.inj h
    rw [(calls_on_src ui id).1 (by intros; omega), (calls_on_msel ui id).1 (by intros; omega),
      (calls_on_osel ui id).2 o0 hv' hid, (calls_on_cells ui id).1 (by intros; omega),
      (calls_on_ogain ui id).1 (by intros; omega)]
    simp only [List.append_nil, List.nil_append]
    rfl

/-- The calls `cb_btn_reset` makes on the control of a matrix cell. -/
theorem calls_on_cb_btn_reset_cell (ui : RobTkApp) (r0 c0 id : Nat) (hr : r0 < 18) (hc : c0 < 6)
    (hid : matrix_ctrl_cr c0 r0 = some id) :
    calls_on id (cb_btn_reset_calls ui) =
      resend_dB_calls (some id) (knob_to_db (ui.mtx_gain (r0 * SMO + c0)).cur) := by
  have hid' : 33 + 7 * r0 + c0 = id := by
    have h := hid
    rw [matrix_ctrl_cr_eq, if_neg (by omega)] at h
    exact Option.some.inj h
  unfold cb_btn_reset_calls
  simp only [calls_on_append]
  rw [(calls_on_src ui id).1 (by intros; omega), (calls_on_msel ui id).1 (by intros; omega),
    (calls_on_osel ui id).1 (by intros; omega), (calls_on_cells ui id).2 r0 c0 hr hc hid',
    (calls_on_ogain ui id).1 (by intros; omega), hid]
  simp only [List.append_nil, List.nil_append]

/-- The calls `cb_btn_reset` makes on the control of an output gain. -/
theorem calls_on_cb_btn_reset_out (ui : RobTkApp) (n0 id : Nat) (hn : n0 < 3)
    (hid : out_gain n0 = some id) :
    calls_on id (cb_btn_reset_calls ui) =
      resend_mute_calls (some id) (decide ((ui.out_gain n0).click_state = 1)) ++
      resend_dB_calls (some id) (knob_to_db (ui.out_gain n0).cur) := by
  have hid' : 3 * n0 + 1 = id := by
    have h := hid
    rw [(out_index n0).2 hn] at h
    exact Option.some.inj h
  unfold cb_btn_reset_calls
  simp only [calls_on_append]
  rw [(calls_on_src ui id).1 (by intros; omega), (calls_on_msel ui id).1 (by intros; omega),
    (calls_on_osel ui id).1 (by intros; omega), (calls_on_cells ui id).1 (by intros; omega),
    (calls_on_ogain ui id).2 n0 hn hid', hid]
  simp only [List.nil_append]

/-- The pass `cb_btn_reset` makes no call on the controls 0, 11 and 12. -/
theorem calls_on_cb_btn_reset_none (ui : RobTkApp) (id : Nat) (h : id = 0 ∨ id = 11 ∨ id = 12) :
    calls_on id (cb_btn_reset_calls ui) = [] :=
  calls_on_of_ne id _ fun c hc => by
    rcases cb_btn_reset_calls_target ui c hc with
      ⟨r, hr, e⟩ | ⟨r, hr, e⟩ | ⟨o, ho, e⟩ | ⟨r, k, hr, hk, e⟩ | ⟨n, hn, e⟩ <;> omega

/-- What one round of the channel loop of `set_dB` leaves in the gains. -/
theorem set_dB_round_dB (e : Elem) (v : Int) (chn : Nat) (x : ElemVal) :
    (if e.has_capture_channel chn = true then
      snd_mixer_selem_set_playback_dB e chn v 1
        (if e.has_playback_channel chn = true then snd_mixer_selem_set_playback_dB e chn v 0 x
          else x)
      else (if e.has_playback_channel chn = true then
        snd_mixer_selem_set_playback_dB e chn v 0 x else x)).playback_dB =
      if e.has_playback_channel chn = true then
        Function.update x.playback_dB chn (max e.dB_min (min v e.dB_max))
      else x.playback_dB := by
  unfold snd_mixer_selem_set_playback_dB
  by_cases hp : e.has_playback_channel chn = true <;>
    by_cases hc : e.has_capture_channel chn = true <;>
    simp only [hp, hc, if_true, if_false, Function.update_idem, Bool.false_eq_true]

/-- What `set_dB` leaves in the gain of channels 0, 1 and 2, and of the others. -/
theorem set_dB_channels_dB (e : Elem) (v : Int) (x : ElemVal) (chn : Nat) :
    (chn < 3 → e.has_playback_channel chn = true →
        (set_dB_channels e v x).playback_dB chn = max e.dB_min (min v e.dB_max)) ∧
      (3 ≤ chn → (set_dB_channels e v x).playback_dB chn = x.playback_dB chn) := by
  simp only [set_dB_channels, List.range, List.range.loop, List.foldl, set_dB_round_dB]
  constructor
  · intro h3 hc
    interval_cases chn <;> simp only [hc, if_true] <;> split_ifs <;>
      simp [Function.update]
  · intro h3
    have h0 : chn ≠ 0 := by omega
    have h1 : chn ≠ 1 := by omega
    have h2 : chn ≠ 2 := by omega
    split_ifs <;> simp [Function.update, h0, h1, h2]

/-- The mute channel loop does not touch the gains. -/
theorem set_mute_channels_dB (e : Elem) (v : Int) (x : ElemVal) :
    (set_mute_channels e v x).playback_dB = x.playback_dB := by
  have hm : ∀ chn (y : ElemVal),
      (if e.has_playback_channel chn then snd_mixer_selem_set_playback_switch e chn v y
        else y).playback_dB = y.playback_dB := by
    intro chn y
    unfold snd_mixer_selem_set_playback_switch
    split_ifs <;> rfl
  simp only [set_mute_channels, List.range, List.range.loop, List.foldl, hm]

/-- What `cb_btn_reset` leaves in a control is what its calls on that control leave. -/
theorem emit_hw_calls_on (cs : List Call) (ui : RobTkApp) (id : Nat) :
    (emit cs ui).hw id = ((calls_on id cs).foldl (hw_step ui.ctrl) ui.hw) id :=
  hw_foldl_calls_on ui.ctrl id cs ui.hw

/-- On the control of a selector coordinate `cb_btn_reset` makes two calls, both
`set_enum`, and the control is left with what the two writes make of its value. -/
theorem cb_btn_reset_enum_effect (ui : RobTkApp) (sel : Selector) (hv : sel.valid) (id : Nat)
    (e : Elem) (hd : deref ui sel.ctrl = some (id, e)) :
    calls_on id (cb_btn_reset_calls ui) =
        [Call.set_enum id (Int.tmod (sel.value ui + 1) e.enum_items),
          Call.set_enum id (sel.value ui)] ∧
      (emit (cb_btn_reset_calls ui) ui).hw id =
        snd_mixer_selem_set_enum_item e (sel.value ui)
          (snd_mixer_selem_set_enum_item e (Int.tmod (sel.value ui + 1) e.enum_items)
            (ui.hw id)) := by
  have hc := (deref_eq_some hd).1
  have hi := (deref_eq_some hd).2
  have hcalls : calls_on id (cb_btn_reset_calls ui) =
      [Call.set_enum id (Int.tmod (sel.value ui + 1) e.enum_items),
        Call.set_enum id (sel.value ui)] := by
    rw [calls_on_cb_btn_reset_sel ui sel hv id hc]
    simp only [resend_enum_calls, hd]
  refine ⟨hcalls, ?_⟩
  rw [emit_hw_calls_on, hcalls]
  simp only [List.foldl_cons, List.foldl_nil, hw_step, hi, Function.update_same]

/-- On the control of a gain coordinate `cb_btn_reset` leaves what its two `set_dB` writes
make of the gains the control had. -/
theorem cb_btn_reset_gain_effect (ui : RobTkApp) (g : Gain) (hv : g.valid) (id : Nat)
    (e : Elem) (hd : deref ui g.ctrl = some (id, e)) :
    ∃ x : ElemVal, x.playback_dB = (ui.hw id).playback_dB ∧
      (emit (cb_btn_reset_calls ui) ui).hw id =
        set_dB_channels e (to_long (100 * knob_to_db (g.dial ui)))
          (set_dB_channels e
            (to_long (100 * (if knob_to_db (g.dial ui) = -128 then 127 else -128))) x) := by
  have hc := (deref_eq_some hd).1
  have hi := (deref_eq_some hd).2
  cases g with
  | cell r0 c0 =>
    obtain ⟨hr, hc0⟩ := hv
    refine ⟨ui.hw id, rfl, ?_⟩
    rw [emit_hw_calls_on, calls_on_cb_btn_reset_cell ui r0 c0 id hr hc0 hc]
    simp only [resend_dB_calls, List.foldl_cons, List.foldl_nil, hw_step, hi,
      Function.update_same, Gain.dial]
  | out n0 =>
    refine ⟨set_mute_channels e (if decide ((ui.out_gain n0).click_state = 1) = true then 0 else 1)
      (set_mute_channels e
        (if (!decide ((ui.out_gain n0).click_state = 1)) = true then 0 else 1) (ui.hw id)),
      by rw [set_mute_channels_dB, set_mute_channels_dB], ?_⟩
    rw [emit_hw_calls_on, calls_on_cb_btn_reset_out ui n0 id hv hc]
    simp only [resend_dB_calls, resend_mute_calls, List.cons_append, List.nil_append,
      List.foldl_cons, List.foldl_nil, hw_step, hi, Function.update_same, Gain.dial]

/-- The dB writes to a control are among the calls on that control. -/
theorem dB_writes_calls_on (id : Nat) (cs : List Call) (h : calls_on id cs = []) :
    dB_writes id cs = [] := by
  induction cs with
  | nil => rfl
  | cons c cs ih =>
    by_cases ht : c.target = id
    · rw [calls_on_cons_eq id c cs ht] at h
      exact absurd h (List.cons_ne_nil _ _)
    · rw [calls_on_cons_ne id c cs ht] at h
      have hn : dB_writes id (c :: cs) = dB_writes id cs := by
        unfold dB_writes
        rw [List.filterMap_cons_none]
        cases c with
        | set_dB i d => exact if_neg ht
        | _ => rfl
      rw [hn]
      exact ih h

/-- The dial position 0 decodes to the floor value. -/
theorem knob_to_db_zero : knob_to_db 0 = -128 := by
  have h := rint_intCast (-128)
  simp only [knob_to_db, knob_to_db_raw, Real.sqrt_zero, zero_div, zero_mul, zero_sub]
  rw [if_neg (by norm_num)]
  simpa using h

/-- Conversion of an integer value to `long` is exact. -/
theorem to_long_intCast (n : ℤ) : to_long (n : ℝ) = n := by
  unfold to_long
  split_ifs <;> simp

/-- The control at an index of a registry of 158 copies of one element. -/
theorem deref_replicate (ui : RobTkApp) (x : Elem) (hui : ui.ctrl = List.replicate 158 x)
    (id : Nat) (hid : id < 158) : deref ui (some id) = some (id, x) := by
  have e : ui.ctrl[id]? = some x := by
    rw [hui, List.getElem?_replicate, if_pos hid]
  simp only [deref, e]

/-! ## Force-resend of enumerated controls -/

/-- Counterexample of C9: on the sample registry with every control at item 1 and every
select widget at item 0, the capture selector control 13 (two items, current index 1) is
written 1 and then 0 and ends at 0, not at its pre-call value 1; the enumerated Hi-Z
controls 11 and 12 get no call at all and keep their value. -/
theorem cb_btn_reset_enum_stale :
    src_sel 0 = some 13 ∧ hiz 0 = some 11 ∧ hiz 1 = some 12 ∧
      stale_app.src_sel 0 = 0 ∧ (stale_app.hw 13).enum_item = 1 ∧
      ∃ ui' added, cb_btn_reset stale_app = some ui' ∧ ui'.log = stale_app.log ++ added ∧
        enum_writes 13 added = [1, 0] ∧ (ui'.hw 13).enum_item = 0 ∧
        (ui'.hw 13).enum_item ≠ (stale_app.hw 13).enum_item ∧
        calls_on 11 added = [] ∧ calls_on 12 added = [] ∧
        ui'.hw 11 = stale_app.hw 11 ∧ ui'.hw 12 = stale_app.hw 12 := by
  have hok : registry_ok stale_app :=
    registry_ok_replicate stale_app sample_elem rfl rfl (by decide) rfl
  have hd : deref stale_app (Selector.src 0).ctrl = some (13, sample_elem) := by
    show deref stale_app (src_sel 0) = _
    rw [src_sel_eq 0 (by decide)]
    exact deref_replicate stale_app sample_elem rfl 13 (by decide)
  have hw := enum_writes_cb_btn_reset stale_app (Selector.src 0) (by decide) 13 sample_elem hd
  have hfin := (cb_btn_reset_enum_effect stale_app (Selector.src 0) (by decide) 13 sample_elem
    hd).2
  have h11 := calls_on_cb_btn_reset_none stale_app 11 (Or.inr (Or.inl rfl))
  have h12 := calls_on_cb_btn_reset_none stale_app 12 (Or.inr (Or.inr rfl))
  have e13 : ((emit (cb_btn_reset_calls stale_app) stale_app).hw 13).enum_item = 0 := by
    rw [hfin]
    decide
  refine ⟨rfl, rfl, rfl, rfl, rfl, _, cb_btn_reset_calls stale_app,
    cb_btn_reset_eq stale_app hok, rfl, ?_, e13, ?_, h11, h12, ?_, ?_⟩
  · rw [hw]
    decide
  · rw [e13]
    decide
  · rw [emit_hw_calls_on, h11]
    rfl
  · rw [emit_hw_calls_on, h12]
    rfl

/-- C9 (amended): on a registry of the expected shape, for the control of every capture,
matrix-row and output selector whose select widget holds an index `val` with
`0 <= val < itemCount`, `cb_btn_reset` returns and makes two calls on the control, writing
`(val + 1) mod itemCount`, a valid index, and then `val`; the control is left with what
the two writes make of it and ends at `val`, which is its pre-call value when the control
held `val` before the call, and always when `itemCount = 1` and the control held a valid
index. -/
theorem cb_btn_reset_enum (ui : RobTkApp) (hok : registry_ok ui) (sel : Selector)
    (hv : sel.valid) (id : Nat) (e : Elem) (hd : deref ui sel.ctrl = some (id, e))
    (h0 : 0 ≤ sel.value ui) (h1 : sel.value ui < e.enum_items) :
    ∃ ui' added, cb_btn_reset ui = some ui' ∧ ui'.log = ui.log ++ added ∧
      calls_on id added =
        [Call.set_enum id ((sel.value ui + 1) % e.enum_items), Call.set_enum id (sel.value ui)] ∧
      enum_writes id added = [(sel.value ui + 1) % e.enum_items, sel.value ui] ∧
      0 ≤ (sel.value ui + 1) % e.enum_items ∧
      (sel.value ui + 1) % e.enum_items < e.enum_items ∧
      ui'.hw id = snd_mixer_selem_set_enum_item e (sel.value ui)
        (snd_mixer_selem_set_enum_item e ((sel.value ui + 1) % e.enum_items) (ui.hw id)) ∧
      (ui'.hw id).enum_item = sel.value ui ∧
      ((ui.hw id).enum_item = sel.value ui → (ui'.hw id).enum_item = (ui.hw id).enum_item) ∧
      (e.enum_items = 1 → 0 ≤ (ui.hw id).enum_item → (ui.hw id).enum_item < e.enum_items →
        (ui'.hw id).enum_item = (ui.hw id).enum_item) := by
  have hpos : 0 < e.enum_items := by omega
  have hmod : Int.tmod (sel.value ui + 1) e.enum_items = (sel.value ui + 1) % e.enum_items :=
    Int.tmod_eq_emod (by omega) hpos.le
  have hw := enum_writes_cb_btn_reset ui sel hv id e hd
  obtain ⟨hcalls, hfin⟩ := cb_btn_reset_enum_effect ui sel hv id e hd
  rw [hmod] at hw hcalls hfin
  have hlo : 0 ≤ (sel.value ui + 1) % e.enum_items := Int.emod_nonneg _ (by omega)
  have hhi : (sel.value ui + 1) % e.enum_items < e.enum_items := Int.emod_lt_of_pos _ hpos
  have hend : ((emit (cb_btn_reset_calls ui) ui).hw id).enum_item = sel.value ui := by
    rw [hfin]
    unfold snd_mixer_selem_set_enum_item
    rw [if_pos ⟨h0, h1⟩]
  refine ⟨emit (cb_btn_reset_calls ui) ui, cb_btn_reset_calls ui, cb_btn_reset_eq ui hok, rfl,
    hcalls, hw, hlo, hhi, hfin, hend, fun hs => by rw [hend, hs], fun h1' hl hh => ?_⟩
  rw [hend]
  omega

/-- Witness of C9 (amended): capture selector 0 (control 13) of a registry whose
enumerated controls have a single item, holding index 0. -/
theorem cb_btn_reset_enum_witness :
    ∃ ui' added, cb_btn_reset one_item_app = some ui' ∧
      ui'.log = one_item_app.log ++ added ∧
      calls_on 13 added = [Call.set_enum 13 ((0 + 1) % 1), Call.set_enum 13 0] ∧
      enum_writes 13 added = [(0 + 1) % 1, 0] ∧
      (0 : Int) ≤ (0 + 1) % 1 ∧ ((0 : Int) + 1) % 1 < 1 ∧
      ui'.hw 13 = snd_mixer_selem_set_enum_item { sample_elem with enum_items := 1 } 0
        (snd_mixer_selem_set_enum_item { sample_elem with enum_items := 1 } ((0 + 1) % 1)
          (one_item_app.hw 13)) ∧
      (ui'.hw 13).enum_item = 0 ∧
      ((one_item_app.hw 13).enum_item = 0 →
        (ui'.hw 13).enum_item = (one_item_app.hw 13).enum_item) ∧
      ((1 : Int) = 1 → 0 ≤ (one_item_app.hw 13).enum_item →
        (one_item_app.hw 13).enum_item < 1 →
        (ui'.hw 13).enum_item = (one_item_app.hw 13).enum_item) :=
  cb_btn_reset_enum one_item_app
    (registry_ok_replicate one_item_app { sample_elem with enum_items := 1 } rfl rfl
      (by decide) rfl)
    (Selector.src 0) (by decide) 13 { sample_elem with enum_items := 1 }
    one_item_app_src_zero (by decide) (by decide)

/-! ## Force-resend of gain controls -/

/-- C10: on a registry of the expected shape `cb_btn_reset` returns, and for the control
of every matrix cell and output gain, with `val = knob_to_db v` for its dial position `v`,
it writes exactly two dB values, first 127 if `val = -128` and -128 otherwise, then `val`,
the first differs from `val`, and the control is left with what the two writes make of
its gains: `val` in hundredths of a dB, within the range of the control, on each of its
channels 0 to 2. On the master gain, control 0, it makes no call at all: no dB value is
written and the control keeps the value it had, whatever the position of its dial. -/
theorem cb_btn_reset_gain_skips_master (ui : RobTkApp) (hok : registry_ok ui) :
    mst_gain = some 0 ∧
      ∃ ui' added, cb_btn_reset ui = some ui' ∧ ui'.log = ui.log ++ added ∧
        calls_on 0 added = [] ∧ dB_writes 0 added = [] ∧ ui'.hw 0 = ui.hw 0 ∧
        ∀ (g : Gain) (id : Nat) (e : Elem), g.valid → deref ui g.ctrl = some (id, e) →
          dB_writes id added =
            [if knob_to_db (g.dial ui) = -128 then 127 else -128, knob_to_db (g.dial ui)] ∧
          (if knob_to_db (g.dial ui) = -128 then (127 : ℝ) else -128) ≠
            knob_to_db (g.dial ui) ∧
          (∃ x : ElemVal, x.playback_dB = (ui.hw id).playback_dB ∧
            ui'.hw id = set_dB_channels e (to_long (100 * knob_to_db (g.dial ui)))
              (set_dB_channels e
                (to_long (100 * (if knob_to_db (g.dial ui) = -128 then 127 else -128))) x)) ∧
          ∀ chn, chn < 3 → e.has_playback_channel chn = true →
            (ui'.hw id).playback_dB chn =
              max e.dB_min (min (to_long (100 * knob_to_db (g.dial ui))) e.dB_max) := by
  have hm := calls_on_cb_btn_reset_none ui 0 (Or.inl rfl)
  refine ⟨rfl, emit (cb_btn_reset_calls ui) ui, cb_btn_reset_calls ui, cb_btn_reset_eq ui hok,
    rfl, hm, dB_writes_calls_on 0 _ hm, ?_, fun g id e hv hd => ?_⟩
  · rw [emit_hw_calls_on, hm]
    rfl
  · obtain ⟨x, hx, hfin⟩ := cb_btn_reset_gain_effect ui g hv id e hd
    refine ⟨dB_writes_cb_btn_reset ui g hv id (deref_eq_some hd).1, ?_, ⟨x, hx, hfin⟩,
      fun chn h3 hc => ?_⟩
    · by_cases h : knob_to_db (g.dial ui) = -128
      · rw [if_pos h, h]; norm_num
      · rw [if_neg h]; exact fun h' => h h'.symm
    · rw [hfin]
      exact (set_dB_channels_dB e _ _ chn).1 h3 hc

/-- Witness of C10 on the sample registry, every dial at position 0 and every gain at
0 dB: `val = -128`, the matrix cell control 33 is written 127 and then -128 and ends at
-12800 hundredths of a dB, and the master gain control 0 gets no call and stays as it
was. -/
theorem cb_btn_reset_gain_skips_master_witness :
    mst_gain = some 0 ∧ knob_to_db sample_app.mst_gain.cur = -128 ∧
      ∃ ui' added, cb_btn_reset sample_app = some ui' ∧ ui'.log = sample_app.log ++ added ∧
        calls_on 0 added = [] ∧ dB_writes 0 added = [] ∧ ui'.hw 0 = sample_app.hw 0 ∧
        dB_writes 33 added = [127, -128] ∧
        (sample_app.hw 33).playback_dB 0 = 0 ∧ (ui'.hw 33).playback_dB 0 = -12800 := by
  obtain ⟨h0, ui', added, h1, h2, h3, h4, h5, hg⟩ :=
    cb_btn_reset_gain_skips_master sample_app sample_app_ok
  have hd : deref sample_app (Gain.cell 0 0).ctrl = some (33, sample_elem) :=
    deref_replicate sample_app sample_elem rfl 33 (by decide)
  obtain ⟨g1, _, _, g4⟩ := hg (Gain.cell 0 0) 33 sample_elem (by decide) hd
  have hv : knob_to_db (Gain.dial sample_app (Gain.cell 0 0)) = -128 := knob_to_db_zero
  have hl : to_long (100 * (-128 : ℝ)) = -12800 := by
    have e : (100 * (-128 : ℝ)) = ((-12800 : ℤ) : ℝ) := by norm_num
    rw [e, to_long_intCast]
  rw [hv, if_pos rfl] at g1
  have g5 := g4 0 (by decide) rfl
  rw [hv, hl] at g5
  exact ⟨h0, knob_to_db_zero, ui', added, h1, h2, h3, h4, h5, g1, rfl, g5⟩

end Scarlett
